import Mathlib

/-! Rotor parameters (AirLib, `vehicles/multirotor/RotorParams.hpp`)

A shallow embedding of `struct RotorParams` and its two member functions,
`getParamsList` and `calculateMaxThrust`.

* `real_T` (declared in `common/Common.hpp`) is a type parameter carrying the
  arithmetic the code uses. It is instantiated twice: with `ℝ`, for what the assigned
  formulas say, and with `FP`, the values of a C++ `float` under binary32
  round-to-nearest arithmetic, for what the compiled code computes.
* `M_PIf` (also from `common/Common.hpp`) is a parameter of
  `calculateMaxThrust`, instantiated with `Real.pi` and with `M_PIf32`.
* The parsed JSON object `jsonParams` is a partial map from key names to numbers.
  Locating, opening and parsing the file happens before the first field is read
  and is not part of the embedding.
-/

namespace msr.airlib

/-- The record `struct RotorParams`: eight configured coefficients followed by the
five quantities that `calculateMaxThrust` assigns. -/
structure RotorParams (real_T : Type) where
  C_T : real_T
  C_P : real_T
  air_density : real_T
  max_rpm : real_T
  propeller_diameter : real_T
  propeller_height : real_T
  control_signal_filter_tc : real_T
  rotor_z : real_T
  revolutions_per_second : real_T
  max_speed : real_T
  max_speed_square : real_T
  max_thrust : real_T
  max_torque : real_T
deriving DecidableEq, Repr

/-- How a run of `getParamsList` ends: it either reaches the end of the body, or the
conversion of `jsonParams[key]` to a number throws because `key` is not in the object
(`operator[]` yields a null value there, and a null value has no numeric
conversion). -/
inductive Outcome where
  | completed : Outcome
  | threw (key : String) : Outcome
deriving DecidableEq, Repr

/-- One statement `field = jsonParams[key];` followed by the remaining statements
`rest`. When the key is absent the exception leaves the function at once, with the
object as the earlier statements left it. -/
def assignFrom {real_T : Type} (jsonParams : String → Option real_T) (key : String)
    (store : real_T → RotorParams real_T → RotorParams real_T)
    (rest : RotorParams real_T → Outcome × RotorParams real_T)
    (s : RotorParams real_T) : Outcome × RotorParams real_T :=
  match jsonParams key with
  | none => (Outcome.threw key, s)
  | some v => rest (store v s)

/-- The field-reading part of `RotorParams::getParamsList` (source lines 85-95): ten
assignments from `jsonParams`, in source order, the last one dividing by 100. The
quotient `jsonParams["rotor_z"] / 100` is taken in `real_T`. -/
def getParamsList {real_T : Type} [Field real_T] (jsonParams : String → Option real_T) :
    RotorParams real_T → Outcome × RotorParams real_T :=
  assignFrom jsonParams "C_T" (fun v s => { s with C_T := v }) <|
  assignFrom jsonParams "C_P" (fun v s => { s with C_P := v }) <|
  assignFrom jsonParams "air_density" (fun v s => { s with air_density := v }) <|
  assignFrom jsonParams "max_rpm" (fun v s => { s with max_rpm := v }) <|
  assignFrom jsonParams "propeller_diameter" (fun v s => { s with propeller_diameter := v }) <|
  assignFrom jsonParams "propeller_height" (fun v s => { s with propeller_height := v }) <|
  assignFrom jsonParams "control_signal_filter_tc"
    (fun v s => { s with control_signal_filter_tc := v }) <|
  assignFrom jsonParams "max_thrust" (fun v s => { s with max_thrust := v }) <|
  assignFrom jsonParams "max_torque" (fun v s => { s with max_torque := v }) <|
  assignFrom jsonParams "rotor_z" (fun v s => { s with rotor_z := v / 100 }) <|
  fun s => (Outcome.completed, s)

/-- The member function `RotorParams::calculateMaxThrust` (source lines 102-111). The
five assignments are made in source order, each reading the values assigned before
it. `pow(x, 2.0f)`, `pow(x, 4)` and `pow(x, 5)` are the second, fourth and fifth
powers of `x`. -/
def calculateMaxThrust {real_T : Type} [Mul real_T] [Div real_T] [Pow real_T ℕ]
    [OfNat real_T 2] [OfNat real_T 60] (M_PIf : real_T)
    (s : RotorParams real_T) : RotorParams real_T :=
  let revolutions_per_second := s.max_rpm / 60
  let max_speed := revolutions_per_second * 2 * M_PIf
  let max_speed_square := max_speed ^ 2
  let nsquared := revolutions_per_second * revolutions_per_second
  let max_thrust := s.C_T * s.air_density * nsquared * s.propeller_diameter ^ 4
  let max_torque := s.C_P * s.air_density * nsquared * s.propeller_diameter ^ 5 / (2 * M_PIf)
  { s with
    revolutions_per_second := revolutions_per_second
    max_speed := max_speed
    max_speed_square := max_speed_square
    max_thrust := max_thrust
    max_torque := max_torque }

/-- A quotient that is defined only for a non-zero divisor. -/
def definedDiv {real_T : Type} [Field real_T] [DecidableEq real_T] (a b : real_T) :
    Option real_T :=
  if b = 0 then none else some (a / b)

/-- The body of `RotorParams::calculateMaxThrust` (source lines 104-110) once more,
statement by statement, with its two quotients `max_rpm / 60` and `... / (2 * M_PIf)`
taken by `definedDiv`: the result is `none` as soon as a divisor is zero. Products and
powers are defined for all arguments. -/
def calculateMaxThrustDefined {real_T : Type} [Field real_T] [DecidableEq real_T]
    (M_PIf : real_T) (s : RotorParams real_T) : Option (RotorParams real_T) := do
  let revolutions_per_second ← definedDiv s.max_rpm 60
  let max_speed := revolutions_per_second * 2 * M_PIf
  let max_speed_square := max_speed ^ 2
  let nsquared := revolutions_per_second * revolutions_per_second
  let max_thrust := s.C_T * s.air_density * nsquared * s.propeller_diameter ^ 4
  let max_torque ←
    definedDiv (s.C_P * s.air_density * nsquared * s.propeller_diameter ^ 5) (2 * M_PIf)
  pure { s with
    revolutions_per_second := revolutions_per_second
    max_speed := max_speed
    max_speed_square := max_speed_square
    max_thrust := max_thrust
    max_torque := max_torque }

/-! ## Binary floating-point arithmetic -/

/-- Rounding of a rational to the nearest integer, a tie going to the even one. -/
def roundNearestEven (x : ℚ) : ℤ :=
  if x - ⌊x⌋ < 1 / 2 then ⌊x⌋
  else if 1 / 2 < x - ⌊x⌋ then ⌊x⌋ + 1
  else if ⌊x⌋ % 2 = 0 then ⌊x⌋ else ⌊x⌋ + 1

/-- The exponent `k` such that, in a format with `prec` significand bits and largest
exponent `emax`, the representable magnitudes next to `a` are the multiples of
`2 ^ k`: the binade of `a`, but not below the smallest normal exponent `1 - emax`,
less `prec - 1`. -/
def spacingExponent (prec : ℕ) (emax : ℤ) (a : ℚ) : ℤ :=
  max (Int.log 2 a) (1 - emax) - ((prec : ℤ) - 1)

/-- The magnitude `a` rounded to the nearest multiple of its spacing, ties to even. -/
def roundMagnitude (prec : ℕ) (emax : ℤ) (a : ℚ) : ℚ :=
  roundNearestEven (a / 2 ^ spacingExponent prec emax a) * 2 ^ spacingExponent prec emax a

/-- A floating-point datum: not-a-number, an infinity with its sign, or a finite
value. A zero carries no sign: the code never divides by a zero and compares with
`==`, for which `-0` and `+0` are the same. -/
inductive FP where
  | nan : FP
  | inf (negative : Bool) : FP
  | fin (q : ℚ) : FP
deriving DecidableEq, Repr

namespace FP

/-- Rounding to nearest, ties to even, in the format with `prec` significand bits and
largest exponent `emax`: a magnitude that rounds to `2 ^ (emax + 1)` or more becomes
an infinity, one below half the smallest subnormal becomes zero. -/
def roundTo (prec : ℕ) (emax : ℤ) (q : ℚ) : FP :=
  if (2 : ℚ) ^ (emax + 1) ≤ roundMagnitude prec emax |q| then inf (decide (q < 0))
  else fin (if q < 0 then -roundMagnitude prec emax |q| else roundMagnitude prec emax |q|)

/-- Rounding to binary32, the format of `float`. -/
def round32 (q : ℚ) : FP := roundTo 24 127 q

/-- Rounding to binary64, the format of `double`. -/
def round64 (q : ℚ) : FP := roundTo 53 1023 q

/-- The conversion of a `double` to `real_T`, as in `static_cast<real_T>(pow(...))`. -/
def narrow : FP → FP
  | fin q => round32 q
  | x => x

/-- The negation `-x`. -/
def neg : FP → FP
  | nan => nan
  | inf negative => inf (!negative)
  | fin q => fin (-q)

/-- The product `x * y` of two `float`s: a not-a-number when an operand is one or when
an infinity meets a zero, an infinity when an operand is one, else the rounded
product. -/
def mul : FP → FP → FP
  | nan, _ => nan
  | _, nan => nan
  | inf a, inf b => inf (xor a b)
  | inf a, fin q => if q = 0 then nan else inf (xor a (decide (q < 0)))
  | fin q, inf b => if q = 0 then nan else inf (xor (decide (q < 0)) b)
  | fin a, fin b => round32 (a * b)

/-- The quotient `x / y` of two `float`s; a zero divisor is taken as `+0`. -/
def div : FP → FP → FP
  | nan, _ => nan
  | _, nan => nan
  | inf _, inf _ => nan
  | inf a, fin q => inf (xor a (decide (q < 0)))
  | fin _, inf _ => fin 0
  | fin a, fin b =>
    if b = 0 then (if a = 0 then nan else inf (decide (a < 0))) else round32 (a / b)

/-- The library call `pow(x, n)` for an integral exponent `n`, computed in `double`
(`x` converts to `double` without change) and converted back to `real_T`: the power
is taken as correctly rounded. The square of a `float` is exact in `double`, so
`pow(x, 2.0f)` is the `float` nearest to the square whether the library computes it
in `float` or in `double`. -/
def pow (x : FP) (n : ℕ) : FP :=
  match x with
  | nan => if n = 0 then fin 1 else nan
  | inf negative => if n = 0 then fin 1 else inf (negative && decide (n % 2 = 1))
  | fin q => narrow (round64 (q ^ n))

/-- The comparison `x < y`, false as soon as an operand is a not-a-number. -/
def lt : FP → FP → Prop
  | fin a, fin b => a < b
  | inf true, fin _ => True
  | inf true, inf false => True
  | fin _, inf false => True
  | _, _ => False

/-- The comparison `x <= y`, false as soon as an operand is a not-a-number. -/
def le : FP → FP → Prop
  | fin a, fin b => a ≤ b
  | inf true, fin _ => True
  | inf true, inf _ => True
  | fin _, inf false => True
  | inf false, inf false => True
  | _, _ => False

/-- The datum is finite: neither an infinity nor a not-a-number. -/
def isFinite : FP → Prop
  | fin _ => True
  | _ => False

instance : Neg FP := ⟨neg⟩

instance : Mul FP := ⟨mul⟩

instance : Div FP := ⟨div⟩

instance : Pow FP ℕ := ⟨pow⟩

instance : LT FP := ⟨lt⟩

instance : LE FP := ⟨le⟩

/-- An integer literal converts to the nearest `float`. -/
instance (n : ℕ) : OfNat FP n := ⟨round32 n⟩

end FP

/-- Modelled from the spec: the constant `M_PIf` of `common/Common.hpp`, which is not
among the sources; the spec has `2π` use "the same precision's pi constant". This is
the binary32 value nearest to pi, `0x40490FDB = 13176795 / 2 ^ 22`. -/
def M_PIf32 : FP := FP.fin (13176795 / 4194304)

namespace FP

/-- The datum is a normal `float`: finite, of magnitude at least `2 ^ (-126)`. -/
def isNormal : FP → Prop
  | fin q => (2 : ℚ) ^ (-126 : ℤ) ≤ |q|
  | _ => False

/-- The rational value of a finite datum (and 0 for the others). -/
def toRat : FP → ℚ
  | fin q => q
  | _ => 0

end FP

/-- The factor `t` is within `m` roundings of 1: between `(1 - 2 ^ (-24)) ^ m` and its
inverse. -/
def withinRounding (m : ℕ) (t : ℚ) : Prop :=
  (1 - 2 ^ (-24 : ℤ)) ^ m ≤ t ∧ t ≤ ((1 - 2 ^ (-24 : ℤ)) ^ m)⁻¹

/-- Every value that `calculateMaxThrust` computes on the record, in source order, is a
normal `float`: nothing overflows, underflows or is a not-a-number. -/
def normalRange (M_PIf : FP) (s : RotorParams FP) : Prop :=
  (s.max_rpm / 60).isNormal ∧
  (s.max_rpm / 60 * 2).isNormal ∧
  (s.max_rpm / 60 * 2 * M_PIf).isNormal ∧
  ((s.max_rpm / 60 * 2 * M_PIf) ^ 2).isNormal ∧
  (s.max_rpm / 60 * (s.max_rpm / 60)).isNormal ∧
  (s.C_T * s.air_density).isNormal ∧
  (s.C_T * s.air_density * (s.max_rpm / 60 * (s.max_rpm / 60))).isNormal ∧
  (s.propeller_diameter ^ 4).isNormal ∧
  (s.C_T * s.air_density * (s.max_rpm / 60 * (s.max_rpm / 60))
    * s.propeller_diameter ^ 4).isNormal ∧
  (s.C_P * s.air_density).isNormal ∧
  (s.C_P * s.air_density * (s.max_rpm / 60 * (s.max_rpm / 60))).isNormal ∧
  (s.propeller_diameter ^ 5).isNormal ∧
  (s.C_P * s.air_density * (s.max_rpm / 60 * (s.max_rpm / 60))
    * s.propeller_diameter ^ 5).isNormal ∧
  (s.C_P * s.air_density * (s.max_rpm / 60 * (s.max_rpm / 60))
    * s.propeller_diameter ^ 5 / (2 * M_PIf)).isNormal

/-- The value `v'` is `κ * v` up to `m` roundings: `v' = κ * v * g` for a factor `g`
within `m` roundings of 1. -/
def scaledWithin (m : ℕ) (κ v v' : ℚ) : Prop :=
  ∃ g, withinRounding m g ∧ v' = κ * v * g

/-! ## Concrete inputs -/

/-- A JSON object given by its members: the lookup finds the first member named `k`. -/
def jsonObject {real_T : Type} (members : List (String × real_T)) : String → Option real_T :=
  fun k => members.lookup k

/-- A record with every field zero. -/
def zeroParams {real_T : Type} [Field real_T] : RotorParams real_T :=
  ⟨0, 0, 0, 0, 0, 0, 0, 0, 0, 0, 0, 0, 0⟩

/-- An object holding every key that `getParamsList` reads, `rotor_z` being 100. -/
def fullObject {real_T : Type} [Field real_T] : String → Option real_T :=
  jsonObject [("C_T", 1), ("C_P", 2), ("air_density", 3), ("max_rpm", 4),
    ("propeller_diameter", 5), ("propeller_height", 6), ("control_signal_filter_tc", 7),
    ("max_thrust", 8), ("max_torque", 9), ("rotor_z", 100)]

/-- The object `fullObject` without its member `max_rpm`. -/
def objectWithoutMaxRpm {real_T : Type} [Field real_T] : String → Option real_T :=
  jsonObject [("C_T", 1), ("C_P", 2), ("air_density", 3),
    ("propeller_diameter", 5), ("propeller_height", 6), ("control_signal_filter_tc", 7),
    ("max_thrust", 8), ("max_torque", 9), ("rotor_z", 100)]

/-- An object holding the eight coefficient keys and no other key. -/
def eightCoefficientObject {real_T : Type} [Field real_T] : String → Option real_T :=
  jsonObject [("C_T", 1), ("C_P", 2), ("air_density", 3), ("max_rpm", 4),
    ("propeller_diameter", 5), ("propeller_height", 6), ("control_signal_filter_tc", 7),
    ("rotor_z", 100)]

/-- A record whose coefficients are all 1, spinning at 60 revolutions per minute. -/
def unitParams {real_T : Type} [OfNat real_T 0] [OfNat real_T 1] [OfNat real_T 60] :
    RotorParams real_T :=
  ⟨1, 1, 1, 60, 1, 1, 1, 1, 0, 0, 0, 0, 0⟩

/-- A record with all coefficients 1 except `propeller_diameter = 0`, spinning at
`60 * 2 ^ 70` revolutions per minute (a `float`: `15 * 2 ^ 72`). -/
def overflowParams : RotorParams FP :=
  ⟨1, 1, 1, FP.fin (15 * 2 ^ 72), 0, 1, 1, 1, 0, 0, 0, 0, 0⟩

/-- A record with all coefficients 1, spinning backwards at `60 * 2 ^ (-100)`
revolutions per minute (a `float`: `-15 * 2 ^ (-98)`). -/
def underflowParams : RotorParams FP :=
  ⟨1, 1, 1, FP.fin (-(15 * 2 ^ (-98 : ℤ))), 1, 1, 1, 1, 0, 0, 0, 0, 0⟩

/-- A record with `C_T = 2 ^ 20`, `propeller_diameter = 2 ^ (-31)` and the other
coefficients 1, spinning at 60 revolutions per minute. -/
def smallDiameterParams : RotorParams FP :=
  ⟨FP.fin (2 ^ 20), 1, 1, 60, FP.fin (2 ^ (-31 : ℤ)), 1, 1, 1, 0, 0, 0, 0, 0⟩

/-! ## Rounding to nearest -/

theorem roundNearestEven_intCast (n : ℤ) : roundNearestEven (n : ℚ) = n := by
  simp [roundNearestEven]

theorem floor_le_roundNearestEven (x : ℚ) : ⌊x⌋ ≤ roundNearestEven x := by
  unfold roundNearestEven
  split_ifs <;> omega

theorem roundNearestEven_le_floor_add_one (x : ℚ) : roundNearestEven x ≤ ⌊x⌋ + 1 := by
  unfold roundNearestEven
  split_ifs <;> omega

theorem le_roundNearestEven {n : ℤ} {x : ℚ} (h : (n : ℚ) ≤ x) : n ≤ roundNearestEven x :=
  le_trans (Int.le_floor.mpr h) (floor_le_roundNearestEven x)

theorem roundNearestEven_le {n : ℤ} {x : ℚ} (h : x ≤ (n : ℚ)) : roundNearestEven x ≤ n := by
  rcases eq_or_lt_of_le h with h | h
  · rw [h, roundNearestEven_intCast]
  · have : ⌊x⌋ < n := Int.floor_lt.mpr h
    have := roundNearestEven_le_floor_add_one x
    omega

theorem roundNearestEven_mono {x y : ℚ} (h : x ≤ y) : roundNearestEven x ≤ roundNearestEven y := by
  have hf : ⌊x⌋ ≤ ⌊y⌋ := Int.floor_mono h
  rcases eq_or_lt_of_le hf with hf | hf
  · unfold roundNearestEven
    rw [← hf]
    split_ifs <;> first | omega | (exfalso; linarith)
  · have h1 := roundNearestEven_le_floor_add_one x
    have h2 := floor_le_roundNearestEven y
    omega

theorem roundNearestEven_eq_zero {x : ℚ} (h0 : 0 ≤ x) (h : x < 1 / 2) :
    roundNearestEven x = 0 := by
  have hf : ⌊x⌋ = 0 := Int.floor_eq_iff.mpr ⟨by simpa using h0, by simp; linarith⟩
  have hx : x - ((0 : ℤ) : ℚ) < 1 / 2 := by simpa using h
  unfold roundNearestEven
  rw [hf, if_pos hx]

theorem two_zpow_pos (j : ℤ) : (0 : ℚ) < 2 ^ j := zpow_pos (by norm_num) j

theorem two_zpow_eq_intCast {j : ℤ} (hj : 0 ≤ j) : (2 : ℚ) ^ j = (((2 : ℤ) ^ j.toNat : ℤ) : ℚ) := by
  lift j to ℕ using hj
  simp

theorem roundMagnitude_nonneg (prec : ℕ) (emax : ℤ) {a : ℚ} (ha : 0 ≤ a) :
    0 ≤ roundMagnitude prec emax a := by
  unfold roundMagnitude
  have h0 : ((0 : ℤ) : ℚ) ≤ a / 2 ^ spacingExponent prec emax a := by
    simpa using div_nonneg ha (two_zpow_pos _).le
  have h1 : (0 : ℤ) ≤ roundNearestEven (a / 2 ^ spacingExponent prec emax a) :=
    le_roundNearestEven h0
  exact mul_nonneg (by exact_mod_cast h1) (two_zpow_pos _).le

theorem roundMagnitude_zero (prec : ℕ) (emax : ℤ) : roundMagnitude prec emax 0 = 0 := by
  simp [roundMagnitude, roundNearestEven]

/-- a value at or above the power of two of its spacing class rounds to at least that power -/
theorem le_roundMagnitude {prec : ℕ} (hp : 1 ≤ prec) (emax : ℤ) {a : ℚ}
    (h : (2 : ℚ) ^ (spacingExponent prec emax a + ((prec : ℤ) - 1)) ≤ a) :
    (2 : ℚ) ^ (spacingExponent prec emax a + ((prec : ℤ) - 1)) ≤ roundMagnitude prec emax a := by
  have hj : (0 : ℤ) ≤ (prec : ℤ) - 1 := by omega
  have hu := two_zpow_pos (spacingExponent prec emax a)
  have h1 : (((2 : ℤ) ^ ((prec : ℤ) - 1).toNat : ℤ) : ℚ) ≤ a / 2 ^ spacingExponent prec emax a := by
    rw [← two_zpow_eq_intCast hj, le_div_iff₀ hu, ← zpow_add₀ (by norm_num : (2 : ℚ) ≠ 0),
      add_comm]
    exact h
  have h2 := le_roundNearestEven h1
  have h3 : (((2 : ℤ) ^ ((prec : ℤ) - 1).toNat : ℤ) : ℚ)
      ≤ (roundNearestEven (a / 2 ^ spacingExponent prec emax a) : ℚ) := by exact_mod_cast h2
  unfold roundMagnitude
  calc (2 : ℚ) ^ (spacingExponent prec emax a + ((prec : ℤ) - 1))
      = (((2 : ℤ) ^ ((prec : ℤ) - 1).toNat : ℤ) : ℚ) * 2 ^ spacingExponent prec emax a := by
        rw [← two_zpow_eq_intCast hj, ← zpow_add₀ (by norm_num : (2 : ℚ) ≠ 0), add_comm]
    _ ≤ _ := mul_le_mul_of_nonneg_right h3 hu.le

/-- a value rounds to at most the next power of two above its spacing class -/
theorem roundMagnitude_le {prec : ℕ} (emax : ℤ) {a : ℚ}
    (h : a ≤ (2 : ℚ) ^ (spacingExponent prec emax a + (prec : ℤ))) :
    roundMagnitude prec emax a ≤ (2 : ℚ) ^ (spacingExponent prec emax a + (prec : ℤ)) := by
  have hj : (0 : ℤ) ≤ (prec : ℤ) := by omega
  have hu := two_zpow_pos (spacingExponent prec emax a)
  have h1 : a / 2 ^ spacingExponent prec emax a ≤ (((2 : ℤ) ^ ((prec : ℤ)).toNat : ℤ) : ℚ) := by
    rw [← two_zpow_eq_intCast hj, div_le_iff₀ hu, ← zpow_add₀ (by norm_num : (2 : ℚ) ≠ 0),
      add_comm]
    exact h
  have h2 := roundNearestEven_le h1
  have h3 : (roundNearestEven (a / 2 ^ spacingExponent prec emax a) : ℚ)
      ≤ (((2 : ℤ) ^ ((prec : ℤ)).toNat : ℤ) : ℚ) := by exact_mod_cast h2
  unfold roundMagnitude
  calc _ ≤ (((2 : ℤ) ^ ((prec : ℤ)).toNat : ℤ) : ℚ) * 2 ^ spacingExponent prec emax a :=
        mul_le_mul_of_nonneg_right h3 hu.le
    _ = _ := by
        rw [← two_zpow_eq_intCast hj, ← zpow_add₀ (by norm_num : (2 : ℚ) ≠ 0), add_comm]

theorem spacingExponent_add (prec : ℕ) (emax : ℤ) (a : ℚ) :
    spacingExponent prec emax a + (prec : ℤ) = max (Int.log 2 a) (1 - emax) + 1 := by
  unfold spacingExponent; ring

theorem lt_two_zpow_spacing (prec : ℕ) (emax : ℤ) (a : ℚ) :
    a < (2 : ℚ) ^ (spacingExponent prec emax a + (prec : ℤ)) := by
  rw [spacingExponent_add]
  have h1 : a < ((2 : ℕ) : ℚ) ^ (Int.log 2 a + 1) := Int.lt_zpow_succ_log_self (by norm_num) a
  have h2 : ((2 : ℕ) : ℚ) ^ (Int.log 2 a + 1) ≤ (2 : ℚ) ^ (max (Int.log 2 a) (1 - emax) + 1) := by
    push_cast
    exact zpow_le_zpow_right₀ (by norm_num) (by have := le_max_left (Int.log 2 a) (1 - emax); omega)
  exact lt_of_lt_of_le h1 h2

theorem roundMagnitude_mono {prec : ℕ} (hp : 1 ≤ prec) (emax : ℤ) {a b : ℚ}
    (ha : 0 ≤ a) (hab : a ≤ b) : roundMagnitude prec emax a ≤ roundMagnitude prec emax b := by
  rcases eq_or_lt_of_le ha with ha0 | ha0
  · rw [← ha0, roundMagnitude_zero]
    exact roundMagnitude_nonneg prec emax (le_trans ha hab)
  have hb0 : 0 < b := lt_of_lt_of_le ha0 hab
  have hlog : Int.log 2 a ≤ Int.log 2 b := Int.log_mono_right ha0 hab
  have hE : spacingExponent prec emax a ≤ spacingExponent prec emax b := by
    unfold spacingExponent
    have := max_le_max hlog (le_refl (1 - emax))
    omega
  rcases eq_or_lt_of_le hE with hE | hE
  · unfold roundMagnitude
    rw [hE]
    have hu := two_zpow_pos (spacingExponent prec emax b)
    have h1 : a / 2 ^ spacingExponent prec emax b ≤ b / 2 ^ spacingExponent prec emax b :=
      div_le_div_of_nonneg_right hab hu.le
    have h2 := roundNearestEven_mono h1
    exact mul_le_mul_of_nonneg_right (by exact_mod_cast h2) hu.le
  · -- different spacing classes: a power of two separates the two values
    have hA := roundMagnitude_le emax (lt_two_zpow_spacing prec emax a).le
    have hlogb : spacingExponent prec emax b + ((prec : ℤ) - 1) = Int.log 2 b := by
      unfold spacingExponent at hE ⊢
      rcases max_cases (Int.log 2 b) (1 - emax) with ⟨h1, _⟩ | ⟨h1, _⟩
      · rw [h1]; ring
      · exfalso
        rw [h1] at hE
        have := le_max_right (Int.log 2 a) (1 - emax)
        omega
    have hB : (2 : ℚ) ^ (spacingExponent prec emax b + ((prec : ℤ) - 1))
        ≤ roundMagnitude prec emax b := by
      apply le_roundMagnitude hp
      rw [hlogb]
      have := Int.zpow_log_le_self (b := 2) (by norm_num) hb0
      simpa using this
    have hmid : (2 : ℚ) ^ (spacingExponent prec emax a + (prec : ℤ))
        ≤ (2 : ℚ) ^ (spacingExponent prec emax b + ((prec : ℤ) - 1)) :=
      zpow_le_zpow_right₀ (by norm_num) (by omega)
    exact le_trans hA (le_trans hmid hB)

theorem roundMagnitude_exact {prec : ℕ} (emax : ℤ) (n : ℕ) (k : ℤ)
    (hk : 1 - emax - ((prec : ℤ) - 1) ≤ k) (hn : n < 2 ^ prec) :
    roundMagnitude prec emax ((n : ℚ) * 2 ^ k) = (n : ℚ) * 2 ^ k := by
  rcases Nat.eq_zero_or_pos n with h0 | h0
  · subst h0
    simp [roundMagnitude_zero]
  have hpos : (0 : ℚ) < (n : ℚ) * 2 ^ k := mul_pos (by exact_mod_cast h0) (two_zpow_pos k)
  have hlt : (n : ℚ) * 2 ^ k < ((2 : ℕ) : ℚ) ^ ((prec : ℤ) + k) := by
    push_cast
    rw [zpow_add₀ (by norm_num : (2 : ℚ) ≠ 0), zpow_natCast]
    exact mul_lt_mul_of_pos_right (by exact_mod_cast hn) (two_zpow_pos k)
  have hlog : Int.log 2 ((n : ℚ) * 2 ^ k) < (prec : ℤ) + k :=
    (Int.lt_zpow_iff_log_lt (by norm_num) hpos).mp hlt
  have hu : spacingExponent prec emax ((n : ℚ) * 2 ^ k) ≤ k := by
    unfold spacingExponent
    rcases max_cases (Int.log 2 ((n : ℚ) * 2 ^ k)) (1 - emax) with ⟨h1, _⟩ | ⟨h1, _⟩ <;>
      rw [h1] <;> omega
  have hj : 0 ≤ k - spacingExponent prec emax ((n : ℚ) * 2 ^ k) := by omega
  have hdiv : (n : ℚ) * 2 ^ k / 2 ^ spacingExponent prec emax ((n : ℚ) * 2 ^ k)
      = (((n : ℤ) * (2 : ℤ) ^ (k - spacingExponent prec emax ((n : ℚ) * 2 ^ k)).toNat : ℤ) : ℚ) := by
    rw [Int.cast_mul, ← two_zpow_eq_intCast hj, zpow_sub₀ (by norm_num : (2 : ℚ) ≠ 0)]
    push_cast
    ring
  unfold roundMagnitude
  rw [hdiv, roundNearestEven_intCast, ← hdiv]
  exact div_mul_cancel₀ _ (two_zpow_pos _).ne'

theorem roundMagnitude_underflow {prec : ℕ} (emax : ℤ) {a : ℚ} (ha : 0 ≤ a)
    (h : a < (2 : ℚ) ^ (1 - emax - (prec : ℤ))) : roundMagnitude prec emax a = 0 := by
  rcases eq_or_lt_of_le ha with ha0 | ha0
  · rw [← ha0, roundMagnitude_zero]
  have hlog : Int.log 2 a < 1 - emax - (prec : ℤ) :=
    (Int.lt_zpow_iff_log_lt (by norm_num) ha0).mp (by simpa using h)
  have hu : spacingExponent prec emax a = (1 - emax - (prec : ℤ)) + 1 := by
    unfold spacingExponent
    rw [max_eq_right (by omega)]
    ring
  have hx : a / 2 ^ spacingExponent prec emax a < 1 / 2 := by
    rw [hu, div_lt_iff₀ (two_zpow_pos _), zpow_add₀ (by norm_num : (2 : ℚ) ≠ 0)]
    have e : (1 : ℚ) / 2 * (2 ^ (1 - emax - (prec : ℤ)) * 2 ^ (1 : ℤ))
        = 2 ^ (1 - emax - (prec : ℤ)) := by
      rw [zpow_one]; ring
    rw [e]
    exact h
  have hx0 : 0 ≤ a / 2 ^ spacingExponent prec emax a := div_nonneg ha (two_zpow_pos _).le
  unfold roundMagnitude
  rw [roundNearestEven_eq_zero hx0 hx]
  simp

theorem roundMagnitude_overflow {prec : ℕ} (hp : 1 ≤ prec) {emax : ℤ} (he : 0 ≤ emax) {a : ℚ}
    (h : (2 : ℚ) ^ (emax + 1) ≤ a) : (2 : ℚ) ^ (emax + 1) ≤ roundMagnitude prec emax a := by
  have h1 : roundMagnitude prec emax (((1 : ℕ) : ℚ) * 2 ^ (emax + 1)) = ((1 : ℕ) : ℚ) * 2 ^ (emax + 1) :=
    roundMagnitude_exact emax 1 (emax + 1) (by omega) (Nat.one_lt_two_pow (by omega))
  simp only [Nat.cast_one, one_mul] at h1
  calc (2 : ℚ) ^ (emax + 1) = roundMagnitude prec emax (2 ^ (emax + 1)) := h1.symm
    _ ≤ _ := roundMagnitude_mono hp emax (two_zpow_pos _).le h

/-! ## Floating-point operations -/

namespace FP

theorem fin_mul_fin (a b : ℚ) : fin a * fin b = round32 (a * b) := rfl
theorem neg_fin (a : ℚ) : -fin a = fin (-a) := rfl
theorem neg_inf (b : Bool) : -inf b = inf (!b) := rfl
theorem neg_nan : -nan = nan := rfl
theorem fin_le_fin {a b : ℚ} : fin a ≤ fin b ↔ a ≤ b := Iff.rfl
theorem fin_lt_fin {a b : ℚ} : fin a < fin b ↔ a < b := Iff.rfl

theorem roundTo_ne_nan (prec : ℕ) (emax : ℤ) (q : ℚ) : roundTo prec emax q ≠ nan := by
  unfold roundTo
  split_ifs <;> simp

theorem roundTo_zero (prec : ℕ) (emax : ℤ) : roundTo prec emax 0 = fin 0 := by
  have h : ¬ (2 : ℚ) ^ (emax + 1) ≤ 0 := not_le.mpr (two_zpow_pos _)
  simp [roundTo, roundMagnitude_zero, h]

theorem roundTo_neg (prec : ℕ) (emax : ℤ) (q : ℚ) :
    roundTo prec emax (-q) = -roundTo prec emax q := by
  rcases lt_trichotomy q 0 with h | h | h
  · have h1 : ¬ (-q < 0) := by linarith
    unfold roundTo
    rw [abs_neg]
    split_ifs <;> simp [neg_fin, neg_inf, h, h1]
  · subst h
    simp [roundTo_zero, neg_fin]
  · have h1 : -q < 0 := by linarith
    have h2 : ¬ (q < 0) := by linarith
    unfold roundTo
    rw [abs_neg]
    split_ifs <;> simp [neg_fin, neg_inf, h2, h1]

theorem roundTo_of_nonneg (prec : ℕ) (emax : ℤ) {q : ℚ} (h : 0 ≤ q) :
    roundTo prec emax q
      = if (2 : ℚ) ^ (emax + 1) ≤ roundMagnitude prec emax q then inf false
        else fin (roundMagnitude prec emax q) := by
  have h1 : ¬ (q < 0) := not_lt.mpr h
  simp [roundTo, abs_of_nonneg h, h1]

theorem roundTo_exact {prec : ℕ} (emax : ℤ) (n : ℕ) (k : ℤ)
    (hk : 1 - emax - ((prec : ℤ) - 1) ≤ k) (hn : n < 2 ^ prec)
    (hov : (n : ℚ) * 2 ^ k < 2 ^ (emax + 1)) :
    roundTo prec emax ((n : ℚ) * 2 ^ k) = fin ((n : ℚ) * 2 ^ k) := by
  have h0 : (0 : ℚ) ≤ (n : ℚ) * 2 ^ k := mul_nonneg (Nat.cast_nonneg n) (two_zpow_pos k).le
  rw [roundTo_of_nonneg prec emax h0, roundMagnitude_exact emax n k hk hn, if_neg (not_le.mpr hov)]

theorem roundTo_underflow {prec : ℕ} (emax : ℤ) {q : ℚ}
    (h : |q| < (2 : ℚ) ^ (1 - emax - (prec : ℤ))) : roundTo prec emax q = fin 0 := by
  have hm := roundMagnitude_underflow emax (abs_nonneg q) h
  have h2 : ¬ (2 : ℚ) ^ (emax + 1) ≤ 0 := not_le.mpr (two_zpow_pos _)
  simp [roundTo, hm, h2]

theorem roundTo_overflow {prec : ℕ} (hp : 1 ≤ prec) {emax : ℤ} (he : 0 ≤ emax) {q : ℚ}
    (h : (2 : ℚ) ^ (emax + 1) ≤ |q|) : roundTo prec emax q = inf (decide (q < 0)) := by
  have hm := roundMagnitude_overflow hp he h
  simp [roundTo, hm]

theorem roundTo_mono {prec : ℕ} (hp : 1 ≤ prec) (emax : ℤ) {a b : ℚ} (ha : 0 ≤ a) (hab : a ≤ b) :
    roundTo prec emax a ≤ roundTo prec emax b := by
  have hm := roundMagnitude_mono hp emax ha hab
  rw [roundTo_of_nonneg prec emax ha, roundTo_of_nonneg prec emax (le_trans ha hab)]
  split_ifs with h1 h2 h2
  · trivial
  · exact absurd (le_trans h1 hm) h2
  · trivial
  · exact fin_le_fin.mpr hm

theorem zero_le_roundTo (prec : ℕ) (emax : ℤ) {q : ℚ} (h : 0 ≤ q) :
    fin 0 ≤ roundTo prec emax q := by
  rw [roundTo_of_nonneg prec emax h]
  split_ifs
  · trivial
  · exact fin_le_fin.mpr (roundMagnitude_nonneg prec emax h)

end FP

namespace FP

theorem round32_zero : round32 0 = fin 0 := roundTo_zero 24 127

theorem round32_neg (q : ℚ) : round32 (-q) = -round32 q := roundTo_neg 24 127 q

theorem round32_ne_nan (q : ℚ) : round32 q ≠ nan := roundTo_ne_nan 24 127 q

/-- A natural number below `2 ^ 24` is a `float`. -/
theorem round32_natCast {n : ℕ} (h : n < 2 ^ 24) : round32 (n : ℚ) = fin (n : ℚ) := by
  have hov : (n : ℚ) * 2 ^ (0 : ℤ) < 2 ^ ((127 : ℤ) + 1) := by
    have h1 : (n : ℚ) < 2 ^ 24 := by exact_mod_cast h
    have h2 : (2 : ℚ) ^ 24 < 2 ^ ((127 : ℤ) + 1) := by norm_num
    simpa using lt_trans h1 h2
  have := @roundTo_exact 24 127 n 0 (by norm_num) h hov
  simpa [round32] using this

/-- A multiple `n * 2 ^ k` with `n < 2 ^ 24` and `-149 ≤ k`, below `2 ^ 128`, is a
`float`. -/
theorem round32_exact (n : ℕ) (k : ℤ) (hk : -149 ≤ k) (hn : n < 2 ^ 24)
    (hov : (n : ℚ) * 2 ^ k < 2 ^ (128 : ℤ)) :
    round32 ((n : ℚ) * 2 ^ k) = fin ((n : ℚ) * 2 ^ k) :=
  @roundTo_exact 24 127 n k (by norm_num; omega) hn (by simpa using hov)

/-- A rational that can be written `n * 2 ^ k` with `n < 2 ^ 24` and `-149 ≤ k`, below
`2 ^ 128`, is a `float`. -/
theorem round32_of_eq {q : ℚ} (n : ℕ) (k : ℤ) (hq : q = (n : ℚ) * 2 ^ k) (hk : -149 ≤ k)
    (hn : n < 2 ^ 24) (hov : (n : ℚ) * 2 ^ k < 2 ^ (128 : ℤ)) : round32 q = fin q := by
  subst hq
  exact round32_exact n k hk hn hov

/-- A multiple `n * 2 ^ k` with `n < 2 ^ 53` and `-1074 ≤ k`, below `2 ^ 1024`, is a
`double`. -/
theorem round64_exact (n : ℕ) (k : ℤ) (hk : -1074 ≤ k) (hn : n < 2 ^ 53)
    (hov : (n : ℚ) * 2 ^ k < 2 ^ (1024 : ℤ)) :
    round64 ((n : ℚ) * 2 ^ k) = fin ((n : ℚ) * 2 ^ k) :=
  @roundTo_exact 53 1023 n k (by norm_num; omega) hn (by simpa using hov)

/-- A rational that can be written `n * 2 ^ k` with `n < 2 ^ 53` and `-1074 ≤ k`, below
`2 ^ 1024`, is a `double`. -/
theorem round64_of_eq {q : ℚ} (n : ℕ) (k : ℤ) (hq : q = (n : ℚ) * 2 ^ k) (hk : -1074 ≤ k)
    (hn : n < 2 ^ 53) (hov : (n : ℚ) * 2 ^ k < 2 ^ (1024 : ℤ)) : round64 q = fin q := by
  subst hq
  exact round64_exact n k hk hn hov

/-- A magnitude below `2 ^ (-150)`, half the smallest subnormal, rounds to zero. -/
theorem round32_underflow {q : ℚ} (h : |q| < 2 ^ (-150 : ℤ)) : round32 q = fin 0 :=
  @roundTo_underflow 24 127 q (by simpa using h)

/-- A magnitude of `2 ^ 128` or more rounds to an infinity. -/
theorem round32_overflow {q : ℚ} (h : 2 ^ (128 : ℤ) ≤ |q|) :
    round32 q = inf (decide (q < 0)) :=
  @roundTo_overflow 24 (by norm_num) 127 (by norm_num) q (by simpa using h)

theorem zero_eq : (0 : FP) = fin 0 := by
  show round32 ((0 : ℕ) : ℚ) = fin 0
  simpa using round32_zero

theorem one_eq : (1 : FP) = fin 1 := by
  show round32 ((1 : ℕ) : ℚ) = fin 1
  simpa using round32_natCast (n := 1) (by norm_num)

theorem two_eq : (2 : FP) = fin 2 := by
  show round32 ((2 : ℕ) : ℚ) = fin 2
  simpa using round32_natCast (n := 2) (by norm_num)

theorem sixty_eq : (60 : FP) = fin 60 := by
  show round32 ((60 : ℕ) : ℚ) = fin 60
  simpa using round32_natCast (n := 60) (by norm_num)

theorem round32_one : round32 1 = fin 1 := by
  simpa using round32_natCast (n := 1) (by norm_num)

theorem fin_div_fin {a b : ℚ} (hb : b ≠ 0) : fin a / fin b = round32 (a / b) := by
  show div (fin a) (fin b) = _
  simp [div, hb]

theorem nan_mul (x : FP) : nan * x = nan := by
  cases x <;> rfl

theorem mul_nan (x : FP) : x * nan = nan := by
  cases x <;> rfl

theorem nan_div (x : FP) : nan / x = nan := by
  cases x <;> rfl

theorem fin_mul_zero (a : ℚ) : fin a * fin 0 = fin 0 := by
  rw [fin_mul_fin, mul_zero, round32_zero]

theorem fin_zero_mul (a : ℚ) : fin 0 * fin a = fin 0 := by
  rw [fin_mul_fin, zero_mul, round32_zero]

theorem isFinite_iff {x : FP} : x.isFinite ↔ ∃ q, x = fin q := by
  cases x <;> simp [isFinite]

/-- A finite product has finite factors: an infinity or a not-a-number never
multiplies to a finite value. -/
theorem isFinite_of_mul {x y : FP} (h : (x * y).isFinite) : x.isFinite ∧ y.isFinite := by
  change (mul x y).isFinite at h
  cases x <;> cases y <;> simp_all [mul, isFinite] <;> split_ifs at h <;> simp_all [isFinite]

theorem pow_fin_zero {n : ℕ} (hn : n ≠ 0) : (fin 0 : FP) ^ n = fin 0 := by
  show pow (fin 0) n = fin 0
  have h64 : round64 0 = fin 0 := roundTo_zero 53 1023
  simp [pow, zero_pow hn, h64, narrow, round32_zero]

theorem pow_fin_one (n : ℕ) : (fin 1 : FP) ^ n = fin 1 := by
  show pow (fin 1) n = fin 1
  have h64 : round64 1 = fin 1 := by
    simpa using round64_exact 1 0 (by norm_num) (by norm_num) (by norm_num)
  simp [pow, h64, narrow, round32_one]

/-- The divisor `2 * M_PIf` of the torque is the `float` `13176795 / 2 ^ 21`. -/
theorem two_mul_M_PIf32 : (2 : FP) * M_PIf32 = fin (13176795 / 2097152) := by
  have h := round32_exact 13176795 (-21) (by norm_num) (by norm_num) (by norm_num)
  rw [two_eq, M_PIf32, fin_mul_fin]
  have e : (2 : ℚ) * (13176795 / 4194304) = ((13176795 : ℕ) : ℚ) * 2 ^ (-21 : ℤ) := by norm_num
  have e2 : (13176795 : ℚ) / 2097152 = ((13176795 : ℕ) : ℚ) * 2 ^ (-21 : ℤ) := by norm_num
  rw [e, e2]
  exact h

theorem fin_zero_div_two_mul_M_PIf32 : fin 0 / ((2 : FP) * M_PIf32) = fin 0 := by
  rw [two_mul_M_PIf32, fin_div_fin (by norm_num), zero_div, round32_zero]

theorem fin_zero_mul_of_isFinite {x : FP} (h : x.isFinite) : fin 0 * x = fin 0 := by
  obtain ⟨q, rfl⟩ := isFinite_iff.mp h
  exact fin_zero_mul q

theorem mul_fin_zero_of_isFinite {x : FP} (h : x.isFinite) : x * fin 0 = fin 0 := by
  obtain ⟨q, rfl⟩ := isFinite_iff.mp h
  exact fin_mul_zero q

theorem fin_zero_div_sixty : fin 0 / (60 : FP) = fin 0 := by
  rw [sixty_eq, fin_div_fin (by norm_num), zero_div, round32_zero]

theorem neg_mul_fp (x y : FP) : -x * y = -(x * y) := by
  show mul (neg x) y = neg (mul x y)
  cases x <;> cases y <;> simp only [mul, neg]
  · cases ‹Bool› <;> cases ‹Bool› <;> rfl
  · split_ifs
    · rfl
    · cases ‹Bool› <;> simp [neg]
  · rename_i q b
    by_cases hq : q = 0
    · simp [hq, neg]
    · have h1 : (-q < 0) = ¬ (q < 0) := by
        rcases lt_or_gt_of_ne hq with h | h
        · simp [h, h.le]
        · simp [h, h.le, not_lt.mpr h.le]
      simp only [neg_eq_zero, hq, if_false, neg, h1]
      by_cases h2 : q < 0 <;> cases b <;> simp [h2]
  · rw [neg_mul, round32_neg]
    rfl

theorem mul_neg_fp (x y : FP) : x * -y = -(x * y) := by
  show mul x (neg y) = neg (mul x y)
  cases x <;> cases y <;> simp only [mul, neg]
  · cases ‹Bool› <;> cases ‹Bool› <;> rfl
  · rename_i b q
    by_cases hq : q = 0
    · simp [hq, neg]
    · have h1 : (-q < 0) = ¬ (q < 0) := by
        rcases lt_or_gt_of_ne hq with h | h
        · simp [h, h.le]
        · simp [h, h.le, not_lt.mpr h.le]
      simp only [neg_eq_zero, hq, if_false, neg, h1]
      by_cases h2 : q < 0 <;> cases b <;> simp [h2]
  · split_ifs
    · rfl
    · cases ‹Bool› <;> simp [neg]
  · rw [mul_neg, round32_neg]
    rfl

theorem neg_neg_fp (x : FP) : - -x = x := by
  show neg (neg x) = x
  cases x <;> simp [neg]

theorem neg_div_fp (x y : FP) : -x / y = -(x / y) := by
  show div (neg x) y = neg (div x y)
  cases x <;> cases y <;> simp only [div, neg]
  · cases ‹Bool› <;> simp
  · simp
  · rename_i a b
    by_cases hb : b = 0
    · by_cases ha : a = 0
      · simp [hb, ha]
      · rcases lt_or_gt_of_ne ha with h | h
        · simp [hb, ha, h, h.le]
        · simp [hb, ha, h, h.le, not_lt.mpr h.le]
    · simp only [hb, if_false]
      rw [neg_div, round32_neg]
      rfl

/-- Squaring by `pow` does not see the sign of its argument. -/
theorem neg_pow_two_fp (x : FP) : (-x) ^ 2 = x ^ 2 := by
  show pow (neg x) 2 = pow x 2
  cases x <;> simp [pow, neg]

/-- A datum is not below zero exactly when it is a not-a-number, the positive
infinity, or a finite value that is not negative. -/
theorem not_lt_zero_iff {x : FP} :
    ¬ (x < 0) ↔ x = nan ∨ x = inf false ∨ ∃ q : ℚ, 0 ≤ q ∧ x = fin q := by
  rw [zero_eq]
  show ¬ lt x (fin 0) ↔ _
  cases x with
  | nan => simp [lt]
  | inf b => cases b <;> simp [lt]
  | fin q => simp [lt]

theorem not_lt_zero_round32 {q : ℚ} (h : 0 ≤ q) : ¬ (round32 q < 0) := by
  rw [not_lt_zero_iff]
  unfold round32
  rw [roundTo_of_nonneg 24 127 h]
  split_ifs
  · exact Or.inr (Or.inl rfl)
  · exact Or.inr (Or.inr ⟨_, roundMagnitude_nonneg 24 127 h, rfl⟩)

theorem not_lt_zero_mul {x y : FP} (hx : ¬ (x < 0)) (hy : ¬ (y < 0)) : ¬ (x * y < 0) := by
  rcases not_lt_zero_iff.mp hx with rfl | rfl | ⟨a, ha, rfl⟩
  · rw [nan_mul]
    exact not_lt_zero_iff.mpr (Or.inl rfl)
  · rcases not_lt_zero_iff.mp hy with rfl | rfl | ⟨b, hb, rfl⟩
    · exact not_lt_zero_iff.mpr (Or.inl rfl)
    · exact not_lt_zero_iff.mpr (Or.inr (Or.inl rfl))
    · rw [not_lt_zero_iff]
      show mul (inf false) (fin b) = nan ∨ mul (inf false) (fin b) = inf false ∨ _
      by_cases h0 : b = 0
      · simp [mul, h0]
      · simp [mul, h0, not_lt.mpr hb]
  · rcases not_lt_zero_iff.mp hy with rfl | rfl | ⟨b, hb, rfl⟩
    · exact not_lt_zero_iff.mpr (Or.inl rfl)
    · rw [not_lt_zero_iff]
      show mul (fin a) (inf false) = nan ∨ mul (fin a) (inf false) = inf false ∨ _
      by_cases h0 : a = 0
      · simp [mul, h0]
      · simp [mul, h0, not_lt.mpr ha]
    · rw [fin_mul_fin]
      exact not_lt_zero_round32 (mul_nonneg ha hb)

theorem not_lt_zero_mul_self (x : FP) : ¬ (x * x < 0) := by
  cases x with
  | nan => exact not_lt_zero_iff.mpr (Or.inl rfl)
  | inf b => exact not_lt_zero_iff.mpr (Or.inr (Or.inl (by cases b <;> rfl)))
  | fin q =>
    rw [fin_mul_fin]
    exact not_lt_zero_round32 (mul_self_nonneg q)

/-- An even power computed by `pow` is never below zero. -/
theorem not_lt_zero_pow_even (x : FP) {n : ℕ} (hn : Even n) : ¬ (x ^ n < 0) := by
  have hodd : ¬ (n % 2 = 1) := by
    rw [Nat.even_iff] at hn
    omega
  have hone : ¬ ((fin 1 : FP) < 0) := not_lt_zero_iff.mpr (Or.inr (Or.inr ⟨1, by norm_num, rfl⟩))
  cases x with
  | nan =>
    show ¬ (pow nan n < 0)
    unfold pow
    split_ifs
    · exact hone
    · exact not_lt_zero_iff.mpr (Or.inl rfl)
  | inf b =>
    show ¬ (pow (inf b) n < 0)
    unfold pow
    split_ifs
    · exact hone
    · exact not_lt_zero_iff.mpr (Or.inr (Or.inl (by simp [hodd])))
  | fin q =>
    show ¬ (narrow (roundTo 53 1023 (q ^ n)) < 0)
    have hq : 0 ≤ q ^ n := hn.pow_nonneg q
    rw [roundTo_of_nonneg 53 1023 hq]
    split_ifs
    · exact not_lt_zero_iff.mpr (Or.inr (Or.inl rfl))
    · exact not_lt_zero_round32 (roundMagnitude_nonneg 53 1023 hq)

theorem not_lt_zero_of_pos {x : FP} (h : 0 < x) : ¬ (x < 0) := by
  rw [zero_eq] at h ⊢
  change lt (fin 0) x at h
  show ¬ lt x (fin 0)
  cases x with
  | nan => simp [lt]
  | inf b => cases b <;> simp_all [lt]
  | fin q =>
    simp only [lt] at h ⊢
    exact not_lt.mpr h.le

/-- A datum is at least zero exactly when it is the positive infinity or a finite
value that is not negative. -/
theorem zero_le_iff {x : FP} : 0 ≤ x ↔ x = inf false ∨ ∃ q : ℚ, 0 ≤ q ∧ x = fin q := by
  rw [zero_eq]
  show le (fin 0) x ↔ _
  cases x with
  | nan => simp [le]
  | inf b => cases b <;> simp [le]
  | fin q => simp [le]

theorem zero_le_of_pos {x : FP} (h : 0 < x) : 0 ≤ x := by
  rw [zero_eq] at h
  change lt (fin 0) x at h
  rw [zero_le_iff]
  cases x with
  | nan => simp [lt] at h
  | inf b => cases b <;> simp_all [lt]
  | fin q => exact Or.inr ⟨q, le_of_lt h, rfl⟩

theorem le_of_lt_fp {x y : FP} (h : x < y) : x ≤ y := by
  change lt x y at h
  show le x y
  cases x with
  | nan => simp [lt] at h
  | inf a => cases y with
    | nan => cases a <;> simp [lt] at h
    | inf b => cases a <;> cases b <;> simp_all [lt, le]
    | fin q => cases a <;> simp_all [lt, le]
  | fin p => cases y with
    | nan => simp [lt] at h
    | inf b => cases b <;> simp_all [lt, le]
    | fin q => exact le_of_lt h

theorem le_refl_of_zero_le {x : FP} (h : 0 ≤ x) : x ≤ x := by
  rcases zero_le_iff.mp h with rfl | ⟨q, _, rfl⟩
  · trivial
  · exact fin_le_fin.mpr le_rfl

theorem zero_le_trans {x y : FP} (hx : 0 ≤ x) (hxy : x ≤ y) : 0 ≤ y := by
  rcases zero_le_iff.mp hx with rfl | ⟨a, ha, rfl⟩
  · cases y with
    | nan => exact absurd hxy (by simp [LE.le, le])
    | inf b => cases b
               · exact zero_le_iff.mpr (Or.inl rfl)
               · exact absurd hxy (by simp [LE.le, le])
    | fin q => exact absurd hxy (by simp [LE.le, le])
  · cases y with
    | nan => exact absurd hxy (by simp [LE.le, le])
    | inf b => cases b
               · exact zero_le_iff.mpr (Or.inl rfl)
               · exact absurd hxy (by simp [LE.le, le])
    | fin q => exact zero_le_iff.mpr (Or.inr ⟨q, le_trans ha (fin_le_fin.mp hxy), rfl⟩)

/-- Every datum other than a not-a-number is at most the positive infinity. -/
theorem le_inf_false {x : FP} (h : x ≠ nan) : x ≤ inf false := by
  cases x with
  | nan => exact absurd rfl h
  | inf b => cases b <;> trivial
  | fin q => trivial

theorem zero_le_round32 {q : ℚ} (h : 0 ≤ q) : 0 ≤ round32 q := by
  rw [zero_eq]
  exact zero_le_roundTo 24 127 h

theorem round32_mono {a b : ℚ} (ha : 0 ≤ a) (hab : a ≤ b) : round32 a ≤ round32 b :=
  roundTo_mono (by norm_num) 127 ha hab

/-- A product of two data that are at least zero is at least zero, unless it is a
not-a-number (a zero times an infinity). -/
theorem zero_le_mul {x y : FP} (hx : 0 ≤ x) (hy : 0 ≤ y) (h : x * y ≠ nan) : 0 ≤ x * y := by
  rcases zero_le_iff.mp hx with rfl | ⟨a, ha, rfl⟩ <;>
    rcases zero_le_iff.mp hy with rfl | ⟨b, hb, rfl⟩
  · exact zero_le_iff.mpr (Or.inl rfl)
  · change mul (inf false) (fin b) ≠ nan at h
    rw [zero_le_iff]
    show mul (inf false) (fin b) = inf false ∨ _
    by_cases h0 : b = 0
    · simp [mul, h0] at h
    · simp [mul, h0, not_lt.mpr hb]
  · change mul (fin a) (inf false) ≠ nan at h
    rw [zero_le_iff]
    show mul (fin a) (inf false) = inf false ∨ _
    by_cases h0 : a = 0
    · simp [mul, h0] at h
    · simp [mul, h0, not_lt.mpr ha]
  · rw [fin_mul_fin]
    exact zero_le_round32 (mul_nonneg ha hb)

/-- Multiplication is monotone on data that are at least zero, whenever neither
product is a not-a-number. -/
theorem mul_le_mul_fp {a b x y : FP} (ha : 0 ≤ a) (hab : a ≤ b) (hx : 0 ≤ x) (hxy : x ≤ y)
    (h1 : a * x ≠ nan) (h2 : b * y ≠ nan) : a * x ≤ b * y := by
  have hb := zero_le_trans ha hab
  have hy := zero_le_trans hx hxy
  rcases zero_le_iff.mp hb with rfl | ⟨b', hb', rfl⟩
  · -- the larger left factor is infinite: so is the larger product
    have h3 := zero_le_mul hb hy h2
    have h4 : inf false * y = inf false := by
      rcases zero_le_iff.mp hy with rfl | ⟨y', hy', rfl⟩
      · rfl
      · change mul (inf false) (fin y') ≠ nan at h2
        show mul (inf false) (fin y') = inf false
        by_cases h0 : y' = 0
        · simp [mul, h0] at h2
        · simp [mul, h0, not_lt.mpr hy']
    rw [h4]
    exact le_inf_false h1
  rcases zero_le_iff.mp hy with rfl | ⟨y', hy', rfl⟩
  · -- the larger right factor is infinite: so is the larger product
    have h4 : fin b' * inf false = inf false := by
      change mul (fin b') (inf false) ≠ nan at h2
      show mul (fin b') (inf false) = inf false
      by_cases h0 : b' = 0
      · simp [mul, h0] at h2
      · simp [mul, h0, not_lt.mpr hb']
    rw [h4]
    exact le_inf_false h1
  -- all four factors are finite
  rcases zero_le_iff.mp ha with rfl | ⟨a', ha', rfl⟩
  · exact absurd hab (by simp [LE.le, le])
  rcases zero_le_iff.mp hx with rfl | ⟨x', hx', rfl⟩
  · exact absurd hxy (by simp [LE.le, le])
  rw [fin_mul_fin, fin_mul_fin]
  exact round32_mono (mul_nonneg ha' hx')
    (mul_le_mul (fin_le_fin.mp hab) (fin_le_fin.mp hxy) hx' hb')

theorem mul_self_ne_nan {x : FP} (hx : 0 ≤ x) : x * x ≠ nan := by
  rcases zero_le_iff.mp hx with rfl | ⟨a, _, rfl⟩
  · show mul (inf false) (inf false) ≠ nan
    simp [mul]
  · rw [fin_mul_fin]
    exact round32_ne_nan _

theorem ne_nan_of_mul_ne_nan_left {x y : FP} (h : x * y ≠ nan) : x ≠ nan := by
  rintro rfl
  exact h (nan_mul y)

theorem ne_nan_of_div_ne_nan {x y : FP} (h : x / y ≠ nan) : x ≠ nan := by
  rintro rfl
  exact h (nan_div y)

/-- Division by a positive finite divisor is monotone on data that are at least
zero. -/
theorem div_le_div_fp {x y : FP} {c : ℚ} (hc : 0 < c) (hx : 0 ≤ x) (hxy : x ≤ y) :
    0 ≤ x / fin c ∧ x / fin c ≤ y / fin c := by
  have hy := zero_le_trans hx hxy
  have hinf : inf false / fin c = inf false := by
    show div (inf false) (fin c) = inf false
    simp [div, not_lt.mpr hc.le]
  rcases zero_le_iff.mp hy with rfl | ⟨y', hy', rfl⟩
  · rcases zero_le_iff.mp hx with rfl | ⟨x', hx', rfl⟩
    · rw [hinf]
      exact ⟨zero_le_iff.mpr (Or.inl rfl), trivial⟩
    · rw [hinf, fin_div_fin hc.ne']
      exact ⟨zero_le_round32 (div_nonneg hx' hc.le), le_inf_false (round32_ne_nan _)⟩
  · rcases zero_le_iff.mp hx with rfl | ⟨x', hx', rfl⟩
    · exact absurd hxy (by simp [LE.le, le])
    · rw [fin_div_fin hc.ne', fin_div_fin hc.ne']
      exact ⟨zero_le_round32 (div_nonneg hx' hc.le),
        round32_mono (div_nonneg hx' hc.le)
          (div_le_div_of_nonneg_right (fin_le_fin.mp hxy) hc.le)⟩

/-- A power of a positive datum computed by `pow` is at least zero. -/
theorem zero_le_pow_of_pos {x : FP} (h : 0 < x) (n : ℕ) : 0 ≤ x ^ n := by
  rcases zero_le_iff.mp (zero_le_of_pos h) with rfl | ⟨q, hq, rfl⟩
  · show 0 ≤ pow (inf false) n
    unfold pow
    split_ifs
    · exact zero_le_iff.mpr (Or.inr ⟨1, by norm_num, rfl⟩)
    · exact zero_le_iff.mpr (Or.inl (by simp))
  · show 0 ≤ narrow (roundTo 53 1023 (q ^ n))
    have hqn : 0 ≤ q ^ n := pow_nonneg hq n
    rw [roundTo_of_nonneg 53 1023 hqn]
    split_ifs
    · exact zero_le_iff.mpr (Or.inl rfl)
    · exact zero_le_round32 (roundMagnitude_nonneg 53 1023 hqn)

theorem ne_nan_of_zero_le {x : FP} (h : 0 ≤ x) : x ≠ nan := by
  rcases zero_le_iff.mp h with rfl | ⟨q, _, rfl⟩ <;> simp

/-- A product of two positive data is at least zero: it cannot be a not-a-number. -/
theorem zero_le_mul_of_pos {x y : FP} (hx : 0 < x) (hy : 0 < y) : 0 ≤ x * y := by
  apply zero_le_mul (zero_le_of_pos hx) (zero_le_of_pos hy)
  rw [zero_eq] at hx hy
  change lt (fin 0) x at hx
  change lt (fin 0) y at hy
  show mul x y ≠ nan
  cases x with
  | nan => simp [lt] at hx
  | inf a => cases y with
    | nan => simp [lt] at hy
    | inf b => simp [mul]
    | fin q =>
      simp only [lt] at hy
      simp [mul, hy.ne']
  | fin p => cases y with
    | nan => simp [lt] at hy
    | inf b =>
      simp only [lt] at hx
      simp [mul, hx.ne']
    | fin q =>
      show round32 (p * q) ≠ nan
      exact round32_ne_nan _

end FP

/-! ## Rounding error -/

theorem abs_roundNearestEven_sub_le (x : ℚ) : |(roundNearestEven x : ℚ) - x| ≤ 1 / 2 := by
  have h1 := Int.floor_le x
  have h2 := Int.lt_floor_add_one x
  unfold roundNearestEven
  split_ifs with ha hb hc
  · rw [abs_le]; constructor <;> linarith
  · rw [abs_le]; push_cast; constructor <;> linarith
  · have : x - ⌊x⌋ = 1 / 2 := le_antisymm (not_lt.mp hb) (not_lt.mp ha)
    rw [abs_le]; constructor <;> linarith
  · have : x - ⌊x⌋ = 1 / 2 := le_antisymm (not_lt.mp hb) (not_lt.mp ha)
    rw [abs_le]; push_cast; constructor <;> linarith

theorem abs_roundMagnitude_sub_le (prec : ℕ) (emax : ℤ) (a : ℚ) :
    |roundMagnitude prec emax a - a| ≤ 2 ^ spacingExponent prec emax a / 2 := by
  have hu := two_zpow_pos (spacingExponent prec emax a)
  have h := abs_roundNearestEven_sub_le (a / 2 ^ spacingExponent prec emax a)
  unfold roundMagnitude
  have e : (roundNearestEven (a / 2 ^ spacingExponent prec emax a) : ℚ)
        * 2 ^ spacingExponent prec emax a - a
      = ((roundNearestEven (a / 2 ^ spacingExponent prec emax a) : ℚ)
          - a / 2 ^ spacingExponent prec emax a) * 2 ^ spacingExponent prec emax a := by
    field_simp
  rw [e, abs_mul, abs_of_pos hu]
  calc _ ≤ 1 / 2 * 2 ^ spacingExponent prec emax a := mul_le_mul_of_nonneg_right h hu.le
    _ = _ := by ring

/-- relative error of the magnitude rounding when the result is not below the smallest normal -/
theorem roundMagnitude_rel_error {prec : ℕ} (hp : 1 ≤ prec) (emax : ℤ) {a : ℚ} (ha : 0 ≤ a)
    (hr : (2 : ℚ) ^ (1 - emax) ≤ roundMagnitude prec emax a) :
    |roundMagnitude prec emax a - a| ≤ 2 ^ (-(prec : ℤ)) * roundMagnitude prec emax a := by
  have h := abs_roundMagnitude_sub_le prec emax a
  have hpos : 0 < a := by
    rcases eq_or_lt_of_le ha with h0 | h0
    · rw [← h0, roundMagnitude_zero] at hr
      exact absurd hr (not_le.mpr (two_zpow_pos _))
    · exact h0
  have key : (2 : ℚ) ^ (spacingExponent prec emax a + ((prec : ℤ) - 1))
      ≤ roundMagnitude prec emax a := by
    rcases max_cases (Int.log 2 a) (1 - emax) with ⟨h1, _⟩ | ⟨h1, _⟩
    · apply le_roundMagnitude hp
      have e : spacingExponent prec emax a + ((prec : ℤ) - 1) = Int.log 2 a := by
        unfold spacingExponent; rw [h1]; ring
      rw [e]
      have := Int.zpow_log_le_self (b := 2) (by norm_num) hpos
      simpa using this
    · have e : spacingExponent prec emax a + ((prec : ℤ) - 1) = 1 - emax := by
        unfold spacingExponent; rw [h1]; ring
      rw [e]
      exact hr
  have e2 : (2 : ℚ) ^ spacingExponent prec emax a / 2
      = 2 ^ (-(prec : ℤ)) * 2 ^ (spacingExponent prec emax a + ((prec : ℤ) - 1)) := by
    rw [← zpow_add₀ (by norm_num : (2 : ℚ) ≠ 0)]
    have : -(prec : ℤ) + (spacingExponent prec emax a + ((prec : ℤ) - 1))
        = spacingExponent prec emax a - 1 := by ring
    rw [this, zpow_sub₀ (by norm_num : (2 : ℚ) ≠ 0), zpow_one]
  rw [e2] at h
  exact le_trans h (mul_le_mul_of_nonneg_left key (two_zpow_pos _).le)

namespace FP

theorem roundTo_rel_error {prec : ℕ} (hp : 1 ≤ prec) (emax : ℤ) {q r : ℚ}
    (h : roundTo prec emax q = fin r) (hr : (2 : ℚ) ^ (1 - emax) ≤ |r|) :
    |r - q| ≤ 2 ^ (-(prec : ℤ)) * |r| := by
  unfold roundTo at h
  split_ifs at h with hov hneg
  · -- negative
    have hr' : r = -roundMagnitude prec emax |q| := by
      injection h with h; exact h.symm
    have hM := roundMagnitude_nonneg prec emax (abs_nonneg q)
    rw [hr', abs_neg, abs_of_nonneg hM] at hr
    have := roundMagnitude_rel_error hp emax (abs_nonneg q) hr
    rw [hr', abs_neg, abs_of_nonneg hM]
    rw [abs_of_neg hneg] at this ⊢
    have e : -roundMagnitude prec emax (-q) - q = -(roundMagnitude prec emax (-q) - -q) := by ring
    rw [e, abs_neg]
    exact this
  · have hq : 0 ≤ q := not_lt.mp hneg
    have hr' : r = roundMagnitude prec emax |q| := by
      injection h with h; exact h.symm
    have hM := roundMagnitude_nonneg prec emax (abs_nonneg q)
    rw [hr', abs_of_nonneg hM] at hr
    have := roundMagnitude_rel_error hp emax (abs_nonneg q) hr
    rw [hr', abs_of_nonneg hM]
    rw [abs_of_nonneg hq] at this ⊢
    exact this

end FP

theorem withinRounding_base_pos : (0 : ℚ) < 1 - 2 ^ (-24 : ℤ) := by norm_num

theorem withinRounding_pos {m : ℕ} {t : ℚ} (h : withinRounding m t) : 0 < t :=
  lt_of_lt_of_le (pow_pos withinRounding_base_pos m) h.1

theorem withinRounding_mul {m n : ℕ} {x y : ℚ} (hx : withinRounding m x)
    (hy : withinRounding n y) : withinRounding (m + n) (x * y) := by
  have hbm := pow_pos withinRounding_base_pos m
  have hbn := pow_pos withinRounding_base_pos n
  constructor
  · rw [pow_add]
    exact mul_le_mul hx.1 hy.1 hbn.le (withinRounding_pos hx).le
  · rw [pow_add, mul_inv]
    exact mul_le_mul hx.2 hy.2 (withinRounding_pos hy).le (inv_pos.mpr hbm).le

theorem withinRounding_inv {m : ℕ} {x : ℚ} (hx : withinRounding m x) :
    withinRounding m x⁻¹ := by
  have hbm := pow_pos withinRounding_base_pos m
  have hxp := withinRounding_pos hx
  constructor
  · rw [← inv_inv ((1 - 2 ^ (-24 : ℤ) : ℚ) ^ m)]
    exact inv_anti₀ hxp hx.2
  · exact inv_anti₀ hbm hx.1

theorem withinRounding_div {m n : ℕ} {x y : ℚ} (hx : withinRounding m x)
    (hy : withinRounding n y) : withinRounding (m + n) (x / y) := by
  rw [div_eq_mul_inv]
  exact withinRounding_mul hx (withinRounding_inv hy)

/-- a relative error of at most `2 ^ (-24)` against the rounded value -/
theorem withinRounding_of_rel_error {q r : ℚ} (hr : r ≠ 0)
    (h : |r - q| ≤ 2 ^ (-24 : ℤ) * |r|) : withinRounding 1 (q / r) := by
  have hrp : 0 < |r| := abs_pos.mpr hr
  have h1 : |1 - q / r| ≤ 2 ^ (-24 : ℤ) := by
    have e : 1 - q / r = (r - q) / r := by field_simp
    rw [e, abs_div, div_le_iff₀ hrp]
    exact h
  rw [abs_le] at h1
  constructor
  · rw [pow_one]; linarith [h1.2]
  · rw [pow_one]
    have : q / r ≤ 1 + 2 ^ (-24 : ℤ) := by linarith [h1.1]
    refine le_trans this ?_
    norm_num

namespace FP

theorem round32_within {q r : ℚ} (h : round32 q = fin r) (hr : (2 : ℚ) ^ (-126 : ℤ) ≤ |r|) :
    r ≠ 0 ∧ withinRounding 1 (q / r) := by
  have hr0 : r ≠ 0 := by
    rintro rfl
    rw [abs_zero] at hr
    exact absurd hr (not_le.mpr (two_zpow_pos _))
  have := roundTo_rel_error (by norm_num) 127 h (by simpa using hr)
  exact ⟨hr0, withinRounding_of_rel_error hr0 (by simpa using this)⟩

theorem round64_within {q r : ℚ} (h : round64 q = fin r) (hr : (2 : ℚ) ^ (-1022 : ℤ) ≤ |r|) :
    r ≠ 0 ∧ withinRounding 1 (q / r) := by
  have hr0 : r ≠ 0 := by
    rintro rfl
    rw [abs_zero] at hr
    exact absurd hr (not_le.mpr (two_zpow_pos _))
  have h1 := roundTo_rel_error (by norm_num) 1023 h (by simpa using hr)
  have h2 : |r - q| ≤ 2 ^ (-24 : ℤ) * |r| := by
    refine le_trans h1 (mul_le_mul_of_nonneg_right ?_ (abs_nonneg r))
    norm_num
  exact ⟨hr0, withinRounding_of_rel_error hr0 h2⟩

theorem isNormal_iff {x : FP} : x.isNormal ↔ ∃ r, x = fin r ∧ (2 : ℚ) ^ (-126 : ℤ) ≤ |r| := by
  cases x <;> simp [isNormal]

/-- a normal product: both factors are finite and the product is their exact product
up to one rounding -/
theorem mul_of_isNormal {x y : FP} (h : (x * y).isNormal) :
    ∃ a b r, x = fin a ∧ y = fin b ∧ x * y = fin r ∧ r ≠ 0 ∧ withinRounding 1 (a * b / r) := by
  obtain ⟨r, hr, hn⟩ := isNormal_iff.mp h
  have hf : (x * y).isFinite := by rw [hr]; trivial
  obtain ⟨hx, hy⟩ := isFinite_of_mul hf
  obtain ⟨a, rfl⟩ := isFinite_iff.mp hx
  obtain ⟨b, rfl⟩ := isFinite_iff.mp hy
  rw [fin_mul_fin] at hr
  obtain ⟨h0, hw⟩ := round32_within hr hn
  exact ⟨a, b, r, rfl, rfl, by rw [fin_mul_fin, hr], h0, hw⟩

/-- a normal quotient by a finite non-zero divisor -/
theorem div_of_isNormal {x : FP} {c : ℚ} (hc : c ≠ 0) (h : (x / fin c).isNormal) :
    ∃ a r, x = fin a ∧ x / fin c = fin r ∧ r ≠ 0 ∧ withinRounding 1 (a / c / r) := by
  obtain ⟨r, hr, hn⟩ := isNormal_iff.mp h
  cases x with
  | nan => rw [nan_div] at hr; exact absurd hr (by simp)
  | inf b =>
    change div (inf b) (fin c) = fin r at hr
    simp [div] at hr
  | fin a =>
    rw [fin_div_fin hc] at hr
    obtain ⟨h0, hw⟩ := round32_within hr hn
    exact ⟨a, r, rfl, by rw [fin_div_fin hc, hr], h0, hw⟩

/-- a normal power: the base is finite and the power is the exact power up to two
roundings -/
theorem pow_of_isNormal {x : FP} {n : ℕ} (hn : n ≠ 0) (h : (x ^ n).isNormal) :
    ∃ a r, x = fin a ∧ x ^ n = fin r ∧ r ≠ 0 ∧ withinRounding 2 (a ^ n / r) := by
  obtain ⟨r, hr, hnr⟩ := isNormal_iff.mp h
  cases x with
  | nan =>
    change pow nan n = fin r at hr
    simp [pow, hn] at hr
  | inf b =>
    change pow (inf b) n = fin r at hr
    simp [pow, hn] at hr
  | fin a =>
    change narrow (round64 (a ^ n)) = fin r at hr
    have h64 : ∃ e, round64 (a ^ n) = fin e := by
      cases hcase : round64 (a ^ n) with
      | nan => rw [hcase] at hr; simp [narrow] at hr
      | inf b => rw [hcase] at hr; simp [narrow] at hr
      | fin e => exact ⟨e, rfl⟩
    obtain ⟨e, he⟩ := h64
    rw [he] at hr
    change round32 e = fin r at hr
    obtain ⟨h0, hw⟩ := round32_within hr hnr
    -- the double is far above the smallest normal double
    have hwe := hw
    have hepos : (2 : ℚ) ^ (-1022 : ℤ) ≤ |e| := by
      have h1 : (1 - 2 ^ (-24 : ℤ) : ℚ) ≤ e / r := by simpa using hw.1
      have h2 : |e / r| = |e| / |r| := abs_div e r
      have h3 : (1 - 2 ^ (-24 : ℤ) : ℚ) ≤ |e| / |r| := by
        rw [← h2]
        exact le_trans h1 (le_abs_self _)
      have hrp : 0 < |r| := abs_pos.mpr h0
      rw [le_div_iff₀ hrp] at h3
      have h4 : (1 - 2 ^ (-24 : ℤ) : ℚ) * 2 ^ (-126 : ℤ) ≤ (1 - 2 ^ (-24 : ℤ)) * |r| :=
        mul_le_mul_of_nonneg_left hnr withinRounding_base_pos.le
      have h5 : (2 : ℚ) ^ (-1022 : ℤ) ≤ (1 - 2 ^ (-24 : ℤ)) * 2 ^ (-126 : ℤ) := by
        have e1 : (2 : ℚ) ^ (-1022 : ℤ) = 2 ^ (-896 : ℤ) * 2 ^ (-126 : ℤ) := by
          rw [← zpow_add₀ (by norm_num : (2 : ℚ) ≠ 0)]; norm_num
        rw [e1]
        apply mul_le_mul_of_nonneg_right _ (two_zpow_pos _).le
        have : (2 : ℚ) ^ (-896 : ℤ) ≤ 2 ^ (-1 : ℤ) :=
          zpow_le_zpow_right₀ (by norm_num) (by norm_num)
        refine le_trans this ?_
        norm_num
      linarith
    obtain ⟨he0, hwe64⟩ := round64_within he hepos
    refine ⟨a, r, rfl, ?_, h0, ?_⟩
    · show narrow (round64 (a ^ n)) = fin r
      rw [he]
      exact hr
    · have e2 : a ^ n / r = a ^ n / e * (e / r) := by field_simp
      rw [e2]
      exact withinRounding_mul hwe64 hw

end FP

namespace FP

theorem fin_mul_fin_of_isNormal {a b : ℚ} {y : FP} (hy : y = fin b) (h : (fin a * y).isNormal) :
    ∃ r, fin a * y = fin r ∧ r ≠ 0 ∧ withinRounding 1 (a * b / r) := by
  subst hy
  obtain ⟨a', b', r, ha, hb, hr, h0, hw⟩ := mul_of_isNormal h
  cases ha
  cases hb
  exact ⟨r, hr, h0, hw⟩

end FP

/-- the ratio of the true pi to `M_PIf` is within one rounding of 1 -/
theorem pi_div_M_PIf_within :
    ((1 - 2 ^ (-24 : ℤ) : ℚ) : ℝ) ≤ Real.pi / ((13176795 / 4194304 : ℚ) : ℝ) ∧
    Real.pi / ((13176795 / 4194304 : ℚ) : ℝ) ≤ (((1 - 2 ^ (-24 : ℤ) : ℚ) : ℝ))⁻¹ := by
  have h1 := Real.pi_gt_d20
  have h2 := Real.pi_lt_d20
  have hpos : (0 : ℝ) < ((13176795 / 4194304 : ℚ) : ℝ) := by norm_num
  constructor
  · rw [le_div_iff₀ hpos]
    push_cast
    norm_num
    linarith
  · rw [div_le_iff₀ hpos]
    push_cast
    norm_num
    linarith

theorem withinRounding_ne_zero_of_div {m : ℕ} {x r : ℚ} (h : withinRounding m (x / r)) :
    x ≠ 0 := by
  have := withinRounding_pos h
  rintro rfl
  simp at this

/-- twelve roundings change a value by less than `2 ^ (-18)` of itself -/
theorem abs_sub_le_of_withinRounding {g : ℚ} {p L R : ℝ} (hg : withinRounding 11 g)
    (hp : ((1 - 2 ^ (-24 : ℤ) : ℚ) : ℝ) ≤ p ∧ p ≤ (((1 - 2 ^ (-24 : ℤ) : ℚ) : ℝ))⁻¹)
    (hL : L = R * (g : ℝ) * p) : |L - R| ≤ 2 ^ (-18 : ℤ) * |R| := by
  have hb : (0 : ℝ) < ((1 - 2 ^ (-24 : ℤ) : ℚ) : ℝ) := by exact_mod_cast withinRounding_base_pos
  have hb11 : (0 : ℝ) < (((1 - 2 ^ (-24 : ℤ) : ℚ) : ℝ)) ^ 11 := pow_pos hb 11
  have hg1 : (((1 - 2 ^ (-24 : ℤ) : ℚ) : ℝ)) ^ 11 ≤ (g : ℝ) := by exact_mod_cast hg.1
  have hg2 : (g : ℝ) ≤ ((((1 - 2 ^ (-24 : ℤ) : ℚ) : ℝ)) ^ 11)⁻¹ := by exact_mod_cast hg.2
  have hgpos : (0 : ℝ) < g := lt_of_lt_of_le hb11 hg1
  have hppos : (0 : ℝ) < p := lt_of_lt_of_le hb hp.1
  have lo : (((1 - 2 ^ (-24 : ℤ) : ℚ) : ℝ)) ^ 11 * ((1 - 2 ^ (-24 : ℤ) : ℚ) : ℝ) ≤ (g : ℝ) * p :=
    mul_le_mul hg1 hp.1 hb.le hgpos.le
  have hi : (g : ℝ) * p ≤ ((((1 - 2 ^ (-24 : ℤ) : ℚ) : ℝ)) ^ 11)⁻¹
      * (((1 - 2 ^ (-24 : ℤ) : ℚ) : ℝ))⁻¹ :=
    mul_le_mul hg2 hp.2 hppos.le (inv_pos.mpr hb11).le
  have nlo : (1 : ℝ) - 2 ^ (-18 : ℤ)
      ≤ (((1 - 2 ^ (-24 : ℤ) : ℚ) : ℝ)) ^ 11 * ((1 - 2 ^ (-24 : ℤ) : ℚ) : ℝ) := by
    push_cast
    norm_num
  have nhi : ((((1 - 2 ^ (-24 : ℤ) : ℚ) : ℝ)) ^ 11)⁻¹ * (((1 - 2 ^ (-24 : ℤ) : ℚ) : ℝ))⁻¹
      ≤ 1 + 2 ^ (-18 : ℤ) := by
    push_cast
    norm_num
  have ht : |(g : ℝ) * p - 1| ≤ 2 ^ (-18 : ℤ) := by
    have h1 := le_trans nlo lo
    have h2 := le_trans hi nhi
    rw [abs_le]
    constructor <;> linarith
  have e : L - R = R * ((g : ℝ) * p - 1) := by rw [hL]; ring
  rw [e, abs_mul, mul_comm]
  exact mul_le_mul_of_nonneg_right ht (abs_nonneg R)

namespace FP

/-- A rational between the smallest normal `float` and `2 ^ 127` rounds to a normal
`float`. -/
theorem round32_isNormal {q : ℚ} (h1 : (2 : ℚ) ^ (-126 : ℤ) ≤ q) (h2 : q ≤ 2 ^ (127 : ℤ)) :
    (round32 q).isNormal := by
  have hlo : round32 (2 ^ (-126 : ℤ)) = fin (2 ^ (-126 : ℤ)) :=
    round32_of_eq 1 (-126) (by norm_num) (by norm_num) (by norm_num) (by norm_num)
  have hhi : round32 (2 ^ (127 : ℤ)) = fin (2 ^ (127 : ℤ)) :=
    round32_of_eq 1 127 (by norm_num) (by norm_num) (by norm_num) (by norm_num)
  have hq0 : (0 : ℚ) ≤ q := le_trans (two_zpow_pos _).le h1
  have l1 : fin (2 ^ (-126 : ℤ)) ≤ round32 q := by
    rw [← hlo]
    exact round32_mono (two_zpow_pos _).le h1
  have l2 : round32 q ≤ fin (2 ^ (127 : ℤ)) := by
    rw [← hhi]
    exact round32_mono hq0 h2
  cases hr : round32 q with
  | nan => exact absurd hr (round32_ne_nan q)
  | inf b =>
    rw [hr] at l1 l2
    cases b
    · exact absurd l2 (by simp [LE.le, le])
    · exact absurd l1 (by simp [LE.le, le])
  | fin r =>
    rw [hr] at l1
    have := fin_le_fin.mp l1
    show (2 : ℚ) ^ (-126 : ℤ) ≤ |r|
    exact le_trans this (le_abs_self r)

theorem isNormal_fin_one : (fin 1 : FP).isNormal := by
  show (2 : ℚ) ^ (-126 : ℤ) ≤ |1|
  rw [abs_one]
  exact zpow_le_one_of_nonpos₀ (by norm_num) (by norm_num)

end FP

theorem roundNearestEven_eq_of_abs_lt {x : ℚ} {n : ℤ} (h : |x - n| < 1 / 2) :
    roundNearestEven x = n := by
  rw [abs_lt] at h
  rcases le_or_lt (n : ℚ) x with hx | hx
  · have hf : ⌊x⌋ = n := Int.floor_eq_iff.mpr ⟨hx, by linarith [h.2]⟩
    unfold roundNearestEven
    rw [hf, if_pos (by linarith [h.2])]
  · have hf : ⌊x⌋ = n - 1 := Int.floor_eq_iff.mpr ⟨by push_cast; linarith [h.1], by
      push_cast; linarith⟩
    unfold roundNearestEven
    rw [hf, if_neg (by push_cast; linarith [h.1]), if_pos (by push_cast; linarith [h.1])]
    ring

namespace FP

/-- A rational in the binade `[2 ^ (k + 23), 2 ^ (k + 24))` that is closer than half a
spacing `2 ^ k` to the multiple `n * 2 ^ k` rounds to that multiple. -/
theorem round32_eq_of_close {q : ℚ} (n : ℕ) (k : ℤ) (hk : -149 ≤ k)
    (hlo : (2 : ℚ) ^ (k + 23) ≤ q) (hhi : q < 2 ^ (k + 24))
    (h : |q - (n : ℚ) * 2 ^ k| < 2 ^ k / 2) (hov : (n : ℚ) * 2 ^ k < 2 ^ (128 : ℤ)) :
    round32 q = fin ((n : ℚ) * 2 ^ k) := by
  have hq : 0 < q := lt_of_lt_of_le (two_zpow_pos _) hlo
  have hlog : Int.log 2 q = k + 23 := by
    apply le_antisymm
    · have : Int.log 2 q < k + 24 :=
        (Int.lt_zpow_iff_log_lt (by norm_num) hq).mp (by simpa using hhi)
      omega
    · exact (Int.zpow_le_iff_le_log (by norm_num) hq).mp (by simpa using hlo)
  have hu : spacingExponent 24 127 q = k := by
    unfold spacingExponent
    rw [hlog, max_eq_left (by omega)]
    push_cast
    ring
  have hx : |q / 2 ^ k - ((n : ℤ) : ℚ)| < 1 / 2 := by
    have hkpos := two_zpow_pos k
    have e : q / 2 ^ k - ((n : ℤ) : ℚ) = (q - (n : ℚ) * 2 ^ k) / 2 ^ k := by
      push_cast
      field_simp
      ring
    rw [e, abs_div, abs_of_pos hkpos, div_lt_iff₀ hkpos]
    calc |q - (n : ℚ) * 2 ^ k| < 2 ^ k / 2 := h
      _ = 1 / 2 * 2 ^ k := by ring
  have hM : roundMagnitude 24 127 q = (n : ℚ) * 2 ^ k := by
    unfold roundMagnitude
    rw [hu, roundNearestEven_eq_of_abs_lt hx]
    push_cast
    ring
  unfold round32
  rw [roundTo_of_nonneg 24 127 hq.le, hM, if_neg (not_le.mpr (by simpa using hov))]

end FP

/-- At 180 revolutions per minute on the all-ones record, every value computed is a
normal `float`, and `max_speed` is `9882596 / 2 ^ 19`, the rounding of `6 * M_PIf`. -/
theorem normalRange_unitParams_180 :
    normalRange M_PIf32 { (unitParams : RotorParams FP) with max_rpm := FP.fin (3 * 60) } ∧
    (calculateMaxThrust M_PIf32
      { (unitParams : RotorParams FP) with max_rpm := FP.fin (3 * 60) }).max_speed
      = FP.fin (9882596 / 524288) := by
  have hone : (FP.fin 1 : FP) * FP.fin 1 = FP.fin 1 := by
    rw [FP.fin_mul_fin, mul_one, FP.round32_one]
  have r3 : FP.round32 3 = FP.fin 3 := by
    simpa using FP.round32_natCast (n := 3) (by norm_num)
  have r6 : FP.round32 6 = FP.fin 6 := by
    simpa using FP.round32_natCast (n := 6) (by norm_num)
  have r9 : FP.round32 9 = FP.fin 9 := by
    simpa using FP.round32_natCast (n := 9) (by norm_num)
  have hrps : (FP.fin (3 * 60) : FP) / 60 = FP.fin 3 := by
    rw [FP.sixty_eq, FP.fin_div_fin (by norm_num)]
    have e : (3 * 60 : ℚ) / 60 = 3 := by norm_num
    rw [e, r3]
  have h32 : (FP.fin 3 : FP) * 2 = FP.fin 6 := by
    rw [FP.two_eq, FP.fin_mul_fin]
    have e : (3 : ℚ) * 2 = 6 := by norm_num
    rw [e, r6]
  have hms : (FP.fin 6 : FP) * M_PIf32 = FP.fin (9882596 / 524288) := by
    rw [M_PIf32, FP.fin_mul_fin]
    have e : (9882596 : ℚ) / 524288 = ((9882596 : ℕ) : ℚ) * 2 ^ (-19 : ℤ) := by norm_num
    rw [e]
    apply FP.round32_eq_of_close 9882596 (-19) (by norm_num)
    · norm_num
    · norm_num
    · rw [abs_lt]
      constructor <;> norm_num
    · norm_num
  have h33 : (FP.fin 3 : FP) * FP.fin 3 = FP.fin 9 := by
    rw [FP.fin_mul_fin]
    have e : (3 : ℚ) * 3 = 9 := by norm_num
    rw [e, r9]
  have h19 : (FP.fin 1 : FP) * FP.fin 9 = FP.fin 9 := by
    rw [FP.fin_mul_fin, one_mul, r9]
  have h91 : (FP.fin 9 : FP) * FP.fin 1 = FP.fin 9 := by
    rw [FP.fin_mul_fin, mul_one, r9]
  have small : (2 : ℚ) ^ (-126 : ℤ) ≤ 1 := zpow_le_one_of_nonpos₀ (by norm_num) (by norm_num)
  have n3 : (FP.fin 3 : FP).isNormal := by
    show (2 : ℚ) ^ (-126 : ℤ) ≤ |3|
    rw [abs_of_pos (by norm_num)]
    exact le_trans small (by norm_num)
  have n6 : (FP.fin 6 : FP).isNormal := by
    show (2 : ℚ) ^ (-126 : ℤ) ≤ |6|
    rw [abs_of_pos (by norm_num)]
    exact le_trans small (by norm_num)
  have n9 : (FP.fin 9 : FP).isNormal := by
    show (2 : ℚ) ^ (-126 : ℤ) ≤ |9|
    rw [abs_of_pos (by norm_num)]
    exact le_trans small (by norm_num)
  have nms : (FP.fin (9882596 / 524288) : FP).isNormal := by
    show (2 : ℚ) ^ (-126 : ℤ) ≤ |9882596 / 524288|
    rw [abs_of_pos (by norm_num)]
    exact le_trans small (by norm_num)
  have nmss : ((FP.fin (9882596 / 524288) : FP) ^ 2).isNormal := by
    show (FP.narrow (FP.round64 ((9882596 / 524288 : ℚ) ^ 2))).isNormal
    rw [FP.round64_of_eq 6104106481201 (-34) (by norm_num) (by norm_num) (by norm_num)
      (by norm_num)]
    show (FP.round32 _).isNormal
    apply FP.round32_isNormal
    · exact le_trans small (by norm_num)
    · norm_num
  have nq : ((FP.fin 9 : FP) / FP.fin (13176795 / 2097152)).isNormal := by
    rw [FP.fin_div_fin (by norm_num)]
    apply FP.round32_isNormal
    · exact le_trans small (by norm_num)
    · norm_num
  refine ⟨?_, ?_⟩
  · simp only [normalRange, unitParams]
    rw [hrps, h32, hms, h33, FP.one_eq, hone, h19, FP.pow_fin_one, FP.pow_fin_one, h91,
      FP.two_mul_M_PIf32]
    exact ⟨n3, n6, nms, nmss, n9, FP.isNormal_fin_one, n9, FP.isNormal_fin_one, n9,
      FP.isNormal_fin_one, n9, FP.isNormal_fin_one, n9, nq⟩
  · simp only [calculateMaxThrust, unitParams]
    rw [hrps, h32, hms]

/-- Every value computed on the all-ones record at 60 revolutions per minute is a
normal `float`, and there `max_thrust` is 1. -/
theorem normalRange_unitParams :
    normalRange M_PIf32 (unitParams : RotorParams FP) ∧
    (calculateMaxThrust M_PIf32 (unitParams : RotorParams FP)).max_thrust = FP.fin 1 := by
  have hone : (FP.fin 1 : FP) * FP.fin 1 = FP.fin 1 := by
    rw [FP.fin_mul_fin, mul_one, FP.round32_one]
  have hrps : (60 : FP) / 60 = FP.fin 1 := by
    rw [FP.sixty_eq, FP.fin_div_fin (by norm_num), div_self (by norm_num), FP.round32_one]
  have h12 : (FP.fin 1 : FP) * 2 = FP.fin 2 := by
    rw [FP.two_eq, FP.fin_mul_fin, one_mul]
    simpa using FP.round32_natCast (n := 2) (by norm_num)
  have hms : (FP.fin 2 : FP) * M_PIf32 = FP.fin (13176795 / 2097152) := by
    rw [← FP.two_eq]
    exact FP.two_mul_M_PIf32
  have h2 : (FP.fin 2 : FP).isNormal := by
    show (2 : ℚ) ^ (-126 : ℤ) ≤ |2|
    rw [abs_of_pos (by norm_num)]
    exact le_trans (zpow_le_one_of_nonpos₀ (by norm_num) (by norm_num)) (by norm_num)
  have hmsn : (FP.fin (13176795 / 2097152) : FP).isNormal := by
    show (2 : ℚ) ^ (-126 : ℤ) ≤ |13176795 / 2097152|
    rw [abs_of_pos (by norm_num)]
    exact le_trans (zpow_le_one_of_nonpos₀ (by norm_num) (by norm_num)) (by norm_num)
  have hmss : ((FP.fin (13176795 / 2097152) : FP) ^ 2).isNormal := by
    show (FP.narrow (FP.round64 ((13176795 / 2097152 : ℚ) ^ 2))).isNormal
    rw [FP.round64_of_eq 173627926472025 (-42) (by norm_num) (by norm_num) (by norm_num)
      (by norm_num)]
    show (FP.round32 _).isNormal
    apply FP.round32_isNormal
    · exact le_trans (zpow_le_one_of_nonpos₀ (by norm_num) (by norm_num)) (by norm_num)
    · norm_num
  have hq : ((FP.fin 1 : FP) / FP.fin (13176795 / 2097152)).isNormal := by
    rw [FP.fin_div_fin (by norm_num)]
    apply FP.round32_isNormal
    · have : (2 : ℚ) ^ (-126 : ℤ) ≤ 2 ^ (-3 : ℤ) :=
        zpow_le_zpow_right₀ (by norm_num) (by norm_num)
      exact le_trans this (by norm_num)
    · norm_num
  refine ⟨?_, ?_⟩
  · simp only [normalRange, unitParams]
    rw [hrps, h12, hms, FP.one_eq, hone, hone, FP.pow_fin_one, FP.pow_fin_one, hone,
      FP.two_mul_M_PIf32]
    exact ⟨FP.isNormal_fin_one, h2, hmsn, hmss, FP.isNormal_fin_one, FP.isNormal_fin_one,
      FP.isNormal_fin_one, FP.isNormal_fin_one, FP.isNormal_fin_one, FP.isNormal_fin_one,
      FP.isNormal_fin_one, FP.isNormal_fin_one, FP.isNormal_fin_one, hq⟩
  · simp only [calculateMaxThrust, unitParams]
    rw [hrps, FP.one_eq, hone, hone, FP.pow_fin_one, hone]

/-! ## Scaling up to rounding -/

theorem withinRounding_mono {m n : ℕ} {t : ℚ} (h : m ≤ n) (ht : withinRounding m t) :
    withinRounding n t := by
  have hb := withinRounding_base_pos
  have hb1 : (1 - 2 ^ (-24 : ℤ) : ℚ) ≤ 1 := by norm_num
  have hpow : (1 - 2 ^ (-24 : ℤ) : ℚ) ^ n ≤ (1 - 2 ^ (-24 : ℤ)) ^ m :=
    pow_le_pow_of_le_one hb.le hb1 h
  exact ⟨le_trans hpow ht.1, le_trans ht.2 (inv_anti₀ (pow_pos hb n) hpow)⟩

/-- A value that is `Q` times a factor within sixteen roundings of 1 differs from `Q`
by at most `2 ^ (-18)` of it. -/
theorem abs_sub_le_of_ratio {m : ℕ} {g Q' Q : ℚ} (hg : withinRounding m g) (hm : m ≤ 16)
    (h : Q' = Q * g) : |Q' - Q| ≤ 2 ^ (-18 : ℤ) * |Q| := by
  have h16 := withinRounding_mono hm hg
  have nlo : (1 : ℚ) - 2 ^ (-18 : ℤ) ≤ (1 - 2 ^ (-24 : ℤ)) ^ 16 := by norm_num
  have nhi : ((1 - 2 ^ (-24 : ℤ) : ℚ) ^ 16)⁻¹ ≤ 1 + 2 ^ (-18 : ℤ) := by norm_num
  have h1 := le_trans nlo h16.1
  have h2 := le_trans h16.2 nhi
  have ht : |g - 1| ≤ 2 ^ (-18 : ℤ) := by
    rw [abs_le]
    constructor <;> linarith
  have e : Q' - Q = Q * (g - 1) := by rw [h]; ring
  rw [e, abs_mul, mul_comm]
  exact mul_le_mul_of_nonneg_right ht (abs_nonneg Q)

namespace FP

theorem fin_div_fin_of_isNormal {a c : ℚ} (hc : c ≠ 0) (h : (fin a / fin c).isNormal) :
    ∃ r, fin a / fin c = fin r ∧ r ≠ 0 ∧ withinRounding 1 (a / c / r) := by
  obtain ⟨a', r, ha, hr, h0, hw⟩ := div_of_isNormal hc h
  cases ha
  exact ⟨r, hr, h0, hw⟩

theorem fin_pow_of_isNormal {a : ℚ} {n : ℕ} (hn : n ≠ 0) (h : ((fin a : FP) ^ n).isNormal) :
    ∃ r, (fin a : FP) ^ n = fin r ∧ r ≠ 0 ∧ withinRounding 2 (a ^ n / r) := by
  obtain ⟨a', r, ha, hr, h0, hw⟩ := pow_of_isNormal hn h
  cases ha
  exact ⟨r, hr, h0, hw⟩

end FP

theorem withinRounding_zero_one : withinRounding 0 1 := by
  constructor <;> simp

theorem scaledWithin_base (k r : ℚ) : scaledWithin 0 k r (k * r) :=
  ⟨1, withinRounding_zero_one, by ring⟩

theorem scaledWithin_mul_const {m : ℕ} {κ e e' : ℚ} (c : ℚ) (h : scaledWithin m κ e e') :
    scaledWithin m κ (e * c) (e' * c) := by
  obtain ⟨g, hg, he⟩ := h
  exact ⟨g, hg, by rw [he]; ring⟩

theorem scaledWithin_const_mul {m : ℕ} {κ e e' : ℚ} (c : ℚ) (h : scaledWithin m κ e e') :
    scaledWithin m κ (c * e) (c * e') := by
  obtain ⟨g, hg, he⟩ := h
  exact ⟨g, hg, by rw [he]; ring⟩

theorem scaledWithin_div_const {m : ℕ} {κ e e' : ℚ} (c : ℚ) (h : scaledWithin m κ e e') :
    scaledWithin m κ (e / c) (e' / c) := by
  obtain ⟨g, hg, he⟩ := h
  exact ⟨g, hg, by rw [he]; ring⟩

theorem scaledWithin_mul {m n : ℕ} {κ μ e1 e1' e2 e2' : ℚ} (h1 : scaledWithin m κ e1 e1')
    (h2 : scaledWithin n μ e2 e2') : scaledWithin (m + n) (κ * μ) (e1 * e2) (e1' * e2') := by
  obtain ⟨g1, hg1, he1⟩ := h1
  obtain ⟨g2, hg2, he2⟩ := h2
  exact ⟨g1 * g2, withinRounding_mul hg1 hg2, by rw [he1, he2]; ring⟩

theorem scaledWithin_pow_two {m : ℕ} {κ e e' : ℚ} (h : scaledWithin m κ e e') :
    scaledWithin (m + m) (κ * κ) (e ^ 2) (e' ^ 2) := by
  have := scaledWithin_mul h h
  rw [pow_two, pow_two]
  exact this

/-- Rounding both values: `e = v * t` and `e' = v' * u` with `t`, `u` within `a`, `b`
roundings of 1. -/
theorem scaledWithin_round {m a b : ℕ} {κ e e' v v' : ℚ} (ht : withinRounding a (e / v))
    (hu : withinRounding b (e' / v')) (hv : v ≠ 0)
    (h : scaledWithin m κ e e') : scaledWithin (m + b + a) κ v v' := by
  obtain ⟨g, hg, he⟩ := h
  have hu0 : e' / v' ≠ 0 := (withinRounding_pos hu).ne'
  have he0' : e' ≠ 0 := withinRounding_ne_zero_of_div hu
  refine ⟨g * (e' / v')⁻¹ * (e / v),
    withinRounding_mul (withinRounding_mul hg (withinRounding_inv hu)) ht, ?_⟩
  have e1 : κ * v * (g * (e' / v')⁻¹ * (e / v)) = (κ * e * g) * (e' / v')⁻¹ := by
    field_simp
    ring
  rw [e1, ← he]
  field_simp

theorem abs_sub_le_of_scaledWithin {m : ℕ} {κ v v' : ℚ} (h : scaledWithin m κ v v')
    (hm : m ≤ 16) : |v' - κ * v| ≤ 2 ^ (-18 : ℤ) * |κ * v| := by
  obtain ⟨g, hg, he⟩ := h
  exact abs_sub_le_of_ratio hg hm he

/-! ## The derivation of the limits -/

/-- C3 (counterexample): on the object that has every key except `max_rpm`, started
from the all-zero record, the read throws at `max_rpm` and the record is no longer
the one it started from: `C_T`, `C_P` and `air_density` already hold the object's
values. -/
theorem getParamsList_without_max_rpm_mutates :
    (getParamsList (objectWithoutMaxRpm : String → Option ℝ) zeroParams).1
        = Outcome.threw "max_rpm" ∧
    (getParamsList (objectWithoutMaxRpm : String → Option ℝ) zeroParams).2
        = { (zeroParams : RotorParams ℝ) with C_T := 1, C_P := 2, air_density := 3 } ∧
    (getParamsList (objectWithoutMaxRpm : String → Option ℝ) zeroParams).2 ≠ zeroParams := by
  simp [getParamsList, assignFrom, objectWithoutMaxRpm, jsonObject, List.lookup, zeroParams]

/-- C3 (amended): when the read throws, the key it throws at is one of the ten keys
read and is absent from the object; the three fields that are never read and `rotor_z`
are unchanged; every field read before that key holds the object's value for its
key (each of those keys is present), and every other field is unchanged. -/
theorem getParamsList_threw_frame (jsonParams : String → Option ℝ)
    (s r : RotorParams ℝ) (key : String)
    (h : getParamsList jsonParams s = (Outcome.threw key, r)) :
    jsonParams key = none ∧
    key ∈ ["C_T", "C_P", "air_density", "max_rpm", "propeller_diameter", "propeller_height",
      "control_signal_filter_tc", "max_thrust", "max_torque", "rotor_z"] ∧
    (r.revolutions_per_second = s.revolutions_per_second ∧ r.max_speed = s.max_speed ∧
      r.max_speed_square = s.max_speed_square ∧ r.rotor_z = s.rotor_z) ∧
    (key = "C_T" → r = s) ∧
    (key = "C_P" →
      jsonParams "C_T" = some r.C_T ∧
      r = { s with C_T := r.C_T }) ∧
    (key = "air_density" →
      jsonParams "C_T" = some r.C_T ∧
      jsonParams "C_P" = some r.C_P ∧
      r = { s with C_T := r.C_T,
                   C_P := r.C_P }) ∧
    (key = "max_rpm" →
      jsonParams "C_T" = some r.C_T ∧
      jsonParams "C_P" = some r.C_P ∧
      jsonParams "air_density" = some r.air_density ∧
      r = { s with C_T := r.C_T,
                   C_P := r.C_P,
                   air_density := r.air_density }) ∧
    (key = "propeller_diameter" →
      jsonParams "C_T" = some r.C_T ∧
      jsonParams "C_P" = some r.C_P ∧
      jsonParams "air_density" = some r.air_density ∧
      jsonParams "max_rpm" = some r.max_rpm ∧
      r = { s with C_T := r.C_T,
                   C_P := r.C_P,
                   air_density := r.air_density,
                   max_rpm := r.max_rpm }) ∧
    (key = "propeller_height" →
      jsonParams "C_T" = some r.C_T ∧
      jsonParams "C_P" = some r.C_P ∧
      jsonParams "air_density" = some r.air_density ∧
      jsonParams "max_rpm" = some r.max_rpm ∧
      jsonParams "propeller_diameter" = some r.propeller_diameter ∧
      r = { s with C_T := r.C_T,
                   C_P := r.C_P,
                   air_density := r.air_density,
                   max_rpm := r.max_rpm,
                   propeller_diameter := r.propeller_diameter }) ∧
    (key = "control_signal_filter_tc" →
      jsonParams "C_T" = some r.C_T ∧
      jsonParams "C_P" = some r.C_P ∧
      jsonParams "air_density" = some r.air_density ∧
      jsonParams "max_rpm" = some r.max_rpm ∧
      jsonParams "propeller_diameter" = some r.propeller_diameter ∧
      jsonParams "propeller_height" = some r.propeller_height ∧
      r = { s with C_T := r.C_T,
                   C_P := r.C_P,
                   air_density := r.air_density,
                   max_rpm := r.max_rpm,
                   propeller_diameter := r.propeller_diameter,
                   propeller_height := r.propeller_height }) ∧
    (key = "max_thrust" →
      jsonParams "C_T" = some r.C_T ∧
      jsonParams "C_P" = some r.C_P ∧
      jsonParams "air_density" = some r.air_density ∧
      jsonParams "max_rpm" = some r.max_rpm ∧
      jsonParams "propeller_diameter" = some r.propeller_diameter ∧
      jsonParams "propeller_height" = some r.propeller_height ∧
      jsonParams "control_signal_filter_tc" = some r.control_signal_filter_tc ∧
      r = { s with C_T := r.C_T,
                   C_P := r.C_P,
                   air_density := r.air_density,
                   max_rpm := r.max_rpm,
                   propeller_diameter := r.propeller_diameter,
                   propeller_height := r.propeller_height,
                   control_signal_filter_tc := r.control_signal_filter_tc }) ∧
    (key = "max_torque" →
      jsonParams "C_T" = some r.C_T ∧
      jsonParams "C_P" = some r.C_P ∧
      jsonParams "air_density" = some r.air_density ∧
      jsonParams "max_rpm" = some r.max_rpm ∧
      jsonParams "propeller_diameter" = some r.propeller_diameter ∧
      jsonParams "propeller_height" = some r.propeller_height ∧
      jsonParams "control_signal_filter_tc" = some r.control_signal_filter_tc ∧
      jsonParams "max_thrust" = some r.max_thrust ∧
      r = { s with C_T := r.C_T,
                   C_P := r.C_P,
                   air_density := r.air_density,
                   max_rpm := r.max_rpm,
                   propeller_diameter := r.propeller_diameter,
                   propeller_height := r.propeller_height,
                   control_signal_filter_tc := r.control_signal_filter_tc,
                   max_thrust := r.max_thrust }) ∧
    (key = "rotor_z" →
      jsonParams "C_T" = some r.C_T ∧
      jsonParams "C_P" = some r.C_P ∧
      jsonParams "air_density" = some r.air_density ∧
      jsonParams "max_rpm" = some r.max_rpm ∧
      jsonParams "propeller_diameter" = some r.propeller_diameter ∧
      jsonParams "propeller_height" = some r.propeller_height ∧
      jsonParams "control_signal_filter_tc" = some r.control_signal_filter_tc ∧
      jsonParams "max_thrust" = some r.max_thrust ∧
      jsonParams "max_torque" = some r.max_torque ∧
      r = { s with C_T := r.C_T,
                   C_P := r.C_P,
                   air_density := r.air_density,
                   max_rpm := r.max_rpm,
                   propeller_diameter := r.propeller_diameter,
                   propeller_height := r.propeller_height,
                   control_signal_filter_tc := r.control_signal_filter_tc,
                   max_thrust := r.max_thrust,
                   max_torque := r.max_torque }) := by
  unfold getParamsList assignFrom at h
  simp only [] at h
  repeat' split at h
  all_goals simp_all
  all_goals (obtain ⟨rfl, rfl⟩ := h; simp_all)

/-- C3 (amended, at a concrete input): the object without `max_rpm`, read into the
all-zero record, throws at `max_rpm`; `C_T`, `C_P` and `air_density` then hold the
object's values 1, 2 and 3 and every other field is as in the all-zero record. -/
theorem getParamsList_threw_frame_witness :
    getParamsList (objectWithoutMaxRpm : String → Option ℝ) zeroParams
        = (Outcome.threw "max_rpm",
            { (zeroParams : RotorParams ℝ) with C_T := 1, C_P := 2, air_density := 3 }) ∧
    (objectWithoutMaxRpm : String → Option ℝ) "max_rpm" = none ∧
    ((objectWithoutMaxRpm : String → Option ℝ) "C_T" = some 1 ∧
      (objectWithoutMaxRpm : String → Option ℝ) "C_P" = some 2 ∧
      (objectWithoutMaxRpm : String → Option ℝ) "air_density" = some 3 ∧
      ({ (zeroParams : RotorParams ℝ) with C_T := 1, C_P := 2, air_density := 3 }
          : RotorParams ℝ)
        = { (zeroParams : RotorParams ℝ) with C_T := 1, C_P := 2, air_density := 3 }) :=
  have h : getParamsList (objectWithoutMaxRpm : String → Option ℝ) zeroParams
      = (Outcome.threw "max_rpm",
          { (zeroParams : RotorParams ℝ) with C_T := 1, C_P := 2, air_density := 3 }) := by
    simp [getParamsList, assignFrom, objectWithoutMaxRpm, jsonObject, List.lookup, zeroParams]
  ⟨h, (getParamsList_threw_frame _ _ _ _ h).1,
    (getParamsList_threw_frame _ _ _ _ h).2.2.2.2.2.2.1 rfl⟩

/-- C4 (counterexample): the object that holds the eight coefficient keys and nothing
else has none of the eight absent, yet the read throws, at `max_thrust`. -/
theorem getParamsList_eight_keys_throws :
    (∀ k ∈ ["C_T", "C_P", "air_density", "max_rpm", "propeller_diameter",
        "propeller_height", "control_signal_filter_tc", "rotor_z"],
      (eightCoefficientObject : String → Option ℝ) k ≠ none) ∧
    (∀ k ∉ ["C_T", "C_P", "air_density", "max_rpm", "propeller_diameter",
        "propeller_height", "control_signal_filter_tc", "rotor_z"],
      (eightCoefficientObject : String → Option ℝ) k = none) ∧
    (getParamsList (eightCoefficientObject : String → Option ℝ) zeroParams).1
        = Outcome.threw "max_thrust" := by
  refine ⟨?_, ?_, ?_⟩
  · simp [eightCoefficientObject, jsonObject, List.lookup]
  · intro k hk
    simp only [List.mem_cons, List.mem_singleton, List.not_mem_nil, or_false, not_or] at hk
    obtain ⟨h1, h2, h3, h4, h5, h6, h7, h8⟩ := hk
    simp [eightCoefficientObject, jsonObject, List.lookup, beq_eq_false_iff_ne.mpr h1,
      beq_eq_false_iff_ne.mpr h2, beq_eq_false_iff_ne.mpr h3, beq_eq_false_iff_ne.mpr h4,
      beq_eq_false_iff_ne.mpr h5, beq_eq_false_iff_ne.mpr h6, beq_eq_false_iff_ne.mpr h7,
      beq_eq_false_iff_ne.mpr h8]
  · simp [getParamsList, assignFrom, eightCoefficientObject, jsonObject, List.lookup]

/-- C4 (amended): the read throws if and only if at least one of the ten keys `C_T`,
`C_P`, `air_density`, `max_rpm`, `propeller_diameter`, `propeller_height`,
`control_signal_filter_tc`, `max_thrust`, `max_torque`, `rotor_z` is absent from the
object; it completes on every object that holds these ten. -/
theorem getParamsList_threw_iff (jsonParams : String → Option ℝ) (s : RotorParams ℝ) :
    (getParamsList jsonParams s).1 ≠ Outcome.completed ↔
      (jsonParams "C_T" = none ∨ jsonParams "C_P" = none ∨ jsonParams "air_density" = none ∨
        jsonParams "max_rpm" = none ∨ jsonParams "propeller_diameter" = none ∨
        jsonParams "propeller_height" = none ∨ jsonParams "control_signal_filter_tc" = none ∨
        jsonParams "max_thrust" = none ∨ jsonParams "max_torque" = none ∨
        jsonParams "rotor_z" = none) := by
  unfold getParamsList assignFrom
  simp only []
  repeat' split
  all_goals simp_all

/-- C5: when the read completes, `C_T`, `C_P`, `air_density`, `max_rpm`,
`propeller_diameter`, `propeller_height` and `control_signal_filter_tc` hold the
object's values for their keys unchanged, and `rotor_z` holds the object's `rotor_z`
value divided by 100, once. -/
theorem getParamsList_completed_stores (jsonParams : String → Option ℝ)
    (s r : RotorParams ℝ) (h : getParamsList jsonParams s = (Outcome.completed, r)) :
    jsonParams "C_T" = some r.C_T ∧ jsonParams "C_P" = some r.C_P ∧
    jsonParams "air_density" = some r.air_density ∧ jsonParams "max_rpm" = some r.max_rpm ∧
    jsonParams "propeller_diameter" = some r.propeller_diameter ∧
    jsonParams "propeller_height" = some r.propeller_height ∧
    jsonParams "control_signal_filter_tc" = some r.control_signal_filter_tc ∧
    ∃ z, jsonParams "rotor_z" = some z ∧ r.rotor_z = z / 100 := by
  unfold getParamsList assignFrom at h
  simp only [] at h
  repeat' split at h
  all_goals simp_all
  subst h
  simp

/-- C5 (at a concrete input): the object with all ten keys, `rotor_z` being 100, read
into the all-zero record: the read completes and `rotor_z` is stored as 1. -/
theorem getParamsList_completed_stores_witness :
    getParamsList (fullObject : String → Option ℝ) zeroParams
        = (Outcome.completed,
            { (zeroParams : RotorParams ℝ) with
              C_T := 1, C_P := 2, air_density := 3, max_rpm := 4, propeller_diameter := 5,
              propeller_height := 6, control_signal_filter_tc := 7, max_thrust := 8,
              max_torque := 9, rotor_z := 1 }) ∧
    (fullObject : String → Option ℝ) "C_T" = some 1 ∧
    (fullObject : String → Option ℝ) "C_P" = some 2 ∧
    (fullObject : String → Option ℝ) "air_density" = some 3 ∧
    (fullObject : String → Option ℝ) "max_rpm" = some 4 ∧
    (fullObject : String → Option ℝ) "propeller_diameter" = some 5 ∧
    (fullObject : String → Option ℝ) "propeller_height" = some 6 ∧
    (fullObject : String → Option ℝ) "control_signal_filter_tc" = some 7 ∧
    ∃ z, (fullObject : String → Option ℝ) "rotor_z" = some z ∧ (1 : ℝ) = z / 100 :=
  have h : getParamsList (fullObject : String → Option ℝ) zeroParams
      = (Outcome.completed,
          { (zeroParams : RotorParams ℝ) with
            C_T := 1, C_P := 2, air_density := 3, max_rpm := 4, propeller_diameter := 5,
            propeller_height := 6, control_signal_filter_tc := 7, max_thrust := 8,
            max_torque := 9, rotor_z := 1 }) := by
    simp [getParamsList, assignFrom, fullObject, jsonObject, List.lookup, zeroParams]
  ⟨h, getParamsList_completed_stores _ _ _ h⟩

/-- C6 (counterexample): reading the object with all ten keys into the all-zero record
changes `max_thrust` from 0 to 8 and `max_torque` from 0 to 9. -/
theorem getParamsList_overwrites_limits :
    (getParamsList (fullObject : String → Option ℝ) zeroParams).2.max_thrust = 8 ∧
    (getParamsList (fullObject : String → Option ℝ) zeroParams).2.max_torque = 9 ∧
    (zeroParams : RotorParams ℝ).max_thrust = 0 ∧
    (zeroParams : RotorParams ℝ).max_torque = 0 ∧
    (getParamsList (fullObject : String → Option ℝ) zeroParams).2.max_thrust
        ≠ (zeroParams : RotorParams ℝ).max_thrust ∧
    (getParamsList (fullObject : String → Option ℝ) zeroParams).2.max_torque
        ≠ (zeroParams : RotorParams ℝ).max_torque := by
  simp [getParamsList, assignFrom, fullObject, jsonObject, List.lookup, zeroParams]

/-- C6 (amended): for every record and every object the read leaves
`revolutions_per_second`, `max_speed` and `max_speed_square` unchanged; `max_thrust`
and `max_torque` are each either unchanged or equal to the object's value for that
key, and when the read completes both hold the object's values. -/
theorem getParamsList_derived_frame (jsonParams : String → Option ℝ) (s : RotorParams ℝ) :
    (getParamsList jsonParams s).2.revolutions_per_second = s.revolutions_per_second ∧
    (getParamsList jsonParams s).2.max_speed = s.max_speed ∧
    (getParamsList jsonParams s).2.max_speed_square = s.max_speed_square ∧
    ((getParamsList jsonParams s).2.max_thrust = s.max_thrust ∨
      jsonParams "max_thrust" = some (getParamsList jsonParams s).2.max_thrust) ∧
    ((getParamsList jsonParams s).2.max_torque = s.max_torque ∨
      jsonParams "max_torque" = some (getParamsList jsonParams s).2.max_torque) ∧
    ((getParamsList jsonParams s).1 = Outcome.completed →
      jsonParams "max_thrust" = some (getParamsList jsonParams s).2.max_thrust ∧
      jsonParams "max_torque" = some (getParamsList jsonParams s).2.max_torque) := by
  unfold getParamsList assignFrom
  simp only []
  repeat' split
  all_goals simp_all

/-- C6 (amended, at a concrete input): the object with all ten keys read into the
all-zero record completes, and `max_thrust`, `max_torque` then hold the object's
values 8 and 9 while `revolutions_per_second` is still 0. -/
theorem getParamsList_derived_frame_witness :
    (getParamsList (fullObject : String → Option ℝ) zeroParams).1 = Outcome.completed ∧
    (getParamsList (fullObject : String → Option ℝ) zeroParams).2.revolutions_per_second
        = (zeroParams : RotorParams ℝ).revolutions_per_second ∧
    ((fullObject : String → Option ℝ) "max_thrust"
        = some (getParamsList (fullObject : String → Option ℝ) zeroParams).2.max_thrust ∧
      (fullObject : String → Option ℝ) "max_torque"
        = some (getParamsList (fullObject : String → Option ℝ) zeroParams).2.max_torque) :=
  have h : (getParamsList (fullObject : String → Option ℝ) zeroParams).1
      = Outcome.completed := by
    simp [getParamsList, assignFrom, fullObject, jsonObject, List.lookup]
  ⟨h, (getParamsList_derived_frame fullObject zeroParams).1,
    (getParamsList_derived_frame fullObject zeroParams).2.2.2.2.2 h⟩

/-! ## Values of the limits -/

/-- C7: with `C_T = 0.109919`, `C_P = 0.040164`, `air_density = 1.225`,
`max_rpm = 6396.667` and `propeller_diameter = 0.2286` (the other fields arbitrary),
over the reals with the true pi, `calculateMaxThrust` gives `revolutions_per_second`
within relative tolerance 1e-3 of 106.611, `max_thrust` within 1e-3 of 4.179 and
`max_torque` within 1e-3 of 0.0556. -/
theorem calculateMaxThrust_reference_values (s : RotorParams ℝ) :
    |(calculateMaxThrust Real.pi { s with
        C_T := 0.109919, C_P := 0.040164, air_density := 1.225, max_rpm := 6396.667,
        propeller_diameter := 0.2286 }).revolutions_per_second - 106.611|
      ≤ 1e-3 * |(106.611 : ℝ)| ∧
    |(calculateMaxThrust Real.pi { s with
        C_T := 0.109919, C_P := 0.040164, air_density := 1.225, max_rpm := 6396.667,
        propeller_diameter := 0.2286 }).max_thrust - 4.179|
      ≤ 1e-3 * |(4.179 : ℝ)| ∧
    |(calculateMaxThrust Real.pi { s with
        C_T := 0.109919, C_P := 0.040164, air_density := 1.225, max_rpm := 6396.667,
        propeller_diameter := 0.2286 }).max_torque - 0.0556|
      ≤ 1e-3 * |(0.0556 : ℝ)| := by
  have hlo := Real.pi_gt_d6
  have hhi := Real.pi_lt_d6
  have hpos : (0 : ℝ) < 2 * Real.pi := by positivity
  have hrps : |(106.611 : ℝ)| = 106.611 := abs_of_pos (by norm_num)
  have hthrust : |(4.179 : ℝ)| = 4.179 := abs_of_pos (by norm_num)
  have htorque : |(0.0556 : ℝ)| = 0.0556 := abs_of_pos (by norm_num)
  simp only [calculateMaxThrust, hrps, hthrust, htorque]
  refine ⟨?_, ?_, ?_⟩
  · rw [abs_le]
    norm_num
  · rw [abs_le]
    norm_num
  · rw [abs_le, le_sub_iff_add_le, sub_le_iff_le_add, le_div_iff₀ hpos, div_le_iff₀ hpos]
    norm_num
    constructor <;> linarith

/-! ## Monotonicity and degenerate inputs -/

/-- C9 (counterexample): with all coefficients 1 and `max_rpm = -60`, a negative
value, `calculateMaxThrust` gives `max_thrust = 1` and `max_torque = 1 / (2*pi)`,
neither of which is zero; the `float` evaluation gives `max_thrust = 1` as well. -/
theorem calculateMaxThrust_negative_max_rpm_nonzero :
    (({ (unitParams : RotorParams ℝ) with max_rpm := -60 } : RotorParams ℝ).max_rpm ≤ 0 ∧
    (calculateMaxThrust Real.pi
      { (unitParams : RotorParams ℝ) with max_rpm := -60 }).max_thrust = 1 ∧
    (calculateMaxThrust Real.pi
      { (unitParams : RotorParams ℝ) with max_rpm := -60 }).max_torque = 1 / (2 * Real.pi) ∧
    (calculateMaxThrust Real.pi
      { (unitParams : RotorParams ℝ) with max_rpm := -60 }).max_thrust ≠ 0 ∧
    (calculateMaxThrust Real.pi
      { (unitParams : RotorParams ℝ) with max_rpm := -60 }).max_torque ≠ 0) ∧
    (({ (unitParams : RotorParams FP) with max_rpm := -60 } : RotorParams FP).max_rpm < 0 ∧
    (calculateMaxThrust M_PIf32
      { (unitParams : RotorParams FP) with max_rpm := -60 }).max_thrust = FP.fin 1 ∧
    (calculateMaxThrust M_PIf32
      { (unitParams : RotorParams FP) with max_rpm := -60 }).max_thrust ≠ 0) := by
  constructor
  · have hpi : Real.pi ≠ 0 := Real.pi_ne_zero
    simp only [calculateMaxThrust, unitParams]
    norm_num [hpi]
  · have hrps : (-60 : FP) / 60 = FP.fin (-1) := by
      rw [FP.sixty_eq, FP.neg_fin, FP.fin_div_fin (by norm_num)]
      have e : (-60 : ℚ) / 60 = -1 := by norm_num
      rw [e, FP.round32_neg, FP.round32_one, FP.neg_fin]
    have hnsq : (FP.fin (-1) : FP) * FP.fin (-1) = FP.fin 1 := by
      rw [FP.fin_mul_fin]
      have e : (-1 : ℚ) * -1 = 1 := by norm_num
      rw [e, FP.round32_one]
    have hone : (FP.fin 1 : FP) * FP.fin 1 = FP.fin 1 := by
      rw [FP.fin_mul_fin, mul_one, FP.round32_one]
    have hT : (calculateMaxThrust M_PIf32
        { (unitParams : RotorParams FP) with max_rpm := -60 }).max_thrust = FP.fin 1 := by
      simp only [calculateMaxThrust, unitParams]
      rw [hrps, hnsq, FP.one_eq, hone, hone, FP.pow_fin_one, hone]
    refine ⟨?_, hT, ?_⟩
    · show (-60 : FP) < 0
      rw [FP.sixty_eq, FP.zero_eq, FP.neg_fin, FP.fin_lt_fin]
      norm_num
    · rw [hT, FP.zero_eq]
      simp

/-! ## Repetition, dependence and frame of the derivation -/

/-- C11: `calculateMaxThrust` is idempotent: applied to its own result it returns
that result again, so the record, and with it each of the five derived fields, is the
same after the second call as after the first. -/
theorem calculateMaxThrust_idempotent (s : RotorParams ℝ) :
    calculateMaxThrust Real.pi (calculateMaxThrust Real.pi s) = calculateMaxThrust Real.pi s ∧
    (calculateMaxThrust Real.pi (calculateMaxThrust Real.pi s)).revolutions_per_second
        = (calculateMaxThrust Real.pi s).revolutions_per_second ∧
    (calculateMaxThrust Real.pi (calculateMaxThrust Real.pi s)).max_speed
        = (calculateMaxThrust Real.pi s).max_speed ∧
    (calculateMaxThrust Real.pi (calculateMaxThrust Real.pi s)).max_speed_square
        = (calculateMaxThrust Real.pi s).max_speed_square ∧
    (calculateMaxThrust Real.pi (calculateMaxThrust Real.pi s)).max_thrust
        = (calculateMaxThrust Real.pi s).max_thrust ∧
    (calculateMaxThrust Real.pi (calculateMaxThrust Real.pi s)).max_torque
        = (calculateMaxThrust Real.pi s).max_torque := by
  have h : calculateMaxThrust Real.pi (calculateMaxThrust Real.pi s)
      = calculateMaxThrust Real.pi s := by
    simp only [calculateMaxThrust]
  exact ⟨h, by rw [h], by rw [h], by rw [h], by rw [h], by rw [h]⟩

/-- C12: two records that agree on `C_T`, `C_P`, `air_density`, `max_rpm` and
`propeller_diameter` get the same five derived fields from `calculateMaxThrust`,
whatever values their derived fields held before the call. -/
theorem calculateMaxThrust_depends_on_coefficients (s t : RotorParams ℝ)
    (hCT : s.C_T = t.C_T) (hCP : s.C_P = t.C_P) (hrho : s.air_density = t.air_density)
    (hrpm : s.max_rpm = t.max_rpm) (hD : s.propeller_diameter = t.propeller_diameter) :
    (calculateMaxThrust Real.pi s).revolutions_per_second
        = (calculateMaxThrust Real.pi t).revolutions_per_second ∧
    (calculateMaxThrust Real.pi s).max_speed = (calculateMaxThrust Real.pi t).max_speed ∧
    (calculateMaxThrust Real.pi s).max_speed_square
        = (calculateMaxThrust Real.pi t).max_speed_square ∧
    (calculateMaxThrust Real.pi s).max_thrust = (calculateMaxThrust Real.pi t).max_thrust ∧
    (calculateMaxThrust Real.pi s).max_torque = (calculateMaxThrust Real.pi t).max_torque := by
  simp only [calculateMaxThrust, hCT, hCP, hrho, hrpm, hD]
  exact ⟨trivial, trivial, trivial, trivial, trivial⟩

/-- C12 (at a concrete input): the all-ones record, once with derived fields 0 and
once with `max_thrust = 8`, `max_torque = 9` and the three speeds 3, 4, 5. -/
theorem calculateMaxThrust_depends_on_coefficients_witness :
    ((unitParams : RotorParams ℝ).max_thrust
        ≠ ({ (unitParams : RotorParams ℝ) with
            revolutions_per_second := 3, max_speed := 4, max_speed_square := 5,
            max_thrust := 8, max_torque := 9 } : RotorParams ℝ).max_thrust) ∧
    (calculateMaxThrust Real.pi (unitParams : RotorParams ℝ)).revolutions_per_second
        = (calculateMaxThrust Real.pi { (unitParams : RotorParams ℝ) with
            revolutions_per_second := 3, max_speed := 4, max_speed_square := 5,
            max_thrust := 8, max_torque := 9 }).revolutions_per_second ∧
    (calculateMaxThrust Real.pi (unitParams : RotorParams ℝ)).max_speed
        = (calculateMaxThrust Real.pi { (unitParams : RotorParams ℝ) with
            revolutions_per_second := 3, max_speed := 4, max_speed_square := 5,
            max_thrust := 8, max_torque := 9 }).max_speed ∧
    (calculateMaxThrust Real.pi (unitParams : RotorParams ℝ)).max_speed_square
        = (calculateMaxThrust Real.pi { (unitParams : RotorParams ℝ) with
            revolutions_per_second := 3, max_speed := 4, max_speed_square := 5,
            max_thrust := 8, max_torque := 9 }).max_speed_square ∧
    (calculateMaxThrust Real.pi (unitParams : RotorParams ℝ)).max_thrust
        = (calculateMaxThrust Real.pi { (unitParams : RotorParams ℝ) with
            revolutions_per_second := 3, max_speed := 4, max_speed_square := 5,
            max_thrust := 8, max_torque := 9 }).max_thrust ∧
    (calculateMaxThrust Real.pi (unitParams : RotorParams ℝ)).max_torque
        = (calculateMaxThrust Real.pi { (unitParams : RotorParams ℝ) with
            revolutions_per_second := 3, max_speed := 4, max_speed_square := 5,
            max_thrust := 8, max_torque := 9 }).max_torque :=
  ⟨by simp [unitParams],
    calculateMaxThrust_depends_on_coefficients unitParams
      { (unitParams : RotorParams ℝ) with
        revolutions_per_second := 3, max_speed := 4, max_speed_square := 5,
        max_thrust := 8, max_torque := 9 } rfl rfl rfl rfl rfl⟩

/-- C13: `calculateMaxThrust` leaves the eight coefficients `C_T`, `C_P`,
`air_density`, `max_rpm`, `propeller_diameter`, `propeller_height`,
`control_signal_filter_tc` and `rotor_z` as they were; only the five derived fields
are assigned. -/
theorem calculateMaxThrust_coefficients_frame (s : RotorParams ℝ) :
    (calculateMaxThrust Real.pi s).C_T = s.C_T ∧
    (calculateMaxThrust Real.pi s).C_P = s.C_P ∧
    (calculateMaxThrust Real.pi s).air_density = s.air_density ∧
    (calculateMaxThrust Real.pi s).max_rpm = s.max_rpm ∧
    (calculateMaxThrust Real.pi s).propeller_diameter = s.propeller_diameter ∧
    (calculateMaxThrust Real.pi s).propeller_height = s.propeller_height ∧
    (calculateMaxThrust Real.pi s).control_signal_filter_tc = s.control_signal_filter_tc ∧
    (calculateMaxThrust Real.pi s).rotor_z = s.rotor_z ∧
    calculateMaxThrust Real.pi s
      = { s with
          revolutions_per_second := (calculateMaxThrust Real.pi s).revolutions_per_second
          max_speed := (calculateMaxThrust Real.pi s).max_speed
          max_speed_square := (calculateMaxThrust Real.pi s).max_speed_square
          max_thrust := (calculateMaxThrust Real.pi s).max_thrust
          max_torque := (calculateMaxThrust Real.pi s).max_torque } := by
  simp only [calculateMaxThrust]
  exact ⟨trivial, trivial, trivial, trivial, trivial, trivial, trivial, trivial, trivial⟩

/-- C14: `calculateMaxThrust` is total: its two divisors, 60 and `2*pi`, are
non-zero, so for every record, zero and negative coefficients included, the evaluation
with guarded quotients never takes the undefined branch and returns exactly the
record `calculateMaxThrust` computes. -/
theorem calculateMaxThrust_total (s : RotorParams ℝ) :
    (60 : ℝ) ≠ 0 ∧ 2 * Real.pi ≠ 0 ∧
    calculateMaxThrustDefined Real.pi s = some (calculateMaxThrust Real.pi s) := by
  have h60 : (60 : ℝ) ≠ 0 := by norm_num
  have hpi : 2 * Real.pi ≠ 0 := mul_ne_zero two_ne_zero Real.pi_ne_zero
  refine ⟨h60, hpi, ?_⟩
  simp only [calculateMaxThrustDefined, definedDiv, calculateMaxThrust, if_neg h60, if_neg hpi]
  rfl

/-! ## Algebraic relations of the derivation -/

/-! ## Degenerate inputs in `float` arithmetic -/

/-- On `overflowParams` the squared speed overflows and meets the zero power: both
limits are not-a-number. -/
theorem overflowParams_limits :
    (calculateMaxThrust M_PIf32 overflowParams).max_thrust = FP.nan ∧
    (calculateMaxThrust M_PIf32 overflowParams).max_torque = FP.nan := by
  have hrps : (FP.fin (15 * 2 ^ 72) : FP) / 60 = FP.fin (2 ^ 70) := by
    rw [FP.sixty_eq, FP.fin_div_fin (by norm_num),
      FP.round32_of_eq 1 70 (by norm_num) (by norm_num) (by norm_num) (by norm_num)]
    norm_num
  have hnsq : (FP.fin (2 ^ 70) : FP) * FP.fin (2 ^ 70) = FP.inf false := by
    rw [FP.fin_mul_fin, FP.round32_overflow (by rw [abs_of_pos (by positivity)]; norm_num)]
    simp
  have hone : (1 : FP) * 1 = FP.fin 1 := by
    rw [FP.one_eq, FP.fin_mul_fin, mul_one, FP.round32_one]
  have hinf : (FP.fin 1 : FP) * FP.inf false = FP.inf false := by
    show FP.mul _ _ = _
    simp [FP.mul]
  have hpow4 : (0 : FP) ^ 4 = FP.fin 0 := by
    rw [FP.zero_eq]
    exact FP.pow_fin_zero (by norm_num)
  have hpow5 : (0 : FP) ^ 5 = FP.fin 0 := by
    rw [FP.zero_eq]
    exact FP.pow_fin_zero (by norm_num)
  have hnan : (FP.inf false : FP) * FP.fin 0 = FP.nan := by
    show FP.mul _ _ = _
    simp [FP.mul]
  constructor
  · simp only [calculateMaxThrust, overflowParams]
    rw [hrps, hnsq, hone, hinf, hpow4, hnan]
  · simp only [calculateMaxThrust, overflowParams]
    rw [hrps, hnsq, hone, hinf, hpow5, hnan, FP.nan_div]

/-- C10 (counterexample): with `propeller_diameter = 0`, all other coefficients 1 and
`max_rpm = 60 * 2 ^ 70` (a `float`), the `float` evaluation of `calculateMaxThrust`
overflows `nsquared` to infinity and multiplies it by the zero power: `max_thrust` and
`max_torque` are not-a-number, not 0. -/
theorem calculateMaxThrust_zero_diameter_overflow :
    overflowParams.propeller_diameter = 0 ∧
    FP.round32 (15 * 2 ^ 72) = FP.fin (15 * 2 ^ 72) ∧
    (calculateMaxThrust M_PIf32 overflowParams).max_thrust = FP.nan ∧
    (calculateMaxThrust M_PIf32 overflowParams).max_torque = FP.nan ∧
    (calculateMaxThrust M_PIf32 overflowParams).max_thrust ≠ 0 ∧
    (calculateMaxThrust M_PIf32 overflowParams).max_torque ≠ 0 := by
  have hrepr : FP.round32 (15 * 2 ^ 72) = FP.fin (15 * 2 ^ 72) :=
    FP.round32_of_eq 15 72 (by norm_num) (by norm_num) (by norm_num) (by norm_num)
  obtain ⟨hT, hQ⟩ := overflowParams_limits
  refine ⟨rfl, hrepr, hT, hQ, ?_, ?_⟩
  · rw [hT, FP.zero_eq]
    simp
  · rw [hQ, FP.zero_eq]
    simp

/-- C10 (amended): for every record with `propeller_diameter = 0` for which the products
`C_T * air_density * nsquared` and `C_P * air_density * nsquared`, as the code
computes them in `float`, are finite (no overflow to infinity, no not-a-number),
`calculateMaxThrust` yields `max_thrust = 0` and `max_torque = 0`. -/
theorem calculateMaxThrust_zero_diameter (s : RotorParams FP)
    (hD : s.propeller_diameter = 0)
    (hT : (s.C_T * s.air_density * (s.max_rpm / 60 * (s.max_rpm / 60))).isFinite)
    (hP : (s.C_P * s.air_density * (s.max_rpm / 60 * (s.max_rpm / 60))).isFinite) :
    (calculateMaxThrust M_PIf32 s).max_thrust = 0 ∧
    (calculateMaxThrust M_PIf32 s).max_torque = 0 := by
  obtain ⟨x, hx⟩ := FP.isFinite_iff.mp hT
  obtain ⟨y, hy⟩ := FP.isFinite_iff.mp hP
  have hpow4 : (0 : FP) ^ 4 = FP.fin 0 := by
    rw [FP.zero_eq]
    exact FP.pow_fin_zero (by norm_num)
  have hpow5 : (0 : FP) ^ 5 = FP.fin 0 := by
    rw [FP.zero_eq]
    exact FP.pow_fin_zero (by norm_num)
  simp only [calculateMaxThrust]
  rw [hD, hx, hy, hpow4, hpow5, FP.fin_mul_zero, FP.fin_mul_zero,
    FP.fin_zero_div_two_mul_M_PIf32, FP.zero_eq]
  exact ⟨rfl, rfl⟩

/-- C10 (amended, at a concrete input): all coefficients 1, `max_rpm = 60` and
`propeller_diameter = 0`. -/
theorem calculateMaxThrust_zero_diameter_witness :
    (({ (unitParams : RotorParams FP) with propeller_diameter := 0 }
        : RotorParams FP).propeller_diameter = 0 ∧
      ((1 : FP) * 1 * ((60 : FP) / 60 * ((60 : FP) / 60))).isFinite) ∧
    (calculateMaxThrust M_PIf32
      { (unitParams : RotorParams FP) with propeller_diameter := 0 }).max_thrust = 0 ∧
    (calculateMaxThrust M_PIf32
      { (unitParams : RotorParams FP) with propeller_diameter := 0 }).max_torque = 0 :=
  have h : ((1 : FP) * 1 * ((60 : FP) / 60 * ((60 : FP) / 60))).isFinite := by
    rw [FP.sixty_eq, FP.one_eq, FP.fin_div_fin (by norm_num), div_self (by norm_num),
      FP.round32_one, FP.fin_mul_fin, mul_one, FP.round32_one, FP.fin_mul_fin, mul_one,
      FP.round32_one]
    trivial
  ⟨⟨rfl, h⟩, calculateMaxThrust_zero_diameter
    { (unitParams : RotorParams FP) with propeller_diameter := 0 } rfl h h⟩

/-- C9 (amended): for every record in which at least one of `propeller_diameter`,
`air_density` or `max_rpm` is zero, and for which the products
`C_T * air_density * nsquared`, `C_P * air_density * nsquared` and the powers
`pow(propeller_diameter, 4)`, `pow(propeller_diameter, 5)`, as the code computes them
in `float`, are finite (no overflow to infinity, no not-a-number),
`calculateMaxThrust` yields `max_thrust = 0` and `max_torque = 0`. -/
theorem calculateMaxThrust_zero_coefficient (s : RotorParams FP)
    (h : s.propeller_diameter = 0 ∨ s.air_density = 0 ∨ s.max_rpm = 0)
    (hT : (s.C_T * s.air_density * (s.max_rpm / 60 * (s.max_rpm / 60))).isFinite)
    (hP : (s.C_P * s.air_density * (s.max_rpm / 60 * (s.max_rpm / 60))).isFinite)
    (hD4 : (s.propeller_diameter ^ 4).isFinite)
    (hD5 : (s.propeller_diameter ^ 5).isFinite) :
    (calculateMaxThrust M_PIf32 s).max_thrust = 0 ∧
    (calculateMaxThrust M_PIf32 s).max_torque = 0 := by
  rcases h with h | h | h
  · -- a zero diameter makes both powers zero
    have hpow4 : (0 : FP) ^ 4 = FP.fin 0 := by
      rw [FP.zero_eq]
      exact FP.pow_fin_zero (by norm_num)
    have hpow5 : (0 : FP) ^ 5 = FP.fin 0 := by
      rw [FP.zero_eq]
      exact FP.pow_fin_zero (by norm_num)
    simp only [calculateMaxThrust]
    rw [h, hpow4, hpow5, FP.mul_fin_zero_of_isFinite hT, FP.mul_fin_zero_of_isFinite hP,
      FP.fin_zero_div_two_mul_M_PIf32, FP.zero_eq]
    exact ⟨rfl, rfl⟩
  · -- a zero density makes both products zero
    obtain ⟨hT1, hT2⟩ := FP.isFinite_of_mul hT
    obtain ⟨hP1, hP2⟩ := FP.isFinite_of_mul hP
    have hCT : s.C_T.isFinite := (FP.isFinite_of_mul hT1).1
    have hCP : s.C_P.isFinite := (FP.isFinite_of_mul hP1).1
    simp only [calculateMaxThrust]
    rw [h, FP.zero_eq, FP.mul_fin_zero_of_isFinite hCT, FP.mul_fin_zero_of_isFinite hCP,
      FP.fin_zero_mul_of_isFinite hT2, FP.fin_zero_mul_of_isFinite hD4,
      FP.fin_zero_mul_of_isFinite hD5, FP.fin_zero_div_two_mul_M_PIf32]
    exact ⟨rfl, rfl⟩
  · -- a zero speed makes `nsquared` zero
    obtain ⟨hT1, _⟩ := FP.isFinite_of_mul hT
    obtain ⟨hP1, _⟩ := FP.isFinite_of_mul hP
    simp only [calculateMaxThrust]
    rw [h, FP.zero_eq, FP.fin_zero_div_sixty, FP.fin_mul_zero,
      FP.mul_fin_zero_of_isFinite hT1, FP.mul_fin_zero_of_isFinite hP1,
      FP.fin_zero_mul_of_isFinite hD4, FP.fin_zero_mul_of_isFinite hD5,
      FP.fin_zero_div_two_mul_M_PIf32]
    exact ⟨rfl, rfl⟩

/-- C9 (amended, at a concrete input): all coefficients 1 and `max_rpm = 60`, except
`air_density = 0`. -/
theorem calculateMaxThrust_zero_coefficient_witness :
    ((({ (unitParams : RotorParams FP) with air_density := 0 }
          : RotorParams FP).propeller_diameter = 0 ∨
        ({ (unitParams : RotorParams FP) with air_density := 0 }
          : RotorParams FP).air_density = 0 ∨
        ({ (unitParams : RotorParams FP) with air_density := 0 }
          : RotorParams FP).max_rpm = 0) ∧
      ((1 : FP) * 0 * ((60 : FP) / 60 * ((60 : FP) / 60))).isFinite ∧
      ((1 : FP) ^ 4).isFinite ∧ ((1 : FP) ^ 5).isFinite) ∧
    (calculateMaxThrust M_PIf32
      { (unitParams : RotorParams FP) with air_density := 0 }).max_thrust = 0 ∧
    (calculateMaxThrust M_PIf32
      { (unitParams : RotorParams FP) with air_density := 0 }).max_torque = 0 :=
  have h : ((1 : FP) * 0 * ((60 : FP) / 60 * ((60 : FP) / 60))).isFinite := by
    rw [FP.sixty_eq, FP.one_eq, FP.zero_eq, FP.fin_div_fin (by norm_num),
      div_self (by norm_num), FP.round32_one, FP.fin_mul_zero, FP.fin_mul_fin, mul_one,
      FP.round32_one, FP.fin_zero_mul]
    trivial
  have h4 : ((1 : FP) ^ 4).isFinite := by
    rw [FP.one_eq, FP.pow_fin_one]
    trivial
  have h5 : ((1 : FP) ^ 5).isFinite := by
    rw [FP.one_eq, FP.pow_fin_one]
    trivial
  ⟨⟨Or.inr (Or.inl rfl), h, h4, h5⟩,
    calculateMaxThrust_zero_coefficient
      { (unitParams : RotorParams FP) with air_density := 0 } (Or.inr (Or.inl rfl)) h h h4 h5⟩

/-! ## Sign of the speed in `float` arithmetic -/

/-- C15 (counterexample): with `C_T`, `air_density` and `propeller_diameter` equal to 1
and the negative `max_rpm = -60 * 2 ^ (-100)` (a `float`), `nsquared` underflows to
zero in the `float` evaluation and `max_thrust` is 0, not strictly positive. -/
theorem calculateMaxThrust_negative_max_rpm_underflow :
    (underflowParams.max_rpm < 0 ∧ 0 < underflowParams.C_T ∧
      0 < underflowParams.air_density ∧ 0 < underflowParams.propeller_diameter) ∧
    FP.round32 (-(15 * 2 ^ (-98 : ℤ))) = FP.fin (-(15 * 2 ^ (-98 : ℤ))) ∧
    (calculateMaxThrust M_PIf32 underflowParams).max_thrust = FP.fin 0 ∧
    ¬ (0 < (calculateMaxThrust M_PIf32 underflowParams).max_thrust) := by
  have hrepr : FP.round32 (-(15 * 2 ^ (-98 : ℤ))) = FP.fin (-(15 * 2 ^ (-98 : ℤ))) := by
    rw [FP.round32_neg,
      FP.round32_of_eq 15 (-98) (by norm_num) (by norm_num) (by norm_num) (by norm_num)]
    rfl
  have hrps : (FP.fin (-(15 * 2 ^ (-98 : ℤ))) : FP) / 60 = FP.fin (-(2 ^ (-100 : ℤ))) := by
    rw [FP.sixty_eq, FP.fin_div_fin (by norm_num)]
    have e : (-(15 * 2 ^ (-98 : ℤ)) : ℚ) / 60 = -(2 ^ (-100 : ℤ)) := by norm_num
    rw [e, FP.round32_neg,
      FP.round32_of_eq 1 (-100) (by norm_num) (by norm_num) (by norm_num) (by norm_num)]
    rfl
  have hnsq : (FP.fin (-(2 ^ (-100 : ℤ))) : FP) * FP.fin (-(2 ^ (-100 : ℤ))) = FP.fin 0 := by
    rw [FP.fin_mul_fin]
    apply FP.round32_underflow
    rw [abs_of_pos (by positivity)]
    norm_num
  have hone : (FP.fin 1 : FP) * FP.fin 1 = FP.fin 1 := by
    rw [FP.fin_mul_fin, mul_one, FP.round32_one]
  have hT : (calculateMaxThrust M_PIf32 underflowParams).max_thrust = FP.fin 0 := by
    simp only [calculateMaxThrust, underflowParams]
    rw [hrps, hnsq, FP.one_eq, hone, FP.fin_mul_zero, FP.pow_fin_one, FP.fin_zero_mul]
  have hpos : (0 : FP) < 1 := by
    rw [FP.zero_eq, FP.one_eq, FP.fin_lt_fin]
    norm_num
  refine ⟨⟨?_, hpos, hpos, hpos⟩, hrepr, hT, ?_⟩
  · show (FP.fin (-(15 * 2 ^ (-98 : ℤ))) : FP) < 0
    rw [FP.zero_eq, FP.fin_lt_fin]
    norm_num
  · rw [hT, FP.zero_eq, FP.fin_lt_fin]
    norm_num

/-- C15 (amended): in `float` arithmetic, replacing `max_rpm` by `-max_rpm` before
`calculateMaxThrust` leaves `max_thrust`, `max_torque` and `max_speed_square` the same
datum (a not-a-number stays a not-a-number) and negates `revolutions_per_second` and
`max_speed`; `max_speed_square` is never negative; and a negative `max_rpm` with
positive `C_T`, `air_density` and `propeller_diameter` gives a `max_thrust` that is
never negative (it is zero when an intermediate result underflows, and infinite or a
not-a-number when one overflows). -/
theorem calculateMaxThrust_sign_symmetry (s : RotorParams FP) :
    (calculateMaxThrust M_PIf32 { s with max_rpm := -s.max_rpm }).max_thrust
        = (calculateMaxThrust M_PIf32 s).max_thrust ∧
    (calculateMaxThrust M_PIf32 { s with max_rpm := -s.max_rpm }).max_torque
        = (calculateMaxThrust M_PIf32 s).max_torque ∧
    (calculateMaxThrust M_PIf32 { s with max_rpm := -s.max_rpm }).max_speed_square
        = (calculateMaxThrust M_PIf32 s).max_speed_square ∧
    (calculateMaxThrust M_PIf32 { s with max_rpm := -s.max_rpm }).revolutions_per_second
        = -(calculateMaxThrust M_PIf32 s).revolutions_per_second ∧
    (calculateMaxThrust M_PIf32 { s with max_rpm := -s.max_rpm }).max_speed
        = -(calculateMaxThrust M_PIf32 s).max_speed ∧
    ¬ ((calculateMaxThrust M_PIf32 s).max_speed_square < 0) ∧
    (s.max_rpm < 0 → 0 < s.C_T → 0 < s.air_density → 0 < s.propeller_diameter →
      ¬ ((calculateMaxThrust M_PIf32 s).max_thrust < 0)) := by
  simp only [calculateMaxThrust, FP.neg_div_fp, FP.neg_mul_fp, FP.mul_neg_fp, FP.neg_neg_fp,
    FP.neg_pow_two_fp]
  refine ⟨trivial, trivial, trivial, trivial, trivial, ?_, ?_⟩
  · exact FP.not_lt_zero_pow_even _ (by decide)
  · intro _ hCT hrho _
    exact FP.not_lt_zero_mul
      (FP.not_lt_zero_mul
        (FP.not_lt_zero_mul (FP.not_lt_zero_of_pos hCT) (FP.not_lt_zero_of_pos hrho))
        (FP.not_lt_zero_mul_self _))
      (FP.not_lt_zero_pow_even _ (by decide))

/-- C15 (amended, at a concrete input): all coefficients 1 and `max_rpm = -60`: the
`max_thrust` is not negative. -/
theorem calculateMaxThrust_sign_symmetry_witness :
    (({ (unitParams : RotorParams FP) with max_rpm := -60 } : RotorParams FP).max_rpm < 0 ∧
      0 < ({ (unitParams : RotorParams FP) with max_rpm := -60 } : RotorParams FP).C_T ∧
      0 < ({ (unitParams : RotorParams FP) with max_rpm := -60 } : RotorParams FP).air_density ∧
      0 < ({ (unitParams : RotorParams FP) with max_rpm := -60 }
            : RotorParams FP).propeller_diameter) ∧
    ¬ ((calculateMaxThrust M_PIf32
          { (unitParams : RotorParams FP) with max_rpm := -60 }).max_thrust < 0) :=
  have hneg : (-60 : FP) < 0 := by
    rw [FP.sixty_eq, FP.zero_eq, FP.neg_fin, FP.fin_lt_fin]
    norm_num
  have hpos : (0 : FP) < 1 := by
    rw [FP.zero_eq, FP.one_eq, FP.fin_lt_fin]
    norm_num
  ⟨⟨hneg, hpos, hpos, hpos⟩,
    (calculateMaxThrust_sign_symmetry
      { (unitParams : RotorParams FP) with max_rpm := -60 }).2.2.2.2.2.2 hneg hpos hpos hpos⟩

/-! ## Monotonicity in `float` arithmetic -/

/-- C8 (counterexample): with all coefficients 1 and the positive `float`s
`max_rpm = 60 * 2 ^ (-100) < 60 * 2 ^ (-99)`, `nsquared` underflows to zero at both
speeds: `max_thrust` and `max_torque` are 0 at both, so neither increases. -/
theorem calculateMaxThrust_max_rpm_underflow_equal :
    ((0 : FP) < (unitParams : RotorParams FP).C_T ∧
      (0 : FP) < (unitParams : RotorParams FP).C_P ∧
      (0 : FP) < (unitParams : RotorParams FP).air_density ∧
      (0 : FP) < (unitParams : RotorParams FP).propeller_diameter ∧
      (0 : FP) < FP.fin (15 * 2 ^ (-98 : ℤ)) ∧
      (FP.fin (15 * 2 ^ (-98 : ℤ)) : FP) < FP.fin (15 * 2 ^ (-97 : ℤ))) ∧
    (FP.round32 (15 * 2 ^ (-98 : ℤ)) = FP.fin (15 * 2 ^ (-98 : ℤ)) ∧
      FP.round32 (15 * 2 ^ (-97 : ℤ)) = FP.fin (15 * 2 ^ (-97 : ℤ))) ∧
    ((calculateMaxThrust M_PIf32 { (unitParams : RotorParams FP) with
        max_rpm := FP.fin (15 * 2 ^ (-98 : ℤ)) }).max_thrust = FP.fin 0 ∧
      (calculateMaxThrust M_PIf32 { (unitParams : RotorParams FP) with
        max_rpm := FP.fin (15 * 2 ^ (-97 : ℤ)) }).max_thrust = FP.fin 0 ∧
      (calculateMaxThrust M_PIf32 { (unitParams : RotorParams FP) with
        max_rpm := FP.fin (15 * 2 ^ (-98 : ℤ)) }).max_torque = FP.fin 0 ∧
      (calculateMaxThrust M_PIf32 { (unitParams : RotorParams FP) with
        max_rpm := FP.fin (15 * 2 ^ (-97 : ℤ)) }).max_torque = FP.fin 0) ∧
    ¬ ((calculateMaxThrust M_PIf32 { (unitParams : RotorParams FP) with
          max_rpm := FP.fin (15 * 2 ^ (-98 : ℤ)) }).max_thrust
        < (calculateMaxThrust M_PIf32 { (unitParams : RotorParams FP) with
          max_rpm := FP.fin (15 * 2 ^ (-97 : ℤ)) }).max_thrust) ∧
    ¬ ((calculateMaxThrust M_PIf32 { (unitParams : RotorParams FP) with
          max_rpm := FP.fin (15 * 2 ^ (-98 : ℤ)) }).max_torque
        < (calculateMaxThrust M_PIf32 { (unitParams : RotorParams FP) with
          max_rpm := FP.fin (15 * 2 ^ (-97 : ℤ)) }).max_torque) := by
  have hpos : (0 : FP) < 1 := by
    rw [FP.zero_eq, FP.one_eq, FP.fin_lt_fin]
    norm_num
  have hrps1 : (FP.fin (15 * 2 ^ (-98 : ℤ)) : FP) / 60 = FP.fin (2 ^ (-100 : ℤ)) := by
    rw [FP.sixty_eq, FP.fin_div_fin (by norm_num),
      FP.round32_of_eq 1 (-100) (by norm_num) (by norm_num) (by norm_num) (by norm_num)]
    norm_num
  have hrps2 : (FP.fin (15 * 2 ^ (-97 : ℤ)) : FP) / 60 = FP.fin (2 ^ (-99 : ℤ)) := by
    rw [FP.sixty_eq, FP.fin_div_fin (by norm_num),
      FP.round32_of_eq 1 (-99) (by norm_num) (by norm_num) (by norm_num) (by norm_num)]
    norm_num
  have hnsq1 : (FP.fin (2 ^ (-100 : ℤ)) : FP) * FP.fin (2 ^ (-100 : ℤ)) = FP.fin 0 := by
    rw [FP.fin_mul_fin]
    apply FP.round32_underflow
    rw [abs_of_pos (by positivity)]
    norm_num
  have hnsq2 : (FP.fin (2 ^ (-99 : ℤ)) : FP) * FP.fin (2 ^ (-99 : ℤ)) = FP.fin 0 := by
    rw [FP.fin_mul_fin]
    apply FP.round32_underflow
    rw [abs_of_pos (by positivity)]
    norm_num
  have hone : (FP.fin 1 : FP) * FP.fin 1 = FP.fin 1 := by
    rw [FP.fin_mul_fin, mul_one, FP.round32_one]
  have hT1 : (calculateMaxThrust M_PIf32 { (unitParams : RotorParams FP) with
      max_rpm := FP.fin (15 * 2 ^ (-98 : ℤ)) }).max_thrust = FP.fin 0 := by
    simp only [calculateMaxThrust, unitParams]
    rw [hrps1, hnsq1, FP.one_eq, hone, FP.fin_mul_zero, FP.pow_fin_one, FP.fin_zero_mul]
  have hT2 : (calculateMaxThrust M_PIf32 { (unitParams : RotorParams FP) with
      max_rpm := FP.fin (15 * 2 ^ (-97 : ℤ)) }).max_thrust = FP.fin 0 := by
    simp only [calculateMaxThrust, unitParams]
    rw [hrps2, hnsq2, FP.one_eq, hone, FP.fin_mul_zero, FP.pow_fin_one, FP.fin_zero_mul]
  have hQ1 : (calculateMaxThrust M_PIf32 { (unitParams : RotorParams FP) with
      max_rpm := FP.fin (15 * 2 ^ (-98 : ℤ)) }).max_torque = FP.fin 0 := by
    simp only [calculateMaxThrust, unitParams]
    rw [hrps1, hnsq1]
    rw [FP.one_eq, hone, FP.fin_mul_zero, FP.pow_fin_one, FP.fin_zero_mul,
      FP.fin_zero_div_two_mul_M_PIf32]
  have hQ2 : (calculateMaxThrust M_PIf32 { (unitParams : RotorParams FP) with
      max_rpm := FP.fin (15 * 2 ^ (-97 : ℤ)) }).max_torque = FP.fin 0 := by
    simp only [calculateMaxThrust, unitParams]
    rw [hrps2, hnsq2]
    rw [FP.one_eq, hone, FP.fin_mul_zero, FP.pow_fin_one, FP.fin_zero_mul,
      FP.fin_zero_div_two_mul_M_PIf32]
  refine ⟨⟨hpos, hpos, hpos, hpos, ?_, ?_⟩, ⟨?_, ?_⟩, ⟨hT1, hT2, hQ1, hQ2⟩, ?_, ?_⟩
  · rw [FP.zero_eq, FP.fin_lt_fin]
    positivity
  · rw [FP.fin_lt_fin]
    norm_num
  · exact FP.round32_of_eq 15 (-98) (by norm_num) (by norm_num) (by norm_num) (by norm_num)
  · exact FP.round32_of_eq 15 (-97) (by norm_num) (by norm_num) (by norm_num) (by norm_num)
  · rw [hT1, hT2, FP.fin_lt_fin]
    norm_num
  · rw [hQ1, hQ2, FP.fin_lt_fin]
    norm_num

/-- C8 (amended): in `float` arithmetic, with `C_T`, `C_P`, `air_density` and
`propeller_diameter` positive and held fixed, for positive `max_rpm` values `r1 < r2`
the `max_thrust` computed at `r2` is not smaller than the one computed at `r1`
(`<=`, not `<`: rounding, underflow and overflow can make the two equal) whenever
neither is a not-a-number, and likewise the `max_torque`. -/
theorem calculateMaxThrust_mono_max_rpm (s : RotorParams FP) (r1 r2 : FP)
    (hCT : 0 < s.C_T) (hCP : 0 < s.C_P) (hrho : 0 < s.air_density)
    (hD : 0 < s.propeller_diameter) (hr1 : 0 < r1) (hr : r1 < r2) :
    ((calculateMaxThrust M_PIf32 { s with max_rpm := r1 }).max_thrust ≠ FP.nan →
      (calculateMaxThrust M_PIf32 { s with max_rpm := r2 }).max_thrust ≠ FP.nan →
      (calculateMaxThrust M_PIf32 { s with max_rpm := r1 }).max_thrust
        ≤ (calculateMaxThrust M_PIf32 { s with max_rpm := r2 }).max_thrust) ∧
    ((calculateMaxThrust M_PIf32 { s with max_rpm := r1 }).max_torque ≠ FP.nan →
      (calculateMaxThrust M_PIf32 { s with max_rpm := r2 }).max_torque ≠ FP.nan →
      (calculateMaxThrust M_PIf32 { s with max_rpm := r1 }).max_torque
        ≤ (calculateMaxThrust M_PIf32 { s with max_rpm := r2 }).max_torque) := by
  -- the speeds in revolutions per second, and their squares, are ordered
  have hdiv : 0 ≤ r1 / 60 ∧ r1 / 60 ≤ r2 / 60 := by
    rw [FP.sixty_eq]
    exact FP.div_le_div_fp (by norm_num) (FP.zero_le_of_pos hr1) (FP.le_of_lt_fp hr)
  obtain ⟨hrps0, hrps⟩ := hdiv
  have hrps2 : 0 ≤ r2 / 60 := FP.zero_le_trans hrps0 hrps
  have hn0 : 0 ≤ r1 / 60 * (r1 / 60) :=
    FP.zero_le_mul hrps0 hrps0 (FP.mul_self_ne_nan hrps0)
  have hn : r1 / 60 * (r1 / 60) ≤ r2 / 60 * (r2 / 60) :=
    FP.mul_le_mul_fp hrps0 hrps hrps0 hrps (FP.mul_self_ne_nan hrps0) (FP.mul_self_ne_nan hrps2)
  simp only [calculateMaxThrust]
  constructor
  · intro h1 h2
    have hc : 0 ≤ s.C_T * s.air_density := FP.zero_le_mul_of_pos hCT hrho
    have hd : 0 ≤ s.propeller_diameter ^ 4 := FP.zero_le_pow_of_pos hD 4
    have hX1 := FP.ne_nan_of_mul_ne_nan_left h1
    have hX2 := FP.ne_nan_of_mul_ne_nan_left h2
    have hX := FP.mul_le_mul_fp hc (FP.le_refl_of_zero_le hc) hn0 hn hX1 hX2
    have hX0 := FP.zero_le_mul hc hn0 hX1
    exact FP.mul_le_mul_fp hX0 hX hd (FP.le_refl_of_zero_le hd) h1 h2
  · intro h1 h2
    have hc : 0 ≤ s.C_P * s.air_density := FP.zero_le_mul_of_pos hCP hrho
    have hd : 0 ≤ s.propeller_diameter ^ 5 := FP.zero_le_pow_of_pos hD 5
    have hZ1 := FP.ne_nan_of_div_ne_nan h1
    have hZ2 := FP.ne_nan_of_div_ne_nan h2
    have hY1 := FP.ne_nan_of_mul_ne_nan_left hZ1
    have hY2 := FP.ne_nan_of_mul_ne_nan_left hZ2
    have hY := FP.mul_le_mul_fp hc (FP.le_refl_of_zero_le hc) hn0 hn hY1 hY2
    have hY0 := FP.zero_le_mul hc hn0 hY1
    have hZ := FP.mul_le_mul_fp hY0 hY hd (FP.le_refl_of_zero_le hd) hZ1 hZ2
    have hZ0 := FP.zero_le_mul hY0 hd hZ1
    rw [FP.two_mul_M_PIf32]
    exact (FP.div_le_div_fp (by norm_num) hZ0 hZ).2

/-- C8 (amended, at a concrete input): all coefficients 1, `max_rpm` raised from 60 to
120: none of the four limits is a not-a-number (the thrusts are 1 and 4), and both
limits at 120 are at least those at 60. -/
theorem calculateMaxThrust_mono_max_rpm_witness :
    ((0 : FP) < (unitParams : RotorParams FP).C_T ∧
      (0 : FP) < (unitParams : RotorParams FP).C_P ∧
      (0 : FP) < (unitParams : RotorParams FP).air_density ∧
      (0 : FP) < (unitParams : RotorParams FP).propeller_diameter ∧
      (0 : FP) < 60 ∧ (60 : FP) < 120) ∧
    ((calculateMaxThrust M_PIf32
        { (unitParams : RotorParams FP) with max_rpm := 60 }).max_thrust = FP.fin 1 ∧
      (calculateMaxThrust M_PIf32
        { (unitParams : RotorParams FP) with max_rpm := 120 }).max_thrust = FP.fin 4 ∧
      (calculateMaxThrust M_PIf32
        { (unitParams : RotorParams FP) with max_rpm := 60 }).max_torque ≠ FP.nan ∧
      (calculateMaxThrust M_PIf32
        { (unitParams : RotorParams FP) with max_rpm := 120 }).max_torque ≠ FP.nan) ∧
    (calculateMaxThrust M_PIf32
        { (unitParams : RotorParams FP) with max_rpm := 60 }).max_thrust
      ≤ (calculateMaxThrust M_PIf32
          { (unitParams : RotorParams FP) with max_rpm := 120 }).max_thrust ∧
    (calculateMaxThrust M_PIf32
        { (unitParams : RotorParams FP) with max_rpm := 60 }).max_torque
      ≤ (calculateMaxThrust M_PIf32
          { (unitParams : RotorParams FP) with max_rpm := 120 }).max_torque :=
  have hpos : (0 : FP) < 1 := by
    rw [FP.zero_eq, FP.one_eq, FP.fin_lt_fin]
    norm_num
  have h60 : (0 : FP) < 60 := by
    rw [FP.zero_eq, FP.sixty_eq, FP.fin_lt_fin]
    norm_num
  have e120 : (120 : FP) = FP.fin 120 := by
    show FP.round32 ((120 : ℕ) : ℚ) = FP.fin 120
    simpa using FP.round32_natCast (n := 120) (by norm_num)
  have h120 : (60 : FP) < 120 := by
    rw [e120, FP.sixty_eq, FP.fin_lt_fin]
    norm_num
  have r2 : FP.round32 2 = FP.fin 2 := by
    simpa using FP.round32_natCast (n := 2) (by norm_num)
  have r4 : FP.round32 4 = FP.fin 4 := by
    simpa using FP.round32_natCast (n := 4) (by norm_num)
  have hone : (FP.fin 1 : FP) * FP.fin 1 = FP.fin 1 := by
    rw [FP.fin_mul_fin, mul_one, FP.round32_one]
  have hrps1 : (60 : FP) / 60 = FP.fin 1 := by
    rw [FP.sixty_eq, FP.fin_div_fin (by norm_num), div_self (by norm_num), FP.round32_one]
  have hrps2 : (120 : FP) / 60 = FP.fin 2 := by
    rw [e120, FP.sixty_eq, FP.fin_div_fin (by norm_num)]
    have e : (120 : ℚ) / 60 = 2 := by norm_num
    rw [e, r2]
  have hnsq2 : (FP.fin 2 : FP) * FP.fin 2 = FP.fin 4 := by
    rw [FP.fin_mul_fin]
    have e : (2 : ℚ) * 2 = 4 := by norm_num
    rw [e, r4]
  have h14 : (FP.fin 1 : FP) * FP.fin 4 = FP.fin 4 := by
    rw [FP.fin_mul_fin, one_mul, r4]
  have h41 : (FP.fin 4 : FP) * FP.fin 1 = FP.fin 4 := by
    rw [FP.fin_mul_fin, mul_one, r4]
  have hT1 : (calculateMaxThrust M_PIf32
      { (unitParams : RotorParams FP) with max_rpm := 60 }).max_thrust = FP.fin 1 := by
    simp only [calculateMaxThrust, unitParams]
    rw [hrps1, FP.one_eq, hone, hone, FP.pow_fin_one, hone]
  have hT2 : (calculateMaxThrust M_PIf32
      { (unitParams : RotorParams FP) with max_rpm := 120 }).max_thrust = FP.fin 4 := by
    simp only [calculateMaxThrust, unitParams]
    rw [hrps2, hnsq2, FP.one_eq, hone, h14, FP.pow_fin_one, h41]
  have hQ1 : (calculateMaxThrust M_PIf32
      { (unitParams : RotorParams FP) with max_rpm := 60 }).max_torque ≠ FP.nan := by
    simp only [calculateMaxThrust, unitParams]
    rw [hrps1, FP.one_eq, hone, hone, FP.pow_fin_one, hone, FP.two_mul_M_PIf32,
      FP.fin_div_fin (by norm_num)]
    exact FP.round32_ne_nan _
  have hQ2 : (calculateMaxThrust M_PIf32
      { (unitParams : RotorParams FP) with max_rpm := 120 }).max_torque ≠ FP.nan := by
    simp only [calculateMaxThrust, unitParams]
    rw [hrps2, hnsq2, FP.one_eq, hone, h14, FP.pow_fin_one, h41, FP.two_mul_M_PIf32,
      FP.fin_div_fin (by norm_num)]
    exact FP.round32_ne_nan _
  have hne1 : (calculateMaxThrust M_PIf32
      { (unitParams : RotorParams FP) with max_rpm := 60 }).max_thrust ≠ FP.nan := by
    rw [hT1]
    simp
  have hne2 : (calculateMaxThrust M_PIf32
      { (unitParams : RotorParams FP) with max_rpm := 120 }).max_thrust ≠ FP.nan := by
    rw [hT2]
    simp
  ⟨⟨hpos, hpos, hpos, hpos, h60, h120⟩, ⟨hT1, hT2, hQ1, hQ2⟩,
    (calculateMaxThrust_mono_max_rpm unitParams 60 120 hpos hpos hpos hpos h60 h120).1
      hne1 hne2,
    (calculateMaxThrust_mono_max_rpm unitParams 60 120 hpos hpos hpos hpos h60 h120).2
      hQ1 hQ2⟩

/-! ## Algebraic relations in `float` arithmetic -/

/-- C16 (amended): in `float` arithmetic, whenever every value that
`calculateMaxThrust` computes is a normal `float` (nothing overflows or underflows),
the two limits are tied up to rounding: `2*pi * C_T * max_torque` differs from
`C_P * propeller_diameter * max_thrust` by at most `2 ^ (-18)` of the latter, the
two sides being taken in exact arithmetic on the `float` values with the true pi. -/
theorem calculateMaxThrust_torque_thrust_relation (s : RotorParams FP) (h : normalRange M_PIf32 s) :
    |2 * Real.pi * (s.C_T.toRat : ℝ) * ((calculateMaxThrust M_PIf32 s).max_torque.toRat : ℝ)
        - (s.C_P.toRat : ℝ) * (s.propeller_diameter.toRat : ℝ)
            * ((calculateMaxThrust M_PIf32 s).max_thrust.toRat : ℝ)|
      ≤ 2 ^ (-18 : ℤ) * |(s.C_P.toRat : ℝ) * (s.propeller_diameter.toRat : ℝ)
            * ((calculateMaxThrust M_PIf32 s).max_thrust.toRat : ℝ)| := by
  obtain ⟨CT, CP, rho, rpm, D, ph, tc, rz, rps0, ms0, mss0, T0, Q0⟩ := s
  obtain ⟨-, -, -, -, -, h6, h7, h8, h9, h10, h11, h12, h13, h14⟩ := h
  simp only [calculateMaxThrust]
  simp only at h6 h7 h8 h9 h10 h11 h12 h13 h14
  -- thrust chain
  obtain ⟨a, b, c, rfl, rfl, hc, hc0, w1⟩ := FP.mul_of_isNormal h6
  rw [hc] at h7 h9 ⊢
  obtain ⟨c', n, x, hcc, hn, hx, hx0, w2⟩ := FP.mul_of_isNormal h7
  cases hcc
  rw [hx] at h9 ⊢
  obtain ⟨d, d4, rfl, hd4, hd40, w4⟩ := FP.pow_of_isNormal (by norm_num) h8
  rw [hd4] at h9 ⊢
  obtain ⟨T, hT, hT0, w3⟩ := FP.fin_mul_fin_of_isNormal rfl h9
  rw [hT]
  -- torque chain
  obtain ⟨a', b', cP, rfl, hb', hcP, hcP0, w5⟩ := FP.mul_of_isNormal h10
  cases hb'
  rw [hcP, hn] at h11 h13 h14 ⊢
  obtain ⟨y, hy, hy0, w6⟩ := FP.fin_mul_fin_of_isNormal rfl h11
  rw [hy] at h13 h14 ⊢
  obtain ⟨d', d5, hdd, hd5, hd50, w9⟩ := FP.pow_of_isNormal (by norm_num) h12
  cases hdd
  rw [hd5] at h13 h14 ⊢
  obtain ⟨z, hz, hz0, w7⟩ := FP.fin_mul_fin_of_isNormal rfl h13
  rw [hz, FP.two_mul_M_PIf32] at h14 ⊢
  obtain ⟨z', q, hzz, hq, hq0, w8⟩ := FP.div_of_isNormal (by norm_num) h14
  cases hzz
  rw [hq]
  simp only [FP.toRat]
  -- every value involved is non-zero
  have ha : a ≠ 0 := left_ne_zero_of_mul (withinRounding_ne_zero_of_div w1)
  have hb : b ≠ 0 := right_ne_zero_of_mul (withinRounding_ne_zero_of_div w1)
  have hn0 : n ≠ 0 := right_ne_zero_of_mul (withinRounding_ne_zero_of_div w2)
  have ha' : a' ≠ 0 := left_ne_zero_of_mul (withinRounding_ne_zero_of_div w5)
  have hd : d ≠ 0 := by
    have := withinRounding_ne_zero_of_div w4
    exact fun h0 => this (by rw [h0]; norm_num)
  -- the ratio of the two sides, with `2 * M_PIf` for `2 * pi`, is a ratio of rounding factors
  have hg : withinRounding 11 ((13176795 / 2097152 * a * q) / (a' * d * T)) := by
    have e : (13176795 / 2097152 * a * q) / (a' * d * T)
        = (a * b / c * (c * n / x) * (x * d4 / T) * (d ^ 4 / d4))
          / (a' * b / cP * (cP * n / y) * (y * d5 / z) * (z / (13176795 / 2097152) / q)
              * (d ^ 5 / d5)) := by
      field_simp
      ring
    rw [e]
    exact withinRounding_div
      (withinRounding_mul (withinRounding_mul (withinRounding_mul w1 w2) w3) w4)
      (withinRounding_mul (withinRounding_mul (withinRounding_mul (withinRounding_mul w5 w6) w7)
        w8) w9)
  refine abs_sub_le_of_withinRounding hg pi_div_M_PIf_within ?_
  have hR : ((a' : ℝ) * d * T) ≠ 0 := by
    have : (a' * d * T : ℚ) ≠ 0 := mul_ne_zero (mul_ne_zero ha' hd) hT0
    exact_mod_cast this
  have hR' : (a' : ℝ) ≠ 0 ∧ (d : ℝ) ≠ 0 ∧ (T : ℝ) ≠ 0 := by
    refine ⟨?_, ?_, ?_⟩ <;> norm_cast
  obtain ⟨h1, h2, h3⟩ := hR'
  push_cast
  field_simp
  ring

/-- C16 (amended, at a concrete input): the all-ones record at 60 revolutions per
minute computes in the normal range, and its two limits satisfy the relation up to
`2 ^ (-18)`. -/
theorem calculateMaxThrust_torque_thrust_relation_witness :
    normalRange M_PIf32 (unitParams : RotorParams FP) ∧
    |2 * Real.pi * ((unitParams : RotorParams FP).C_T.toRat : ℝ)
          * ((calculateMaxThrust M_PIf32 (unitParams : RotorParams FP)).max_torque.toRat : ℝ)
        - ((unitParams : RotorParams FP).C_P.toRat : ℝ)
            * ((unitParams : RotorParams FP).propeller_diameter.toRat : ℝ)
            * ((calculateMaxThrust M_PIf32 (unitParams : RotorParams FP)).max_thrust.toRat : ℝ)|
      ≤ 2 ^ (-18 : ℤ) * |((unitParams : RotorParams FP).C_P.toRat : ℝ)
            * ((unitParams : RotorParams FP).propeller_diameter.toRat : ℝ)
            * ((calculateMaxThrust M_PIf32 (unitParams : RotorParams FP)).max_thrust.toRat : ℝ)| :=
  ⟨normalRange_unitParams.1,
    calculateMaxThrust_torque_thrust_relation unitParams normalRange_unitParams.1⟩

/-- C16 (counterexample): the relation `2*pi * C_T * max_torque =
C_P * propeller_diameter * max_thrust` fails in `float` arithmetic. On the all-ones
record at 60 revolutions per minute, which computes in the normal range, the right
side is 1 and the left side is `2*pi` times a rational. On the record with
`C_T = 2 ^ 20` and `propeller_diameter = 2 ^ (-31)` the power `pow(D, 5)` underflows:
`max_torque` is 0 while `max_thrust` is `2 ^ (-104)`, so the left side is 0 and the
right side is not. -/
theorem calculateMaxThrust_relation_not_exact :
    (normalRange M_PIf32 (unitParams : RotorParams FP) ∧
      2 * Real.pi * ((unitParams : RotorParams FP).C_T.toRat : ℝ)
          * ((calculateMaxThrust M_PIf32 (unitParams : RotorParams FP)).max_torque.toRat : ℝ)
        ≠ ((unitParams : RotorParams FP).C_P.toRat : ℝ)
            * ((unitParams : RotorParams FP).propeller_diameter.toRat : ℝ)
            * ((calculateMaxThrust M_PIf32
                (unitParams : RotorParams FP)).max_thrust.toRat : ℝ)) ∧
    (FP.round32 (2 ^ 20) = FP.fin (2 ^ 20) ∧
      FP.round32 (2 ^ (-31 : ℤ)) = FP.fin (2 ^ (-31 : ℤ)) ∧
      (calculateMaxThrust M_PIf32 smallDiameterParams).max_torque = FP.fin 0 ∧
      (calculateMaxThrust M_PIf32 smallDiameterParams).max_thrust = FP.fin (2 ^ (-104 : ℤ)) ∧
      2 * Real.pi * (smallDiameterParams.C_T.toRat : ℝ)
          * ((calculateMaxThrust M_PIf32 smallDiameterParams).max_torque.toRat : ℝ)
        ≠ (smallDiameterParams.C_P.toRat : ℝ)
            * (smallDiameterParams.propeller_diameter.toRat : ℝ)
            * ((calculateMaxThrust M_PIf32 smallDiameterParams).max_thrust.toRat : ℝ)) := by
  have hone : (FP.fin 1 : FP) * FP.fin 1 = FP.fin 1 := by
    rw [FP.fin_mul_fin, mul_one, FP.round32_one]
  have hrps : (60 : FP) / 60 = FP.fin 1 := by
    rw [FP.sixty_eq, FP.fin_div_fin (by norm_num), div_self (by norm_num), FP.round32_one]
  constructor
  · refine ⟨normalRange_unitParams.1, ?_⟩
    rw [normalRange_unitParams.2]
    have hCT : (unitParams : RotorParams FP).C_T.toRat = 1 := by
      show (1 : FP).toRat = 1
      rw [FP.one_eq]
      rfl
    have hCP : (unitParams : RotorParams FP).C_P.toRat = 1 := by
      show (1 : FP).toRat = 1
      rw [FP.one_eq]
      rfl
    have hD : (unitParams : RotorParams FP).propeller_diameter.toRat = 1 := by
      show (1 : FP).toRat = 1
      rw [FP.one_eq]
      rfl
    have hT1 : (FP.fin 1 : FP).toRat = 1 := rfl
    rw [hCT, hCP, hD, hT1]
    generalize (calculateMaxThrust M_PIf32 (unitParams : RotorParams FP)).max_torque.toRat = q
    intro h
    have h' : 2 * Real.pi * (q : ℝ) = 1 := by simpa using h
    have hq : q ≠ 0 := by
      rintro rfl
      norm_num at h'
    have hq' : (q : ℝ) ≠ 0 := by exact_mod_cast hq
    have hpi : Real.pi = ((1 / (2 * q) : ℚ) : ℝ) := by
      push_cast
      field_simp
      linarith
    exact irrational_pi.ne_rat _ hpi
  · have h20 : FP.round32 (2 ^ 20) = FP.fin (2 ^ 20) :=
      FP.round32_of_eq 1 20 (by norm_num) (by norm_num) (by norm_num) (by norm_num)
    have h31 : FP.round32 (2 ^ (-31 : ℤ)) = FP.fin (2 ^ (-31 : ℤ)) :=
      FP.round32_of_eq 1 (-31) (by norm_num) (by norm_num) (by norm_num) (by norm_num)
    have hc : (FP.fin (2 ^ 20) : FP) * FP.fin 1 = FP.fin (2 ^ 20) := by
      rw [FP.fin_mul_fin, mul_one, h20]
    have hd4 : (FP.fin (2 ^ (-31 : ℤ)) : FP) ^ 4 = FP.fin (2 ^ (-124 : ℤ)) := by
      show FP.narrow (FP.round64 ((2 ^ (-31 : ℤ) : ℚ) ^ 4)) = _
      have e : ((2 : ℚ) ^ (-31 : ℤ)) ^ 4 = 2 ^ (-124 : ℤ) := by
        rw [← zpow_natCast, ← zpow_mul]
        norm_num
      rw [e, FP.round64_of_eq 1 (-124) (by norm_num) (by norm_num) (by norm_num) (by norm_num)]
      exact FP.round32_of_eq 1 (-124) (by norm_num) (by norm_num) (by norm_num) (by norm_num)
    have hd5 : (FP.fin (2 ^ (-31 : ℤ)) : FP) ^ 5 = FP.fin 0 := by
      show FP.narrow (FP.round64 ((2 ^ (-31 : ℤ) : ℚ) ^ 5)) = _
      have e : ((2 : ℚ) ^ (-31 : ℤ)) ^ 5 = 2 ^ (-155 : ℤ) := by
        rw [← zpow_natCast, ← zpow_mul]
        norm_num
      rw [e, FP.round64_of_eq 1 (-155) (by norm_num) (by norm_num) (by norm_num) (by norm_num)]
      apply FP.round32_underflow
      rw [abs_of_pos (by positivity)]
      exact zpow_lt_zpow_right₀ (by norm_num) (by norm_num)
    have hT' : (FP.fin (2 ^ 20) : FP) * FP.fin (2 ^ (-124 : ℤ)) = FP.fin (2 ^ (-104 : ℤ)) := by
      rw [FP.fin_mul_fin]
      have e : (2 ^ 20 : ℚ) * 2 ^ (-124 : ℤ) = 2 ^ (-104 : ℤ) := by
        rw [← zpow_natCast, ← zpow_add₀ (by norm_num : (2 : ℚ) ≠ 0)]
        norm_num
      rw [e]
      exact FP.round32_of_eq 1 (-104) (by norm_num) (by norm_num) (by norm_num) (by norm_num)
    have hQ : (calculateMaxThrust M_PIf32 smallDiameterParams).max_torque = FP.fin 0 := by
      simp only [calculateMaxThrust, smallDiameterParams]
      rw [hrps, FP.one_eq, hone, hone, hd5, FP.fin_mul_zero, FP.fin_zero_div_two_mul_M_PIf32]
    have hT : (calculateMaxThrust M_PIf32 smallDiameterParams).max_thrust
        = FP.fin (2 ^ (-104 : ℤ)) := by
      simp only [calculateMaxThrust, smallDiameterParams]
      rw [hrps, FP.one_eq, hone, hc, hc, hd4, hT']
    refine ⟨h20, h31, hQ, hT, ?_⟩
    rw [hQ, hT]
    have hCP : smallDiameterParams.C_P.toRat = 1 := by
      show (1 : FP).toRat = 1
      rw [FP.one_eq]
      rfl
    rw [hCP]
    simp only [smallDiameterParams, FP.toRat]
    have : (0 : ℝ) < ((1 : ℚ) : ℝ) * (((2 : ℚ) ^ (-31 : ℤ) : ℚ) : ℝ)
        * (((2 : ℚ) ^ (-104 : ℤ) : ℚ) : ℝ) := by
      push_cast
      positivity
    intro h
    rw [← h] at this
    simp at this

/-- C17 (amended): in `float` arithmetic, for a record with `max_rpm = r` and a factor
`k` such that `k * r` is the new `max_rpm`, whenever every value that
`calculateMaxThrust` computes at both speeds is a normal `float` (nothing overflows
or underflows), the scaling holds up to rounding: `revolutions_per_second` and
`max_speed` at `k * r` differ from `k` times their values at `r` by at most
`2 ^ (-18)` of the latter, and `max_speed_square`, `max_thrust` and `max_torque`
differ from `k ^ 2` times their values at `r` by at most `2 ^ (-18)` of the latter. -/
theorem calculateMaxThrust_scaling (s : RotorParams FP) (r k : ℚ) (hr : s.max_rpm = FP.fin r)
    (h1 : normalRange M_PIf32 s)
    (h2 : normalRange M_PIf32 { s with max_rpm := FP.fin (k * r) }) :
    |(calculateMaxThrust M_PIf32
          { s with max_rpm := FP.fin (k * r) }).revolutions_per_second.toRat
        - k * (calculateMaxThrust M_PIf32 s).revolutions_per_second.toRat|
      ≤ 2 ^ (-18 : ℤ) * |k * (calculateMaxThrust M_PIf32 s).revolutions_per_second.toRat| ∧
    |(calculateMaxThrust M_PIf32 { s with max_rpm := FP.fin (k * r) }).max_speed.toRat
        - k * (calculateMaxThrust M_PIf32 s).max_speed.toRat|
      ≤ 2 ^ (-18 : ℤ) * |k * (calculateMaxThrust M_PIf32 s).max_speed.toRat| ∧
    |(calculateMaxThrust M_PIf32 { s with max_rpm := FP.fin (k * r) }).max_speed_square.toRat
        - k ^ 2 * (calculateMaxThrust M_PIf32 s).max_speed_square.toRat|
      ≤ 2 ^ (-18 : ℤ) * |k ^ 2 * (calculateMaxThrust M_PIf32 s).max_speed_square.toRat| ∧
    |(calculateMaxThrust M_PIf32 { s with max_rpm := FP.fin (k * r) }).max_thrust.toRat
        - k ^ 2 * (calculateMaxThrust M_PIf32 s).max_thrust.toRat|
      ≤ 2 ^ (-18 : ℤ) * |k ^ 2 * (calculateMaxThrust M_PIf32 s).max_thrust.toRat| ∧
    |(calculateMaxThrust M_PIf32 { s with max_rpm := FP.fin (k * r) }).max_torque.toRat
        - k ^ 2 * (calculateMaxThrust M_PIf32 s).max_torque.toRat|
      ≤ 2 ^ (-18 : ℤ) * |k ^ 2 * (calculateMaxThrust M_PIf32 s).max_torque.toRat| := by
  obtain ⟨CT, CP, rho, rpm, D, ph, tc, rz, rps0, ms0, mss0, T0, Q0⟩ := s
  simp only at hr
  subst hr
  obtain ⟨a1, a2, a3, a4, a5, a6, a7, a8, a9, a10, a11, a12, a13, a14⟩ := h1
  obtain ⟨b1, b2, b3, b4, b5, -, b7, -, b9, -, b11, -, b13, b14⟩ := h2
  simp only [calculateMaxThrust]
  simp only at a1 a2 a3 a4 a5 a6 a7 a8 a9 a10 a11 a12 a13 a14 b1 b2 b3 b4 b5 b7 b9 b11 b13 b14
  rw [FP.two_mul_M_PIf32] at a14 b14 ⊢
  simp only [FP.sixty_eq, FP.two_eq, M_PIf32] at *
  -- the chain of roundings at the speed `r`
  obtain ⟨p, hp, hp0, t1⟩ := FP.fin_div_fin_of_isNormal (by norm_num) a1
  rw [hp] at a2 a3 a4 a5 a7 a9 a11 a13 a14 ⊢
  obtain ⟨p2, hp2, hp20, t2⟩ := FP.fin_mul_fin_of_isNormal rfl a2
  rw [hp2] at a3 a4 ⊢
  obtain ⟨m, hm, hm0, t3⟩ := FP.fin_mul_fin_of_isNormal rfl a3
  rw [hm] at a4 ⊢
  obtain ⟨M, hM, hM0, t4⟩ := FP.fin_pow_of_isNormal (by norm_num) a4
  rw [hM]
  obtain ⟨n, hn, hn0, t5⟩ := FP.fin_mul_fin_of_isNormal rfl a5
  rw [hn] at a7 a9 a11 a13 a14 ⊢
  obtain ⟨a, b, c, rfl, rfl, hc, hc0, t6⟩ := FP.mul_of_isNormal a6
  rw [hc] at a7 a9 b7 b9 ⊢
  obtain ⟨x, hx, hx0, t7⟩ := FP.fin_mul_fin_of_isNormal rfl a7
  rw [hx] at a9 ⊢
  obtain ⟨d, d4, rfl, hd4, hd40, t8⟩ := FP.pow_of_isNormal (by norm_num) a8
  rw [hd4] at a9 b9 ⊢
  obtain ⟨T, hT, hT0, t9⟩ := FP.fin_mul_fin_of_isNormal rfl a9
  rw [hT]
  obtain ⟨a', b', cP, rfl, hb', hcP, hcP0, t10⟩ := FP.mul_of_isNormal a10
  cases hb'
  rw [hcP] at a11 a13 a14 b11 b13 b14 ⊢
  obtain ⟨y, hy, hy0, t11⟩ := FP.fin_mul_fin_of_isNormal rfl a11
  rw [hy] at a13 a14 ⊢
  obtain ⟨d5, hd5, hd50, t12⟩ := FP.fin_pow_of_isNormal (by norm_num) a12
  rw [hd5] at a13 a14 b13 b14 ⊢
  obtain ⟨z, hz, hz0, t13⟩ := FP.fin_mul_fin_of_isNormal rfl a13
  rw [hz] at a14 ⊢
  obtain ⟨q, hq, hq0, t14⟩ := FP.fin_div_fin_of_isNormal (by norm_num) a14
  rw [hq]
  -- the chain of roundings at the speed `k * r`
  obtain ⟨p', hp', hp0', u1⟩ := FP.fin_div_fin_of_isNormal (by norm_num) b1
  rw [hp'] at b2 b3 b4 b5 b7 b9 b11 b13 b14 ⊢
  obtain ⟨p2', hp2', hp20', u2⟩ := FP.fin_mul_fin_of_isNormal rfl b2
  rw [hp2'] at b3 b4 ⊢
  obtain ⟨m', hm', hm0', u3⟩ := FP.fin_mul_fin_of_isNormal rfl b3
  rw [hm'] at b4 ⊢
  obtain ⟨M', hM', hM0', u4⟩ := FP.fin_pow_of_isNormal (by norm_num) b4
  rw [hM']
  obtain ⟨n', hn', hn0', u5⟩ := FP.fin_mul_fin_of_isNormal rfl b5
  rw [hn'] at b7 b9 b11 b13 b14 ⊢
  obtain ⟨x', hx', hx0', u7⟩ := FP.fin_mul_fin_of_isNormal rfl b7
  rw [hx'] at b9 ⊢
  obtain ⟨T', hT', hT0', u9⟩ := FP.fin_mul_fin_of_isNormal rfl b9
  rw [hT']
  obtain ⟨y', hy', hy0', u11⟩ := FP.fin_mul_fin_of_isNormal rfl b11
  rw [hy'] at b13 b14 ⊢
  obtain ⟨z', hz', hz0', u13⟩ := FP.fin_mul_fin_of_isNormal rfl b13
  rw [hz'] at b14 ⊢
  obtain ⟨q', hq', hq0', u14⟩ := FP.fin_div_fin_of_isNormal (by norm_num) b14
  rw [hq']
  simp only [FP.toRat]
  -- how the exact inputs of each rounding scale, then the rounded values
  have s0 : scaledWithin 0 k (r / 60) (k * r / 60) := by
    have h := scaledWithin_div_const 60 (scaledWithin_base k r)
    exact h
  have s1 := scaledWithin_round t1 u1 hp0 s0
  have s2 := scaledWithin_round t2 u2 hp20 (scaledWithin_mul_const 2 s1)
  have s3 := scaledWithin_round t3 u3 hm0 (scaledWithin_mul_const (13176795 / 4194304) s2)
  have s4 := scaledWithin_round t4 u4 hM0 (scaledWithin_pow_two s3)
  have s5 := scaledWithin_round t5 u5 hn0 (scaledWithin_mul s1 s1)
  have s7 := scaledWithin_round t7 u7 hx0 (scaledWithin_const_mul c s5)
  have s9 := scaledWithin_round t9 u9 hT0 (scaledWithin_mul_const d4 s7)
  have s11 := scaledWithin_round t11 u11 hy0 (scaledWithin_const_mul cP s5)
  have s13 := scaledWithin_round t13 u13 hz0 (scaledWithin_mul_const d5 s11)
  have s14 := scaledWithin_round t14 u14 hq0
    (scaledWithin_div_const (13176795 / 2097152) s13)
  have ek : k * k = k ^ 2 := by ring
  rw [ek] at s4 s5 s7 s9 s11 s13 s14
  exact ⟨abs_sub_le_of_scaledWithin s1 (by norm_num), abs_sub_le_of_scaledWithin s3 (by norm_num),
    abs_sub_le_of_scaledWithin s4 (by norm_num), abs_sub_le_of_scaledWithin s9 (by norm_num),
    abs_sub_le_of_scaledWithin s14 (by norm_num)⟩

/-- C17 (witness): the all-ones record at 60 revolutions per minute and the factor 3
meet the hypotheses, so `max_thrust` at 180 revolutions per minute is within
`2 ^ (-18)` of 9 times its value at 60. -/
theorem calculateMaxThrust_scaling_witness :
    (unitParams : RotorParams FP).max_rpm = FP.fin 60 ∧
    normalRange M_PIf32 (unitParams : RotorParams FP) ∧
    normalRange M_PIf32 { (unitParams : RotorParams FP) with max_rpm := FP.fin (3 * 60) } ∧
    |(calculateMaxThrust M_PIf32
          { (unitParams : RotorParams FP) with max_rpm := FP.fin (3 * 60) }).max_thrust.toRat
        - 3 ^ 2 * (calculateMaxThrust M_PIf32 (unitParams : RotorParams FP)).max_thrust.toRat|
      ≤ 2 ^ (-18 : ℤ)
        * |3 ^ 2 * (calculateMaxThrust M_PIf32 (unitParams : RotorParams FP)).max_thrust.toRat| :=
  ⟨FP.sixty_eq, normalRange_unitParams.1, normalRange_unitParams_180.1,
    (calculateMaxThrust_scaling unitParams 60 3 FP.sixty_eq normalRange_unitParams.1
      normalRange_unitParams_180.1).2.2.2.1⟩

/-- C17 (counterexample): in `float` arithmetic the scaling is not exact, and fails
outright on overflow. On the all-ones record, going from `max_rpm = 60` to
`3 * 60` (every computed value a normal `float` at both speeds) gives
`max_speed = 9882596 / 2 ^ 19`, which is not 3 times the value `13176795 / 2 ^ 21` at 60,
and `max_torque = 12015796 / 2 ^ 23`, which is neither 9 times the value
`10680707 / 2 ^ 26` at 60 nor the `float` product of 9 and that value
(`12015795 / 2 ^ 23`). With `propeller_diameter = 0` and all other coefficients 1,
`max_thrust` is 0 at `max_rpm = 15 * 2 ^ 32` and not-a-number at `2 ^ 40` times that
speed. All four speeds are `float`s. -/
theorem calculateMaxThrust_scaling_not_exact :
    (unitParams : RotorParams FP).max_rpm = FP.fin 60 ∧
    FP.round32 (3 * 60) = FP.fin (3 * 60) ∧
    FP.round32 (15 * 2 ^ 32) = FP.fin (15 * 2 ^ 32) ∧
    normalRange M_PIf32 (unitParams : RotorParams FP) ∧
    normalRange M_PIf32 { (unitParams : RotorParams FP) with max_rpm := FP.fin (3 * 60) } ∧
    (calculateMaxThrust M_PIf32 (unitParams : RotorParams FP)).max_speed
      = FP.fin (13176795 / 2097152) ∧
    (calculateMaxThrust M_PIf32
      { (unitParams : RotorParams FP) with max_rpm := FP.fin (3 * 60) }).max_speed
      = FP.fin (9882596 / 524288) ∧
    (calculateMaxThrust M_PIf32
      { (unitParams : RotorParams FP) with max_rpm := FP.fin (3 * 60) }).max_speed.toRat
      ≠ 3 * (calculateMaxThrust M_PIf32 (unitParams : RotorParams FP)).max_speed.toRat ∧
    (calculateMaxThrust M_PIf32 (unitParams : RotorParams FP)).max_torque
      = FP.fin (10680707 / 67108864) ∧
    (calculateMaxThrust M_PIf32
      { (unitParams : RotorParams FP) with max_rpm := FP.fin (3 * 60) }).max_torque
      = FP.fin (12015796 / 8388608) ∧
    (calculateMaxThrust M_PIf32
      { (unitParams : RotorParams FP) with max_rpm := FP.fin (3 * 60) }).max_torque.toRat
      ≠ 3 ^ 2 * (calculateMaxThrust M_PIf32 (unitParams : RotorParams FP)).max_torque.toRat ∧
    (9 : FP) * (calculateMaxThrust M_PIf32 (unitParams : RotorParams FP)).max_torque
      = FP.fin (12015795 / 8388608) ∧
    (calculateMaxThrust M_PIf32
      { (unitParams : RotorParams FP) with max_rpm := FP.fin (3 * 60) }).max_torque
      ≠ (9 : FP) * (calculateMaxThrust M_PIf32 (unitParams : RotorParams FP)).max_torque ∧
    (calculateMaxThrust M_PIf32
      { overflowParams with max_rpm := FP.fin (15 * 2 ^ 32) }).max_thrust = FP.fin 0 ∧
    overflowParams.max_rpm = FP.fin (2 ^ 40 * (15 * 2 ^ 32)) ∧
    (calculateMaxThrust M_PIf32 overflowParams).max_thrust = FP.nan := by
  have hone : (FP.fin 1 : FP) * FP.fin 1 = FP.fin 1 := by
    rw [FP.fin_mul_fin, mul_one, FP.round32_one]
  have r9 : FP.round32 9 = FP.fin 9 := by
    simpa using FP.round32_natCast (n := 9) (by norm_num)
  have nine_eq : (9 : FP) = FP.fin 9 := r9
  -- the record at 60 revolutions per minute
  have hrps : (60 : FP) / 60 = FP.fin 1 := by
    rw [FP.sixty_eq, FP.fin_div_fin (by norm_num), div_self (by norm_num), FP.round32_one]
  have h12 : (FP.fin 1 : FP) * 2 = FP.fin 2 := by
    rw [FP.two_eq, FP.fin_mul_fin, one_mul]
    simpa using FP.round32_natCast (n := 2) (by norm_num)
  have hms : (FP.fin 2 : FP) * M_PIf32 = FP.fin (13176795 / 2097152) := by
    rw [← FP.two_eq]
    exact FP.two_mul_M_PIf32
  have hq60 : (FP.fin 1 : FP) / FP.fin (13176795 / 2097152)
      = FP.fin (10680707 / 67108864) := by
    rw [FP.fin_div_fin (by norm_num)]
    have e : (10680707 : ℚ) / 67108864 = ((10680707 : ℕ) : ℚ) * 2 ^ (-26 : ℤ) := by norm_num
    rw [e]
    apply FP.round32_eq_of_close 10680707 (-26) (by norm_num)
    · norm_num
    · norm_num
    · rw [abs_lt]
      constructor <;> norm_num
    · norm_num
  have ms60 : (calculateMaxThrust M_PIf32 (unitParams : RotorParams FP)).max_speed
      = FP.fin (13176795 / 2097152) := by
    simp only [calculateMaxThrust, unitParams]
    rw [hrps, h12, hms]
  have q60 : (calculateMaxThrust M_PIf32 (unitParams : RotorParams FP)).max_torque
      = FP.fin (10680707 / 67108864) := by
    simp only [calculateMaxThrust, unitParams]
    rw [hrps, FP.one_eq, hone, hone, FP.pow_fin_one, hone, FP.two_mul_M_PIf32, hq60]
  -- the record at 180 revolutions per minute
  have r3 : FP.round32 3 = FP.fin 3 := by
    simpa using FP.round32_natCast (n := 3) (by norm_num)
  have hrps3 : (FP.fin (3 * 60) : FP) / 60 = FP.fin 3 := by
    rw [FP.sixty_eq, FP.fin_div_fin (by norm_num)]
    have e : (3 * 60 : ℚ) / 60 = 3 := by norm_num
    rw [e, r3]
  have h33 : (FP.fin 3 : FP) * FP.fin 3 = FP.fin 9 := by
    rw [FP.fin_mul_fin]
    have e : (3 : ℚ) * 3 = 9 := by norm_num
    rw [e, r9]
  have h19 : (FP.fin 1 : FP) * FP.fin 9 = FP.fin 9 := by
    rw [FP.fin_mul_fin, one_mul, r9]
  have h91 : (FP.fin 9 : FP) * FP.fin 1 = FP.fin 9 := by
    rw [FP.fin_mul_fin, mul_one, r9]
  have hq180 : (FP.fin 9 : FP) / FP.fin (13176795 / 2097152)
      = FP.fin (12015796 / 8388608) := by
    rw [FP.fin_div_fin (by norm_num)]
    have e : (12015796 : ℚ) / 8388608 = ((12015796 : ℕ) : ℚ) * 2 ^ (-23 : ℤ) := by norm_num
    rw [e]
    apply FP.round32_eq_of_close 12015796 (-23) (by norm_num)
    · norm_num
    · norm_num
    · rw [abs_lt]
      constructor <;> norm_num
    · norm_num
  have q180 : (calculateMaxThrust M_PIf32
      { (unitParams : RotorParams FP) with max_rpm := FP.fin (3 * 60) }).max_torque
      = FP.fin (12015796 / 8388608) := by
    simp only [calculateMaxThrust, unitParams]
    rw [hrps3, h33, FP.one_eq, hone, h19, FP.pow_fin_one, h91, FP.two_mul_M_PIf32, hq180]
  -- the float product of 9 and the torque at 60
  have hprod : (9 : FP) * FP.fin (10680707 / 67108864) = FP.fin (12015795 / 8388608) := by
    rw [nine_eq, FP.fin_mul_fin]
    have e : (12015795 : ℚ) / 8388608 = ((12015795 : ℕ) : ℚ) * 2 ^ (-23 : ℤ) := by norm_num
    rw [e]
    apply FP.round32_eq_of_close 12015795 (-23) (by norm_num)
    · norm_num
    · norm_num
    · rw [abs_lt]
      constructor <;> norm_num
    · norm_num
  -- the record with a zero diameter below the overflow threshold
  have hrpsz : (FP.fin (15 * 2 ^ 32) : FP) / 60 = FP.fin (2 ^ 30) := by
    rw [FP.sixty_eq, FP.fin_div_fin (by norm_num),
      FP.round32_of_eq 1 30 (by norm_num) (by norm_num) (by norm_num) (by norm_num)]
    norm_num
  have hnsqz : (FP.fin (2 ^ 30) : FP) * FP.fin (2 ^ 30) = FP.fin (2 ^ 60) := by
    rw [FP.fin_mul_fin,
      FP.round32_of_eq 1 60 (by norm_num) (by norm_num) (by norm_num) (by norm_num)]
    norm_num
  have h1z : (FP.fin 1 : FP) * FP.fin (2 ^ 60) = FP.fin (2 ^ 60) := by
    rw [FP.fin_mul_fin,
      FP.round32_of_eq 1 60 (by norm_num) (by norm_num) (by norm_num) (by norm_num)]
    norm_num
  have hpow4 : (0 : FP) ^ 4 = FP.fin 0 := by
    rw [FP.zero_eq]
    exact FP.pow_fin_zero (by norm_num)
  have tz : (calculateMaxThrust M_PIf32
      { overflowParams with max_rpm := FP.fin (15 * 2 ^ 32) }).max_thrust = FP.fin 0 := by
    simp only [calculateMaxThrust, overflowParams]
    rw [hrpsz, hnsqz, FP.one_eq, hone, h1z, hpow4, FP.fin_mul_zero]
  have rep180 : FP.round32 (3 * 60) = FP.fin (3 * 60) := by
    have e : (3 * 60 : ℚ) = ((180 : ℕ) : ℚ) := by norm_num
    rw [e]
    exact FP.round32_natCast (n := 180) (by norm_num)
  have repz : FP.round32 (15 * 2 ^ 32) = FP.fin (15 * 2 ^ 32) :=
    FP.round32_of_eq 15 32 (by norm_num) (by norm_num) (by norm_num) (by norm_num)
  refine ⟨FP.sixty_eq, rep180, repz, normalRange_unitParams.1, normalRange_unitParams_180.1,
    ms60, normalRange_unitParams_180.2, ?_, q60, q180, ?_, ?_, ?_, tz, ?_,
    overflowParams_limits.1⟩
  · rw [normalRange_unitParams_180.2, ms60]
    simp only [FP.toRat]
    norm_num
  · rw [q180, q60]
    simp only [FP.toRat]
    norm_num
  · rw [q60, hprod]
  · rw [q180, q60, hprod]
    intro h
    injection h with h
    norm_num at h
  · simp only [overflowParams]
    norm_num

end msr.airlib
